import Mathlib

/-!
# Linux_Servers: the echo servers and their per-connection accounting

A shallow embedding of the three echo servers of the repository
(`srv_epoll.c`, `srv_poll.c`, `srv_thread.c`), of the send loop of the client
(`clt_thread.c`), of the byte counters and the appends of `log.c`, and of
the way the programs start (`main`, `valid_args`, `run_srv`, `setup_srv`).

Conventions of the embedding.

* C arrays (`_stats`, `_events`, `_clts`, `_recv_buff`) are total functions
  from the index to the element; a loop `for(j = 0; j < MAXEVENTS; j++)`
  only ever looks at the indices below its bound.  A write at an index
  outside the array ends the run in `Flow.undefined`.
* Arrays that the C code leaves uninitialised start from an arbitrary
  value that is a parameter of the run.
* The operating system is a script: every readiness wait, `accept`, `recv`
  and `send` takes its result from the script, in program order.
* The calls the servers make that matter to the outside world (`close`,
  `send`, `append_srv_data`, ...) are recorded, in order, in a trace.
* A read of memory that has been freed returns a value that is a parameter
  of the run.
* `int` counters are `Int`; the `float` fields of `struct Bytes` and the
  `double` times of the client are exact rationals.  The one `double`
  expression whose rounding decides an integer, the idle timeout of the
  reactors, is rounded as IEEE 754 binary64 does (`to_double`).
* `PKTSIZE` is a parameter `P` of every server (the headers fix it to 1000,
  see `PKTSIZE`); the table sizes are the constants of the headers.
-/

set_option maxRecDepth 100000

namespace LinuxServers

/-! ## Constants of the headers -/

/-- The constant `KILO` of log.h. -/
def KILO : ℚ := 1000

/-- The constant `PKTSIZE` of srv_epoll.h, srv_poll.h and clt_thread.h. -/
def PKTSIZE : Nat := 1000

/-- The constant `MAXEVENTS` of srv_epoll.h. -/
def MAXEVENTS : Nat := 50000

/-- The constant `MAXCLIENTS` of srv_poll.h. -/
def MAXCLIENTS : Nat := 15000

/-- The flag `EPOLLIN` of sys/epoll.h. -/
def EPOLLIN : Nat := 0x001

/-- The flag `EPOLLERR` of sys/epoll.h. -/
def EPOLLERR : Nat := 0x008

/-- The flag `EPOLLHUP` of sys/epoll.h. -/
def EPOLLHUP : Nat := 0x010

/-- The flag `POLLIN` of poll.h. -/
def POLLIN : Int := 0x001

/-! ## log.h / log.c -/

/-- The `struct Bytes` of log.h: total bytes transferred. -/
structure Bytes where
  bytes : ℚ
  kilobytes : ℚ
  megabytes : ℚ
  gigabytes : ℚ
  deriving DecidableEq

/-- The `struct srv_log_stats` of log.h; `tm` is the time of connection. -/
structure srv_log_stats where
  tm : Nat
  bytes : Bytes
  clt_ip : String
  requests : Int
  sd : Int
  deriving DecidableEq

/-- The function `init_bytes_struct` of log.c. -/
def init_bytes_struct (_data : Bytes) : Bytes :=
  { bytes := 0, kilobytes := 0, megabytes := 0, gigabytes := 0 }

/-- The function `update_bytes_struct` of log.c. -/
def update_bytes_struct (data : Bytes) (bytes : Int) : Bytes :=
  let d1 : Bytes := { data with bytes := data.bytes + (bytes : ℚ) }
  if d1.bytes ≥ KILO then
    let d2 : Bytes := { d1 with kilobytes := d1.kilobytes + d1.bytes / KILO, bytes := 0 }
    if d2.kilobytes ≥ KILO then
      let d3 : Bytes := { d2 with megabytes := d2.kilobytes / KILO }
      if d3.megabytes ≥ KILO then
        { d3 with gigabytes := d3.megabytes / KILO }
      else d3
    else d2
  else d1

/-- The byte total a `struct Bytes` stands for: the `bytes` field plus
`KILO` times the `kilobytes` field (`megabytes` and `gigabytes` are
recomputed from `kilobytes`, they hold no bytes of their own). -/
def Bytes.total (data : Bytes) : ℚ := data.bytes + KILO * data.kilobytes

/-! ## What the servers do to the outside world -/

/-- One call a server makes, as recorded in the trace of a run. -/
inductive Effect where
  | close (fd : Int)
  | accept_ok (sd : Int)
  | accept_would_block
  | accept_error
  | set_nonblocking (sd : Int) (ok : Bool)
  | epoll_ctl_add (fd : Int) (ok : Bool)
  | recv (fd : Int) (ret : Int)
  | send (fd : Int) (payload : List UInt8) (ret : Int)
  | append_srv_data (stats : srv_log_stats)
  | append_total_clients (total : Int)
  | free
  deriving DecidableEq

/-- How a piece of a server loop ends: it falls through to what follows
(`next`), the enclosing function returns (`ret`), or it has written outside
an array (`undefined`).  Each carries the state reached. -/
inductive Flow (σ : Type) where
  | next (s : σ)
  | ret (code : Int) (s : σ)
  | undefined (s : σ)

/-- The state a `Flow` carries. -/
def Flow.state {σ : Type} : Flow σ → σ
  | .next s => s
  | .ret _ s => s
  | .undefined s => s

/-- The value of `j` after `for(; j < bound; j++) if(p j) break;` started
with `n` iterations left: the first index from `j` on at which `p` holds,
or the bound when there is none. -/
def scan (p : Nat → Bool) : Nat → Nat → Nat
  | 0, j => j
  | n + 1, j => if p j then j else scan p n (j + 1)

/-- The array `a` with element `j` replaced by `v`. -/
def setAt {α : Type} (a : Nat → α) (j : Nat) (v : α) : Nat → α :=
  fun k => if k = j then v else a k

/-- The bytes `buff[0 .. P-1]` handed to `send`. -/
def payload (P : Nat) (buff : Nat → UInt8) : List UInt8 :=
  (List.range P).map buff

/-- What `recv(fd, buff, PKTSIZE, MSG_WAITALL)` returns. -/
inductive RecvRes where
  | error
  | closed
  | data (bs : List UInt8)

/-- The bytes a `recv` delivers: never more than the `P` asked for. -/
def RecvRes.got (P : Nat) : RecvRes → List UInt8
  | .data bs => bs.take P
  | _ => []

/-- The return value `_bytes_recv` of a `recv`. -/
def RecvRes.ret (P : Nat) : RecvRes → Int
  | .error => -1
  | r => ((r.got P).length : Int)

/-- The receive buffer after a `recv`: the bytes delivered, then what the
buffer held before. -/
def RecvRes.fill (P : Nat) (r : RecvRes) (buff : Nat → UInt8) : Nat → UInt8 :=
  fun k => if k < (r.got P).length then (r.got P).getD k 0 else buff k

/-! ## srv_epoll.c -/

/-- The `struct epoll_event`: the flag mask and `data.fd`. -/
structure epoll_event where
  events : Nat
  fd : Int
  deriving DecidableEq

/-- A connection `accept` hands out: the new descriptor, the peer address,
the time of the accept, and whether `set_nonblocking` and `epoll_ctl` will
succeed on it. -/
structure NewConn where
  sd : Nat
  clt_ip : String
  t : Nat
  nonblock_ok : Bool
  ctl_ok : Bool

/-- How the `accept` after the last pending connection fails. -/
inductive AcceptEnd where
  | would_block
  | error

/-- What the operating system answers while one reported event is handled:
the event itself, the connections pending on the listening socket and the
failure that follows them, and the results of `recv` and `send`. -/
structure EvIn where
  ev : epoll_event
  pending : List NewConn
  accept_end : AcceptEnd
  recv : RecvRes
  bytes_sent : Int

/-- What `epoll_wait` returns. -/
inductive WaitRes where
  | error
  | timeout
  | ready (evs : List EvIn)

/-- The variables of `run_epoll_loop`, and the trace of its calls. -/
structure EpollState where
  sd_listen : Int
  esd : Int
  events : Nat → epoll_event
  stats : Nat → srv_log_stats
  recv_buff : Nat → UInt8
  total_clts : Int
  trace : List Effect

/-- Append a call to the trace. -/
def EpollState.emit (s : EpollState) (e : Effect) : EpollState :=
  { s with trace := s.trace ++ [e] }

/-- Lines 290-299 of srv_epoll.c: save the new client in the first stats
slot whose `sd` is -1, if there is one. -/
def save_client (stats : Nat → srv_log_stats) (c : NewConn) : Nat → srv_log_stats :=
  let j := scan (fun j => (stats j).sd == -1) MAXEVENTS 0
  if j < MAXEVENTS then
    setAt stats j { stats j with sd := c.sd, tm := c.t, requests := 0, clt_ip := c.clt_ip }
  else stats

/-- Lines 287-299 of srv_epoll.c: count the new client and save it to the
stats array. -/
def register_client (s : EpollState) (c : NewConn) : EpollState :=
  { s with total_clts := s.total_clts + 1, stats := save_client s.stats c }

/-- Lines 251-300 of srv_epoll.c: the `while(1)` around `accept`. -/
def accept_loop (s : EpollState) : List NewConn → AcceptEnd → Flow EpollState
  | [], .would_block => .next (s.emit .accept_would_block)
  | [], .error => .next ((s.emit .accept_error).emit (.close s.sd_listen))
  | c :: rest, e =>
    let s1 := (s.emit (.accept_ok c.sd)).emit (.set_nonblocking c.sd c.nonblock_ok)
    if !c.nonblock_ok then .ret (-1) s1
    else
      let s2 := s1.emit (.epoll_ctl_add c.sd c.ctl_ok)
      if !c.ctl_ok then .ret (-1) (s2.emit (.close s.esd))
      else accept_loop (register_client s2 c) rest e

/-- Lines 306-318 of srv_epoll.c: the client of event `i` disconnected. -/
def epoll_disconnect (s : EpollState) (i : Nat) : EpollState :=
  let j := scan (fun j => (s.stats j).sd == (s.events j).fd) MAXEVENTS 0
  let stats1 :=
    if j < MAXEVENTS then setAt s.stats j { s.stats j with sd := -1 } else s.stats
  (({ s with stats := stats1 }).emit (.close (s.events i).fd)).emit
    (.append_srv_data (stats1 i))

/-- The index `j` lines 321-327 of srv_epoll.c leave behind: the first
stats slot whose `sd` is `fd`, or `MAXEVENTS`. -/
def epoll_slot (stats : Nat → srv_log_stats) (fd : Int) : Nat :=
  scan (fun j => (stats j).sd == fd) MAXEVENTS 0

/-- Lines 319-333 of srv_epoll.c: the socket of event `i` was read. -/
def epoll_echo (P : Nat) (s : EpollState) (i : Nat) (bytes_sent : Int) : Flow EpollState :=
  let fd := (s.events i).fd
  let j := epoll_slot s.stats fd
  let stats1 :=
    if j < MAXEVENTS then
      setAt s.stats j { s.stats j with requests := (s.stats j).requests + 1 }
    else s.stats
  let s1 := ({ s with stats := stats1 }).emit (.send fd (payload P s.recv_buff) bytes_sent)
  if j < MAXEVENTS then
    .next { s1 with
      stats := setAt stats1 j
        { stats1 j with bytes := update_bytes_struct (stats1 j).bytes bytes_sent },
      recv_buff := fun _ => 0 }
  else .undefined s1

/-- Lines 302-334 of srv_epoll.c: data is ready to be read on event `i`. -/
def epoll_data (P : Nat) (s : EpollState) (i : Nat) (e : EvIn) : Flow EpollState :=
  let fd := (s.events i).fd
  let s1 := ({ s with recv_buff := e.recv.fill P s.recv_buff }).emit (.recv fd (e.recv.ret P))
  if e.recv.ret P = 0 then .next (epoll_disconnect s1 i)
  else epoll_echo P s1 i e.bytes_sent

/-- Lines 244-334 of srv_epoll.c: the body of the loop over the events. -/
def epoll_event_body (P : Nat) (s : EpollState) (i : Nat) (e : EvIn) : Flow EpollState :=
  if (s.events i).events &&& (EPOLLHUP &&& EPOLLERR) ≠ 0 then
    .next (s.emit (.close (s.events i).fd))
  else if (s.events i).fd = s.sd_listen then
    accept_loop s e.pending e.accept_end
  else
    epoll_data P s i e

/-- Lines 242-335 of srv_epoll.c: `for(int i = 0; i < _ready; i++)`, from
event `i` on. -/
def process_events (P : Nat) : EpollState → Nat → List EvIn → Flow EpollState
  | s, _, [] => .next s
  | s, i, e :: rest =>
    match epoll_event_body P s i e with
    | .next s1 => process_events P s1 (i + 1) rest
    | out => out

/-- The array `_events` after an `epoll_wait` that reported `evs`: the
first entries are overwritten, the others keep what they held. -/
def write_events (events : Nat → epoll_event) (evs : List EvIn) : Nat → epoll_event :=
  fun k => match evs.get? k with
    | some e => e.ev
    | none => events k

/-- Lines 219-336 of srv_epoll.c: the epoll loop, run against the script
of `epoll_wait` results; `next` is a loop waiting for the rest of the
script. -/
def epoll_loop (P : Nat) : EpollState → List WaitRes → Flow EpollState
  | s, [] => .next s
  | s, .error :: _ => .ret (-1) ((s.emit (.close s.sd_listen)).emit (.close s.esd))
  | s, .timeout :: _ =>
    .ret (-1) (((s.emit (.close s.sd_listen)).emit (.close s.esd)).emit
      (.append_total_clients s.total_clts))
  | s, .ready evs :: rest =>
    let evs1 := evs.take MAXEVENTS
    if evs1.isEmpty then
      .ret (-1) (((s.emit (.close s.sd_listen)).emit (.close s.esd)).emit
        (.append_total_clients s.total_clts))
    else
      match process_events P { s with events := write_events s.events evs1 } 0 evs1 with
      | .next s1 => epoll_loop P s1 rest
      | out => out

/-- The state of `run_epoll_loop` when it enters its loop (lines 189-216):
every stats slot is marked unused, the other fields of the slots, the event
array and the receive buffer hold whatever the stack held. -/
def epoll_init (sd_listen esd : Int) (events0 : Nat → epoll_event)
    (stats0 : Nat → srv_log_stats) (buff0 : Nat → UInt8) : EpollState :=
  { sd_listen := sd_listen, esd := esd, events := events0,
    stats := fun j => { stats0 j with sd := -1 },
    recv_buff := buff0, total_clts := 0,
    trace := [.epoll_ctl_add sd_listen true] }

/-- The function `run_epoll_loop` of srv_epoll.c; `esd` is the result of
`epoll_create` and `ctl_ok` says whether the listening socket could be
added to the epoll instance. -/
def run_epoll_loop (P : Nat) (sd_listen esd : Int) (ctl_ok : Bool)
    (events0 : Nat → epoll_event) (stats0 : Nat → srv_log_stats) (buff0 : Nat → UInt8)
    (script : List WaitRes) : Flow EpollState :=
  let s0 := epoll_init sd_listen esd events0 stats0 buff0
  if esd = -1 then .ret (-1) { s0 with trace := [] }
  else if !ctl_ok then
    .ret (-1) { s0 with trace := [.epoll_ctl_add sd_listen false, .close esd] }
  else epoll_loop P s0 script

/-! ## srv_poll.c -/

/-- The `struct pollfd` of poll.h. -/
structure pollfd where
  fd : Int
  events : Int
  revents : Int
  deriving DecidableEq

/-- A connection `accept` hands out in srv_poll.c: the new descriptor, the
peer address and the time of the accept. -/
structure Peer where
  sd : Nat
  clt_ip : String
  t : Nat

/-- What `poll` returns: an error, or the events the kernel has to report
for each watched slot (none at all is a timeout). -/
inductive PollWait where
  | error
  | events (rev : Nat → Int)

/-- What the operating system answers during one pass of the poll loop:
the result of `poll`, of the `accept` (`none` is a failure) and, for every
slot, of its `recv` and its `send`. -/
structure PollIn where
  wait : PollWait
  accept : Option Peer
  recv : Nat → RecvRes
  bytes_sent : Nat → Int

/-- The variables of `run_poll_loop`, and the trace of its calls. -/
structure PollState where
  sd_listen : Int
  clts : Nat → pollfd
  stats : Nat → srv_log_stats
  recv_buff : Nat → UInt8
  size : Nat
  ready : Int
  total_clts : Int
  trace : List Effect

/-- Append a call to the trace. -/
def PollState.emit (s : PollState) (e : Effect) : PollState :=
  { s with trace := s.trace ++ [e] }

/-- The `revents` field of slot `i` after `poll(_clts, _size, _timeout)`:
written for the `_size` watched slots (0 for a negative descriptor), left
alone for the others. -/
def poll_revents (s : PollState) (rev : Nat → Int) (i : Nat) : Int :=
  if i < s.size then (if (s.clts i).fd < 0 then 0 else rev i) else (s.clts i).revents

/-- The value `poll` returns: the number of watched slots with a non-zero
`revents`. -/
def poll_count (s : PollState) (rev : Nat → Int) : Int :=
  (((List.range s.size).filter (fun i => poll_revents s rev i != 0)).length : Int)

/-- Lines 229-254 of srv_poll.c: a connection request. -/
def poll_accept (s : PollState) (a : Option Peer) : Flow PollState :=
  match a with
  | none => .ret (-1) ((s.emit .accept_error).emit (.close s.sd_listen))
  | some c =>
    let s1 := s.emit (.accept_ok c.sd)
    let i := scan (fun i => (s1.clts i).fd == -1) (MAXCLIENTS - 1) 1
    let s2 :=
      if i < MAXCLIENTS then
        { s1 with
          clts := setAt s1.clts i { s1.clts i with fd := c.sd, events := POLLIN },
          stats := setAt s1.stats i
            { s1.stats i with clt_ip := c.clt_ip, requests := 0, tm := c.t },
          total_clts := s1.total_clts + 1 }
      else s1
    .next { s2 with size := s2.size + 1, ready := s2.ready - 1 }

/-- Lines 264-282 of srv_poll.c: data is ready to be read on slot `i`. -/
def poll_data (P : Nat) (s : PollState) (i : Nat) (r : RecvRes) (bytes_sent : Int) :
    PollState :=
  let fd := (s.clts i).fd
  let s1 := ({ s with recv_buff := r.fill P s.recv_buff }).emit (.recv fd (r.ret P))
  let s2 :=
    if r.ret P = 0 then
      (({ s1 with clts := setAt s1.clts i { s1.clts i with fd := -1 } }).emit
        (.close fd)).emit (.append_srv_data (s1.stats i))
    else
      let st := { s1.stats i with requests := (s1.stats i).requests + 1 }
      ({ s1 with
          stats := setAt s1.stats i
            { st with bytes := update_bytes_struct st.bytes bytes_sent },
          recv_buff := fun _ => 0 }).emit (.send fd (payload P s1.recv_buff) bytes_sent)
  { s2 with ready := s2.ready - 1 }

/-- Lines 258-288 of srv_poll.c: `for(int i = 1; i < MAXCLIENTS; i++)`,
from slot `i` on with `n` slots left. -/
def poll_scan (P : Nat) (recv : Nat → RecvRes) (bytes_sent : Nat → Int) :
    Nat → Nat → PollState → PollState
  | 0, _, s => s
  | n + 1, i, s =>
    if (s.clts i).fd ≠ -1 then
      let s1 :=
        if (s.clts i).revents = POLLIN then poll_data P s i (recv i) (bytes_sent i) else s
      if s1.ready ≤ 0 then s1 else poll_scan P recv bytes_sent n (i + 1) s1
    else poll_scan P recv bytes_sent n (i + 1) s

/-- Lines 211-289 of srv_poll.c: one pass of the poll loop.  A `poll` over
more slots than the array has reads and writes outside the array. -/
def poll_pass (P : Nat) (s : PollState) (inp : PollIn) : Flow PollState :=
  if s.size > MAXCLIENTS then .undefined s
  else
    match inp.wait with
    | .error => .ret (-1) (s.emit (.close s.sd_listen))
    | .events rev =>
      let s1 := { s with
        clts := fun i => { s.clts i with revents := poll_revents s rev i },
        ready := poll_count s rev }
      if s1.ready = 0 then
        .ret (-1) ((s1.emit (.close s1.sd_listen)).emit (.append_total_clients s1.total_clts))
      else
        match (if (s1.clts 0).revents = POLLIN then poll_accept s1 inp.accept else .next s1) with
        | .next s2 =>
          .next (if s2.ready > 0 then
              poll_scan P inp.recv inp.bytes_sent (MAXCLIENTS - 1) 1 s2
            else s2)
        | out => out

/-- Lines 209-290 of srv_poll.c: the poll loop, run against the script;
`next` is a loop waiting for the rest of the script. -/
def poll_loop (P : Nat) : PollState → List PollIn → Flow PollState
  | s, [] => .next s
  | s, inp :: rest =>
    match poll_pass P s inp with
    | .next s1 => poll_loop P s1 rest
    | out => out

/-- The state of `run_poll_loop` when it enters its loop (lines 188-206):
slot 0 holds the listening socket, the other slots are marked unused, and
`bzero` has cleared `sizeof(struct srv_log_stats)` bytes, the first element
of `_stats`; everything else holds whatever the stack held. -/
def poll_init (sd_listen : Int) (clts0 : Nat → pollfd) (stats0 : Nat → srv_log_stats)
    (buff0 : Nat → UInt8) (ready0 : Int) : PollState :=
  { sd_listen := sd_listen,
    clts := fun i =>
      if i = 0 then { clts0 0 with fd := sd_listen, events := POLLIN }
      else { clts0 i with fd := -1 },
    stats := fun i =>
      if i = 0 then { tm := 0, bytes := ⟨0, 0, 0, 0⟩, clt_ip := "", requests := 0, sd := 0 }
      else stats0 i,
    recv_buff := buff0, size := 1, ready := ready0, total_clts := 0, trace := [] }

/-- The function `run_poll_loop` of srv_poll.c. -/
def run_poll_loop (P : Nat) (sd_listen : Int) (clts0 : Nat → pollfd)
    (stats0 : Nat → srv_log_stats) (buff0 : Nat → UInt8) (ready0 : Int)
    (script : List PollIn) : Flow PollState :=
  poll_loop P (poll_init sd_listen clts0 stats0 buff0 ready0) script

/-! ## srv_thread.c -/

/-- The `struct thread_args`: the arguments of the threaded function. -/
structure thread_args where
  sd : Int
  clt_ip : String

/-- The variables of `echo_loop`, and the trace of its calls. -/
structure ThreadState where
  stats : srv_log_stats
  recv_buff : Nat → UInt8
  trace : List Effect

/-- Append a call to the trace. -/
def ThreadState.emit (s : ThreadState) (e : Effect) : ThreadState :=
  { s with trace := s.trace ++ [e] }

/-- Lines 294-323 of srv_thread.c: the body of the `while(1)` of
`echo_loop`; the boolean says whether the loop goes round again (`true`) or
is left by a `break` (`false`). -/
def echo_body (P : Nat) (args : thread_args) (s : ThreadState) (r : RecvRes)
    (bytes_sent : Int) : Bool × ThreadState :=
  let s1 := ({ s with recv_buff := r.fill P s.recv_buff }).emit (.recv args.sd (r.ret P))
  if r.ret P = -1 then (false, s1)
  else if r.ret P = 0 then (false, s1.emit (.close args.sd))
  else
    let s2 := ({ s1 with stats := { s1.stats with requests := s1.stats.requests + 1 } }).emit
      (.send args.sd (payload P s1.recv_buff) bytes_sent)
    if bytes_sent = -1 then (false, s2)
    else
      (true, { s2 with
        stats := { s2.stats with bytes := update_bytes_struct s2.stats.bytes bytes_sent },
        recv_buff := fun _ => 0 })

/-- Lines 326-331 of srv_thread.c: what `echo_loop` does after its loop:
`append_srv_data(SRVLOGFILE, _stats)`, `free(_args)` and then
`close(_args->sd)`.  The descriptor handed to `close` is read from the block
that the line before has freed, a read C leaves undefined: it returns
`freed_sd`, whatever the freed block holds by then, a parameter of the run
that need not be the descriptor of the connection. -/
def echo_finish (freed_sd : Int) (s : ThreadState) : ThreadState :=
  ((s.emit (.append_srv_data s.stats)).emit .free).emit (.close freed_sd)

/-- Lines 292-331 of srv_thread.c: the echo loop and what follows it, run
against the script of `recv` and `send` results; `next` is a thread blocked
in `recv`, waiting for the rest of the script, and `freed_sd` is what the
read of `_args->sd` after `free(_args)` returns. -/
def echo_while (P : Nat) (args : thread_args) (freed_sd : Int) :
    ThreadState → List (RecvRes × Int) → Flow ThreadState
  | s, [] => .next s
  | s, (r, bytes_sent) :: rest =>
    match echo_body P args s r bytes_sent with
    | (true, s1) => echo_while P args freed_sd s1 rest
    | (false, s1) => .ret 0 (echo_finish freed_sd s1)

/-- The function `echo_loop` of srv_thread.c, started at time `t`; the
field `sd` of `_stats` is never written and keeps what the stack held, and
`freed_sd` is what the read of `_args->sd` after `free(_args)` returns. -/
def echo_loop (P : Nat) (args : thread_args) (t : Nat) (sd0 : Int) (buff0 : Nat → UInt8)
    (freed_sd : Int) (script : List (RecvRes × Int)) : Flow ThreadState :=
  echo_while P args freed_sd
    { stats := { tm := t, bytes := init_bytes_struct ⟨0, 0, 0, 0⟩, clt_ip := args.clt_ip,
                 requests := 0, sd := sd0 },
      recv_buff := buff0, trace := [] } script

/-- One pass of the accept loop of srv_thread.c, as the operating system
answers it: the result of `accept` (`none` is a failure), and whether
`pthread_create` and `pthread_detach` succeed. -/
structure AcceptIn where
  accept : Option Peer
  create_ok : Bool
  detach_ok : Bool

/-- The global `total_clts` of srv_thread.c, the threads started so far
with their arguments, and the trace of the calls of `run_accept_loop`. -/
structure AcceptState where
  total_clts : Int
  threads : List thread_args
  trace : List Effect

/-- Append a call to the trace. -/
def AcceptState.emit (s : AcceptState) (e : Effect) : AcceptState :=
  { s with trace := s.trace ++ [e] }

/-- Lines 194-229 of srv_thread.c: `for(int i = 0; i < THREADS; i++)` with
`n` rounds left; `next` is a loop blocked in `accept`, waiting for the rest
of the script. -/
def accept_rounds (sd_listen : Int) : Nat → AcceptState → List AcceptIn → Flow AcceptState
  | 0, s, _ => .ret 0 s
  | _ + 1, s, [] => .next s
  | n + 1, s, a :: rest =>
    match a.accept with
    | none => .ret (-1) ((s.emit .accept_error).emit (.close sd_listen))
    | some c =>
      let s1 := ({ s with total_clts := s.total_clts + 1 }).emit (.accept_ok c.sd)
      if !a.create_ok then .ret (-1) (s1.emit (.close sd_listen))
      else
        let s2 := { s1 with threads := s1.threads ++ [⟨c.sd, c.clt_ip⟩] }
        if !a.detach_ok then .ret (-1) (s2.emit (.close sd_listen))
        else accept_rounds sd_listen n s2 rest

/-- The function `run_accept_loop` of srv_thread.c; `THREADS` is a constant
of srv_thread.h. -/
def run_accept_loop (THREADS : Nat) (sd_listen : Int) (script : List AcceptIn) :
    Flow AcceptState :=
  accept_rounds sd_listen THREADS { total_clts := 0, threads := [], trace := [] } script

/-- The function `run_srv` of srv_thread.c; `setup_ok` and `sigint_ok` say
whether `setup_srv` and `set_SIGINT` succeed.  The result is the value
returned, `none` while the accept loop has not returned. -/
def SrvThread.run_srv (THREADS : Nat) (sd_listen : Int) (setup_ok sigint_ok : Bool)
    (script : List AcceptIn) : Option Int :=
  if !setup_ok then some (-1)
  else if !sigint_ok then some (-1)
  else
    match run_accept_loop THREADS sd_listen script with
    | .ret c _ => if c = -1 then some (-1) else some 0
    | _ => none

/-- The function `main` of srv_thread.c from line 59 on, once the arguments
are accepted and the log header is written: the exit status of the process,
`none` while the server runs. -/
def SrvThread.main (THREADS : Nat) (sd_listen : Int) (setup_ok sigint_ok : Bool)
    (script : List AcceptIn) : Option Int :=
  match SrvThread.run_srv THREADS sd_listen setup_ok sigint_ok script with
  | some c => if c = -1 then some 1 else some 0
  | none => none

/-! ## clt_thread.h / clt_thread.c -/

/-- The constant `TIMEOUT` of clt_thread.h, in seconds. -/
def TIMEOUT : Int := 20

/-- The `struct clt_log_stats` of log.h. -/
structure clt_log_stats where
  tm : Nat
  bytes : Bytes
  requests : Int
  avg_time : ℚ
  deriving DecidableEq

/-- The `struct timeval` of sys/time.h. -/
structure timeval where
  tv_sec : Int
  tv_usec : Int

/-- One call the client makes, as recorded in the trace of `send_loop`. -/
inductive CltEffect where
  | send (sd : Int) (payload : List UInt8) (ret : Int)
  | recv (sd : Int) (ret : Int)
  | close (sd : Int)
  | append_clt_data (stats : clt_log_stats) (t : ℚ)
  deriving DecidableEq

/-- What the operating system answers during one pass of the send loop:
the two readings of `gettimeofday`, the results of `send` and `recv`, and
the reading of `time` for the timeout check. -/
structure CltIn where
  tt1 : timeval
  bytes_sent : Int
  recv : RecvRes
  tt2 : timeval
  t2 : Int

/-- The variables of `send_loop`, and the trace of its calls. -/
structure CltState where
  stats : clt_log_stats
  avg_time : ℚ
  recv_buff : Nat → UInt8
  trace : List CltEffect

/-- Append a call to the trace. -/
def CltState.emit (s : CltState) (e : CltEffect) : CltState :=
  { s with trace := s.trace ++ [e] }

/-- How the body of a loop ends: the loop goes round again, it is left by
`break`, or the function returns. -/
inductive Step (σ : Type) where
  | again (s : σ)
  | leave (s : σ)
  | ret (code : Int) (s : σ)

/-- Lines 218-219 of clt_thread.c: the time between two readings of
`gettimeofday`, in milliseconds. -/
def elapsed_ms (tt1 tt2 : timeval) : ℚ :=
  ((tt2.tv_sec - tt1.tv_sec : Int) : ℚ) * 1000 + ((tt2.tv_usec - tt1.tv_usec : Int) : ℚ) / 1000

/-- Lines 187-225 of clt_thread.c: the body of the `while(1)` of
`send_loop`; `t1` is the time the loop was entered. -/
def send_body (P : Nat) (sd : Int) (t1 : Int) (s : CltState) (inp : CltIn) : Step CltState :=
  let s1 := s.emit (.send sd (List.replicate P 65) inp.bytes_sent)
  if inp.bytes_sent = -1 then .ret (-1) s1
  else
    let s2 := ({ s1 with
        stats := { s1.stats with requests := s1.stats.requests + 1 },
        recv_buff := inp.recv.fill P s1.recv_buff }).emit (.recv sd (inp.recv.ret P))
    if inp.recv.ret P = -1 then .ret (-1) s2
    else if inp.recv.ret P = 0 then .leave s2
    else
      let s3 := { s2 with
        stats := { s2.stats with bytes := update_bytes_struct s2.stats.bytes (inp.recv.ret P) },
        recv_buff := fun _ => 0,
        avg_time := s2.avg_time + elapsed_ms inp.tt1 inp.tt2 }
      if inp.t2 - t1 > TIMEOUT then .leave s3 else .again s3

/-- Lines 228-233 of clt_thread.c: what `send_loop` does after its loop.  A
division by a request count of 0 has no rational value and ends the run in
`undefined`. -/
def send_finish (sd : Int) (s : CltState) : Flow CltState :=
  if s.stats.requests = 0 then .undefined s
  else
    let s1 := { s with avg_time := s.avg_time / (s.stats.requests : ℚ) }
    .ret 0 ((s1.emit (.close sd)).emit (.append_clt_data s1.stats s1.avg_time))

/-- Lines 185-233 of clt_thread.c: the send loop and what follows it, run
against the script; `next` is a loop waiting for the rest of the script. -/
def send_while (P : Nat) (sd : Int) (t1 : Int) : CltState → List CltIn → Flow CltState
  | s, [] => .next s
  | s, inp :: rest =>
    match send_body P sd t1 s inp with
    | .again s1 => send_while P sd t1 s1 rest
    | .leave s1 => send_finish sd s1
    | .ret c s1 => .ret c s1

/-- The function `send_loop` of clt_thread.c on the socket `sd`, called at
time `t` and entering its loop at time `t1`; the field `avg_time` of `_stats` is never written and keeps what
the stack held, like the receive buffer. -/
def send_loop (P : Nat) (sd : Int) (t : Nat) (t1 : Int) (avg0 : ℚ) (buff0 : Nat → UInt8)
    (script : List CltIn) : Flow CltState :=
  send_while P sd t1
    { stats := { tm := t, bytes := init_bytes_struct ⟨0, 0, 0, 0⟩, requests := 0,
                 avg_time := avg0 },
      avg_time := 0, recv_buff := buff0, trace := [] } script

/-- The function `spawn_clients` of clt_thread.c: the calls made on behalf
of one client; `connect` is the socket `connect_to_host` hands back, `none`
when it fails. -/
def spawn_clients (P : Nat) (connect : Option Int) (t : Nat) (t1 : Int) (avg0 : ℚ)
    (buff0 : Nat → UInt8) (script : List CltIn) : List CltEffect :=
  match connect with
  | none => []
  | some sd => (send_loop P sd t t1 avg0 buff0 script).state.trace

/-! ## log.c: the three appends to a log file -/

/-- One call an append function of log.c makes. -/
inductive LogEffect where
  | lock
  | unlock
  | fopen (filename : String) (ok : Bool)
  | printf (text : String)
  | fprintf (format : String)
  | fclose
  deriving DecidableEq

/-- The name `CLTLOGFILE` of clt_thread.h. -/
def CLTLOGFILE : String := "../data/clt_log"

/-- Lines 112-119 and 159-166 of log.c: the `fprintf` that writes the total
of bytes transferred, if any of the four counters is positive; `tail` is
what follows the number in the format. -/
def bytes_line (bytes : Bytes) (tail : String) : List LogEffect :=
  if bytes.gigabytes > 0 then [.fprintf ("\t%.2f GB" ++ tail)]
  else if bytes.megabytes > 0 then [.fprintf ("\t%.2f MB" ++ tail)]
  else if bytes.kilobytes > 0 then [.fprintf ("\t%.2f KB" ++ tail)]
  else if bytes.bytes > 0 then [.fprintf ("\t%.2f Bytes" ++ tail)]
  else []

/-- The function `append_srv_data` of log.c: the value returned and the
calls made, in order; `fopen_ok` says whether the log file can be opened. -/
def append_srv_data (filename : String) (stats : srv_log_stats) (fopen_ok : Bool) :
    Int × List LogEffect :=
  if !fopen_ok then
    (-1, [.lock, .fopen filename false, .printf "\n\tFailed to open server's log file\n\n"])
  else
    (0, [.lock, .fopen filename true, .fprintf "%d/%d/%d ", .fprintf "%d:%d:%d \t\t",
         .fprintf "%s\t\t%d\t\t"] ++ bytes_line stats.bytes "\n" ++ [.fclose, .unlock])

/-- The function `append_clt_data` of log.c. -/
def append_clt_data (stats : clt_log_stats) (_t : ℚ) (fopen_ok : Bool) :
    Int × List LogEffect :=
  if !fopen_ok then
    (-1, [.fopen CLTLOGFILE false, .printf "\n\tFailed to open client's log file\n\n"])
  else
    (0, [.fopen CLTLOGFILE true, .fprintf "%d/%d/%d ", .fprintf "%d:%d:%d \t\t",
         .fprintf "%d\t\t"] ++ bytes_line stats.bytes "\t\t" ++ [.fprintf "%f ms\n"])

/-- The function `append_total_clients` of log.c. -/
def append_total_clients (filename : String) (_total : Int) (fopen_ok : Bool) :
    Int × List LogEffect :=
  if !fopen_ok then
    (-1, [.fopen filename false, .printf "\n\tFailed to open server's log file\n\n"])
  else
    (0, [.fopen filename true,
         .fprintf "-------------------------------------------------------------------------------------------\n",
         .fprintf "\nTotal Client Connections: %d"])

/-- Whether the mutex `lock` is held after the calls `calls`, started with
the mutex held or not. -/
def lock_held : Bool → List LogEffect → Bool
  | held, [] => held
  | _, .lock :: t => lock_held true t
  | _, .unlock :: t => lock_held false t
  | held, _ :: t => lock_held held t

/-- Whether every `fopen` of `calls` is made with the mutex `lock` held,
started with the mutex held or not. -/
def opens_locked : Bool → List LogEffect → Bool
  | _, [] => true
  | _, .lock :: t => opens_locked true t
  | _, .unlock :: t => opens_locked false t
  | held, .fopen _ _ :: t => held && opens_locked held t
  | held, _ :: t => opens_locked held t

/-! ## Reading a run -/

/-- The value a `Flow` returns to the caller, when it has returned. -/
def Flow.code {σ : Type} : Flow σ → Option Int
  | .ret c _ => some c
  | _ => none

/-- Whether a call in the trace is an `accept`, whatever its result. -/
def Effect.is_accept : Effect → Bool
  | .accept_ok _ => true
  | .accept_would_block => true
  | .accept_error => true
  | _ => false

/-- Whether a call in the trace is an `accept` that succeeded. -/
def Effect.is_accept_ok : Effect → Bool
  | .accept_ok _ => true
  | _ => false

/-- The `accept` calls of a trace, in order, each with its result. -/
def accepts_of (trace : List Effect) : List Effect :=
  trace.filter Effect.is_accept

/-- The name of a recorded call and the descriptor (or count) it is about. -/
def Effect.brief : Effect → String × Int
  | .close fd => ("close", fd)
  | .accept_ok sd => ("accept", sd)
  | .accept_would_block => ("accept: EAGAIN", -1)
  | .accept_error => ("accept: error", -1)
  | .set_nonblocking sd _ => ("set_nonblocking", sd)
  | .epoll_ctl_add fd _ => ("epoll_ctl", fd)
  | .recv fd _ => ("recv", fd)
  | .send fd _ _ => ("send", fd)
  | .append_srv_data st => ("append_srv_data", st.sd)
  | .append_total_clients n => ("append_total_clients", n)
  | .free => ("free", -1)

/-- The records handed to `append_srv_data` in a trace, in order. -/
def flushed : List Effect → List srv_log_stats
  | [] => []
  | .append_srv_data st :: t => st :: flushed t
  | _ :: t => flushed t

/-- Whether a `Flow` is a loop still running. -/
def Flow.is_next {σ : Type} : Flow σ → Bool
  | .next _ => true
  | _ => false

/-- Whether a `Flow` has written outside an array. -/
def Flow.is_undefined {σ : Type} : Flow σ → Bool
  | .undefined _ => true
  | _ => false

/-- The descriptor and the value returned of a `recv` or `send` in the
trace. -/
def Effect.io : Effect → Option (String × Int × Int)
  | .recv fd ret => some ("recv", fd, ret)
  | .send fd _ ret => some ("send", fd, ret)
  | _ => none

/-- Whether a call in the trace is an `append_total_clients`. -/
def Effect.is_total : Effect → Bool
  | .append_total_clients _ => true
  | _ => false

/-- The number of successful `accept` calls in a trace. -/
def accepted (trace : List Effect) : Nat :=
  (trace.filter Effect.is_accept_ok).length

/-- The number of `append_total_clients` calls in a trace. -/
def totals (trace : List Effect) : Nat :=
  (trace.filter Effect.is_total).length

/-- What holds of the state of `run_epoll_loop` at every `epoll_wait`: the
descriptors are the ones it was started with, `_total_clts` is the number of
successful accepts, and no total has been appended yet. -/
def EpollInv (sd_listen esd : Int) (s : EpollState) : Prop :=
  s.sd_listen = sd_listen ∧ s.esd = esd ∧ s.total_clts = accepted s.trace
    ∧ totals s.trace = 0

/-- What holds of the state of `run_poll_loop` at every `poll`: the
listening socket is the one it was started with, `_total_clts` is the number
of successful accepts as long as `_size` is within the array, no total has
been appended yet, and every slot from `_size` on is unused. -/
def PollInv (sd_listen : Int) (s : PollState) : Prop :=
  s.sd_listen = sd_listen ∧ (s.size ≤ MAXCLIENTS → s.total_clts = accepted s.trace)
    ∧ totals s.trace = 0 ∧ 1 ≤ s.size ∧ ∀ i, s.size ≤ i → (s.clts i).fd = -1

/-- One thing `run_poll_loop` does to its tables: `poll` writes the
`revents` and `_ready`, a connection is accepted, or the socket of slot `k`
is read. -/
inductive PollOp where
  | wait (rev : Nat → Int)
  | accept (c : Peer)
  | data (k : Nat) (r : RecvRes) (bytes_sent : Int)

/-- The state of `run_poll_loop` after one such step. -/
def poll_op (P : Nat) (s : PollState) : PollOp → PollState
  | .wait rev => { s with
      clts := fun i => { s.clts i with revents := poll_revents s rev i },
      ready := poll_count s rev }
  | .accept c => (poll_accept s (some c)).state
  | .data k r bytes_sent => poll_data P s k r bytes_sent

/-- The state of `run_poll_loop` after a sequence of such steps. -/
def poll_ops (P : Nat) (s : PollState) (ops : List PollOp) : PollState :=
  ops.foldl (poll_op P) s

/-- The number of reads on slot `i` that return a non-zero count, in a
sequence of steps. -/
def reads_on (P : Nat) (i : Nat) : List PollOp → Nat
  | [] => 0
  | .data k r _ :: t => (if k = i ∧ r.ret P ≠ 0 then 1 else 0) + reads_on P i t
  | _ :: t => reads_on P i t

/-- Whether a step is a read on slot `i` that returns 0, the peer close. -/
def PollOp.closes (P : Nat) (i : Nat) : PollOp → Bool
  | .data k r _ => k = i && r.ret P == 0
  | _ => false

/-- Whether a pass of the accept loop of srv_thread.c goes through: the
`accept`, `pthread_create` and `pthread_detach` all succeed. -/
def AcceptIn.ok (a : AcceptIn) : Bool :=
  a.accept.isSome && a.create_ok && a.detach_ok

/-- The round-trip times `send_loop` has to measure on a script, following
the words of the specification: one for every pass in which the packet is
sent and its echo received, up to the pass on which the loop ends. -/
def round_trips (P : Nat) (t1 : Int) : List CltIn → List ℚ
  | [] => []
  | inp :: rest =>
    if inp.bytes_sent = -1 then []
    else if inp.recv.ret P = -1 then []
    else if inp.recv.ret P = 0 then []
    else elapsed_ms inp.tt1 inp.tt2 ::
      (if inp.t2 - t1 > TIMEOUT then [] else round_trips P t1 rest)

/-- The ways the send loop of the client can end. -/
inductive CltExit where
  | io_error
  | peer_closed
  | duration
  deriving DecidableEq

/-- The way the send loop ends on a script, following the words of the
specification: the first pass with an I/O error on send or receive, with a
peer close, or with the duration elapsed; `none` when the script has no
such pass. -/
def clt_exit (P : Nat) (t1 : Int) : List CltIn → Option CltExit
  | [] => none
  | inp :: rest =>
    if inp.bytes_sent = -1 then some .io_error
    else if inp.recv.ret P = -1 then some .io_error
    else if inp.recv.ret P = 0 then some .peer_closed
    else if inp.t2 - t1 > TIMEOUT then some .duration
    else clt_exit P t1 rest

/-- The value `send_loop` returns for each way its loop ends. -/
def CltExit.code : CltExit → Int
  | .io_error => -1
  | _ => 0

/-- The number of `append_clt_data` calls `send_loop` makes for each way
its loop ends. -/
def CltExit.appends : CltExit → Nat
  | .io_error => 0
  | _ => 1

/-- Whether a call of the client is an `append_clt_data`. -/
def CltEffect.is_append : CltEffect → Bool
  | .append_clt_data _ _ => true
  | _ => false

/-- The number of `append_clt_data` calls in a trace of the client. -/
def clt_appends (trace : List CltEffect) : Nat :=
  (trace.filter CltEffect.is_append).length

/-! ## The idle timeout of the reactors -/

/-- The power `2 ^ e` for an integer `e`. -/
def pow2 (e : Int) : ℚ :=
  if 0 ≤ e then ((2 ^ e.toNat : Nat) : ℚ) else 1 / ((2 ^ (-e).toNat : Nat) : ℚ)

/-- The number of times `n` can be halved before it reaches 1, with `fuel`
halvings allowed. -/
def halvings : Nat → Nat → Nat
  | 0, _ => 0
  | fuel + 1, n => if n ≤ 1 then 0 else halvings fuel (n / 2) + 1

/-- The position of the leading bit of `n`. -/
def log2_floor (n : Nat) : Nat := halvings n n

/-- The integer nearest to `q`, the even one of the two when `q` lies half
way between them. -/
def round_half_even (q : ℚ) : Int :=
  let f := Rat.floor q
  let r := q - f
  if r < 1 / 2 then f else if 1 / 2 < r then f + 1 else if f % 2 = 0 then f else f + 1

/-- The binary exponent of `q`, not 0: the `e` with `2 ^ e ≤ |q| < 2 ^ (e + 1)`. -/
def binade (q : ℚ) : Int :=
  let a : Int := log2_floor q.num.natAbs
  let b : Int := log2_floor q.den
  if pow2 (a - b) ≤ |q| then a - b else a - b - 1

/-- The value of type `double` (IEEE 754 binary64, 53 significant bits) that
a real number is rounded to, to nearest and ties to even, in the range of
the normal numbers. -/
def to_double (q : ℚ) : ℚ :=
  if q = 0 then 0
  else
    let e := binade q - 52
    (round_half_even (q / pow2 e) : ℚ) * pow2 e

/-- The conversion of a `double` to `int`: the fractional part is dropped. -/
def double_to_int (q : ℚ) : Int := if 0 ≤ q then Rat.floor q else -Rat.floor (-q)

/-- Line 194 of srv_epoll.c, `int _timeout = (0.1 * 60 * 1000);`: the
constant 0.1 is a `double`, each product is rounded to a `double`, and the
result is converted to `int`.  The variable is not written again. -/
def epoll_timeout : Int :=
  double_to_int (to_double (to_double (to_double (1 / 10) * 60) * 1000))

/-- Line 194 of srv_poll.c, `int _timeout = (0.1 * 60 * 1000);`. -/
def poll_timeout : Int :=
  double_to_int (to_double (to_double (to_double (1 / 10) * 60) * 1000))

/-- The arguments of the call `epoll_wait(_esd, _events, MAXEVENTS,
_timeout)` of line 222 of srv_epoll.c: the epoll descriptor, the number of
events asked for and the timeout in milliseconds. -/
structure EpollWaitCall where
  epfd : Int
  maxevents : Nat
  timeout : Int
  deriving DecidableEq

/-- The arguments of the call `poll(_clts, _size, _timeout)` of line 212 of
srv_poll.c: the number of slots to watch and the timeout in milliseconds. -/
structure PollCall where
  nfds : Nat
  timeout : Int
  deriving DecidableEq

/-- The states of `run_epoll_loop` at its successive calls of `epoll_wait`
on a script: the loop calls `epoll_wait` at the top of every pass, the last
call being the one the script has no answer for or the one after which the
function returns. -/
def epoll_states (P : Nat) : EpollState → List WaitRes → List EpollState
  | s, [] => [s]
  | s, w :: rest =>
    s :: (match epoll_loop P s [w] with
      | .next s1 => epoll_states P s1 rest
      | _ => [])

/-- The calls of `epoll_wait` that `run_epoll_loop` makes on a script. -/
def epoll_calls (P : Nat) (s : EpollState) (script : List WaitRes) : List EpollWaitCall :=
  (epoll_states P s script).map (fun st => ⟨st.esd, MAXEVENTS, epoll_timeout⟩)

/-- The states of `run_poll_loop` at its successive calls of `poll` on a
script. -/
def poll_states (P : Nat) : PollState → List PollIn → List PollState
  | s, [] => [s]
  | s, inp :: rest =>
    s :: (match poll_pass P s inp with
      | .next s1 => poll_states P s1 rest
      | _ => [])

/-- The calls of `poll` that `run_poll_loop` makes on a script. -/
def poll_calls (P : Nat) (s : PollState) (script : List PollIn) : List PollCall :=
  (poll_states P s script).map (fun st => ⟨st.size, poll_timeout⟩)

/-! ## main, valid_args, run_srv and setup_srv -/

/-- The constant `ARGSNUM` of srv_epoll.h and srv_poll.h. -/
def ARGSNUM : Int := 2

/-- The constant `ARG_PORT` of srv_epoll.h and srv_poll.h. -/
def ARG_PORT : Nat := 1

/-- The constant `BACKLOG` of srv_epoll.h and srv_poll.h. -/
def BACKLOG : Int := 100

/-- The constant `ARGSNUM` of clt_thread.h. -/
def Clt.ARGSNUM : Int := 4

/-- The constant `ARG_IP` of clt_thread.h. -/
def Clt.ARG_IP : Nat := 1

/-- The constant `ARG_PORT` of clt_thread.h. -/
def Clt.ARG_PORT : Nat := 2

/-- The constant `ARG_CLTS` of clt_thread.h. -/
def Clt.ARG_CLTS : Nat := 3

/-- The function `isdigit` of ctype.h, in the C locale. -/
def isdigit (c : Char) : Bool := decide ('0' ≤ c ∧ c ≤ '9')

/-- The function `isspace` of ctype.h, in the C locale: the space, and the
five control characters from the horizontal tab (9) to the carriage return
(13). -/
def isspace (c : Char) : Bool :=
  c.toNat == 32 || (9 ≤ c.toNat && c.toNat ≤ 13)

/-- The function `atoi` of stdlib.h on a string whose value fits an `int`:
white space is skipped, a sign is read, then the decimal digits up to the
first character that is not one. -/
def atoi (s : String) : Int :=
  let cs := s.toList.dropWhile isspace
  let digits := fun (l : List Char) =>
    ((l.takeWhile isdigit).foldl (fun a c => 10 * a + (c.toNat - 48)) 0 : Nat)
  match cs with
  | '-' :: rest => -(digits rest : Int)
  | '+' :: rest => (digits rest : Int)
  | rest => (digits rest : Int)

/-- One call made while a program starts: by `main`, `valid_args`,
`run_srv` and `setup_srv`; `loop` is the call of the server loop, and
`spawn_clients` the call one thread of the client makes, which goes on to
`connect_to_host` and its `create_socket`. -/
inductive SetupEffect where
  | printf (text : String)
  | app_srv_hdr (filename : String) (ok : Bool)
  | app_clt_hdr (ok : Bool)
  | create_socket (sd : Int)
  | setsockopt (sd : Int)
  | set_nonblocking (sd : Int) (ok : Bool)
  | bind_socket (sd : Int) (port : Int) (ok : Bool)
  | listen_socket (sd : Int) (backlog : Int) (ok : Bool)
  | set_SIGINT (ok : Bool)
  | loop (sd_listen : Int)
  | omp_set_num_threads (n : Int)
  | spawn_clients (ip port : String)
  deriving DecidableEq

/-- Lines 88-94 of srv_epoll.c, `for(int i = 0; port[i] != 0; i++)
if(!isdigit(port[i])) return 0;`, on the characters of the string from `i`
on: whether the loop runs to the end of the string. -/
def digits_to_end : List Char → Bool
  | [] => true
  | c :: rest => if !isdigit c then false else digits_to_end rest

/-- The function `valid_args` of srv_epoll.c, srv_poll.c and srv_thread.c,
which differ in the program name `prog` of the usage line: the value
returned and what is printed.  `port` is read only when the count is right. -/
def valid_args (prog : String) (arg : Int) (port : String) : Int × List SetupEffect :=
  if arg ≠ ARGSNUM then (0, [.printf ("\nUsage: ./" ++ prog ++ " <PORT>\n\n")])
  else if !digits_to_end port.toList then
    (0, [.printf ("\nError: Invalid port: " ++ port ++ ".\n\n")])
  else (1, [])

/-- The function `valid_args` of clt_thread.c. -/
def Clt.valid_args (arg : Int) (port clients : String) : Int × List SetupEffect :=
  if arg ≠ Clt.ARGSNUM then (0, [.printf "\nUsage: ./clt <HOST IP> <PORT> <NUM OF CLIENTS>\n\n"])
  else if !digits_to_end port.toList then
    (0, [.printf ("\nError: Invalid port: " ++ port ++ ".\n\n")])
  else if !digits_to_end clients.toList then
    (0, [.printf ("\nError: Invalid number of clients: " ++ port ++ ".\n\n")])
  else (1, [])

/-- The two reactors, whose `main`, `run_srv` and `setup_srv` are the same
text but for the loop function called and the constants of the header. -/
inductive Reactor where
  | epoll
  | poll
  deriving DecidableEq

/-- The program name in the usage line of `valid_args`. -/
def Reactor.prog : Reactor → String
  | .epoll => "srv_epoll"
  | .poll => "srv_poll"

/-- The constant `SRVLOGFILE` of srv_epoll.h and of srv_poll.h. -/
def Reactor.SRVLOGFILE : Reactor → String
  | .epoll => "../data/srv_epoll_log"
  | .poll => "../data/srv_poll_log"

/-- What the operating system answers to the calls made while a reactor
starts: whether the log header can be written, the descriptor `socket`
returns (-1 on failure), and whether `set_nonblocking`, `bind`, `listen` and
the installation of the signal handler succeed. -/
structure SrvEnv where
  hdr_ok : Bool
  socket : Int
  nonblock_ok : Bool
  bind_ok : Bool
  listen_ok : Bool
  sigint_ok : Bool

/-- The function `setup_srv` of srv_epoll.c and srv_poll.c: the value
returned and the calls made; the port is handed to `htons`, which keeps its
16 low bits. -/
def setup_srv (env : SrvEnv) (port : Int) : Int × List SetupEffect :=
  if env.socket = -1 then (-1, [.create_socket (-1)])
  else
    let t1 : List SetupEffect :=
      [.create_socket env.socket, .setsockopt env.socket,
       .set_nonblocking env.socket env.nonblock_ok]
    if !env.nonblock_ok then (-1, t1)
    else
      let t2 := t1 ++ [.bind_socket env.socket (port % 65536) env.bind_ok]
      if !env.bind_ok then (-1, t2)
      else
        let t3 := t2 ++ [.listen_socket env.socket BACKLOG env.listen_ok]
        if !env.listen_ok then (-1, t3) else (0, t3)

/-- The function `run_srv` of srv_epoll.c and srv_poll.c; `loop` is what
the loop function (`run_epoll_loop`, `run_poll_loop`) returns when called
with the listening socket, `none` while it has not returned.  The result is
the value returned, `none` while the loop runs, and the calls made. -/
def run_srv (env : SrvEnv) (port : Int) (loop : Int → Option Int) :
    Option Int × List SetupEffect :=
  match setup_srv env port with
  | (r, t) =>
    if r = -1 then (some (-1), t)
    else
      let t1 := t ++ [.set_SIGINT env.sigint_ok]
      if !env.sigint_ok then (some (-1), t1)
      else
        match loop env.socket with
        | some c => (if c = -1 then some (-1) else some 0, t1 ++ [.loop env.socket])
        | none => (none, t1 ++ [.loop env.socket])

/-- The function `main` of srv_epoll.c and srv_poll.c on the argument
vector `argv` (`argc` is its length): the exit status of the process, `none`
while the server runs, and the calls made.  Without a second argument
`argv[ARG_PORT]` is a pointer `valid_args` does not follow. -/
def main (r : Reactor) (argv : List String) (env : SrvEnv) (loop : Int → Option Int) :
    Option Int × List SetupEffect :=
  match valid_args r.prog argv.length (argv.getD ARG_PORT "") with
  | (ok, out) =>
    if ok = 0 then (some 1, out)
    else
      let port := atoi (argv.getD ARG_PORT "")
      let t := out ++ [.app_srv_hdr r.SRVLOGFILE env.hdr_ok]
      if !env.hdr_ok then (some 1, t)
      else
        match run_srv env port loop with
        | (some c, t1) => (if c = -1 then some 1 else some 0, t ++ t1)
        | (none, t1) => (none, t ++ t1)

/-- The program srv_epoll: `main` with `run_epoll_loop` as its loop; `esd`
is the result of `epoll_create`, `ctl_ok` whether the listening socket can
be added to the epoll instance, and `script` the results of `epoll_wait`. -/
def SrvEpoll.main (P : Nat) (argv : List String) (env : SrvEnv) (esd : Int) (ctl_ok : Bool)
    (events0 : Nat → epoll_event) (stats0 : Nat → srv_log_stats) (buff0 : Nat → UInt8)
    (script : List WaitRes) : Option Int × List SetupEffect :=
  LinuxServers.main .epoll argv env
    (fun sd => (run_epoll_loop P sd esd ctl_ok events0 stats0 buff0 script).code)

/-- The program srv_poll: `main` with `run_poll_loop` as its loop. -/
def SrvPoll.main (P : Nat) (argv : List String) (env : SrvEnv) (clts0 : Nat → pollfd)
    (stats0 : Nat → srv_log_stats) (buff0 : Nat → UInt8) (ready0 : Int)
    (script : List PollIn) : Option Int × List SetupEffect :=
  LinuxServers.main .poll argv env
    (fun sd => (run_poll_loop P sd clts0 stats0 buff0 ready0 script).code)

/-- The function `main` of clt_thread.c: the exit status and the calls
made.  `team` is the number of threads OpenMP gives the parallel region
(the number asked for, when it is positive and the threads can be had);
each of them calls `spawn_clients`. -/
def Clt.main (argv : List String) (hdr_ok : Bool) (team : Nat) :
    Option Int × List SetupEffect :=
  let ip := argv.getD Clt.ARG_IP ""
  let port := argv.getD Clt.ARG_PORT ""
  let clients := argv.getD Clt.ARG_CLTS ""
  match Clt.valid_args argv.length port clients with
  | (ok, out) =>
    if ok = 0 then (some 1, out)
    else if !hdr_ok then (some 1, out ++ [.app_clt_hdr false])
    else
      (some 0, out ++ [.app_clt_hdr true, .omp_set_num_threads (atoi clients)]
        ++ List.replicate team (.spawn_clients ip port))

/-! ## Reading a run: closes, packets sent, byte counters -/

/-- The format text the `fprintf` calls of an append write to the log
file, in order, as characters; a conversion stands for the value printed. -/
def written : List LogEffect → List Char
  | [] => []
  | .fprintf format :: t => format.toList ++ written t
  | _ :: t => written t

/-- The number of `close` calls on the descriptor `fd` in a trace. -/
def closes (fd : Int) (trace : List Effect) : Nat :=
  trace.count (.close fd)

/-- Whether a call of the client is a `send` that did not fail. -/
def CltEffect.is_sent : CltEffect → Bool
  | .send _ _ ret => ret != -1
  | _ => false

/-- The number of packets successfully sent in a trace of the client. -/
def packets_sent (trace : List CltEffect) : Nat :=
  (trace.filter CltEffect.is_sent).length

/-- Whether a pass of the send loop is a complete round trip: the packet
is sent and an echo is received. -/
def CltIn.round_trip (P : Nat) (inp : CltIn) : Bool :=
  inp.bytes_sent != -1 && inp.recv.ret P != -1 && inp.recv.ret P != 0

/-- Whether the duration has elapsed at the end of a pass of the send
loop entered at time `t1`. -/
def CltIn.elapsed (t1 : Int) (inp : CltIn) : Bool :=
  decide (inp.t2 - t1 > TIMEOUT)

/-- Whether the server is found closed in a pass of the send loop: the
packet is sent and `recv` returns 0. -/
def CltIn.server_closed (P : Nat) (inp : CltIn) : Bool :=
  inp.bytes_sent != -1 && inp.recv.ret P == 0

/-- The `struct Bytes` after a call of `init_bytes_struct` and then one call
of `update_bytes_struct` for each of the byte counts, in order. -/
def bytes_after (d0 : Bytes) (counts : List Int) : Bytes :=
  counts.foldl update_bytes_struct (init_bytes_struct d0)

/-- What holds of a `struct Bytes` between updates with non-negative
counts: the `bytes` field is at least 0 and below `KILO`, `kilobytes` is at
least 0, `megabytes` is at most a thousandth of `kilobytes`, and `megabytes`
and `gigabytes` are not 0 only when the field below has reached `KILO`. -/
def BytesInv (d : Bytes) : Prop :=
  0 ≤ d.bytes ∧ d.bytes < KILO ∧ 0 ≤ d.kilobytes ∧ d.megabytes ≤ d.kilobytes / KILO
    ∧ (d.megabytes ≠ 0 → KILO ≤ d.kilobytes)
    ∧ (d.gigabytes ≠ 0 → KILO ≤ d.megabytes)

/-- The bytes of the echoes received in the passes of a script, added up. -/
def echo_bytes (P : Nat) (script : List CltIn) : Int :=
  (script.map (fun inp => inp.recv.ret P)).sum

/-- The times between the two readings of `gettimeofday` in the passes of
a script, added up, in milliseconds. -/
def elapsed_sum (script : List CltIn) : ℚ :=
  (script.map (fun inp => elapsed_ms inp.tt1 inp.tt2)).sum

/-- The state of `run_poll_loop` on listening socket 3 at a `poll` with no
connection open, after `n` connections on descriptor 5 have come and gone. -/
def Churned (n : Nat) (s : PollState) : Prop :=
  (s.clts 0).fd = 3 ∧ (∀ i, 1 ≤ i → (s.clts i).fd = -1) ∧ s.size = n + 1
    ∧ accepted s.trace = n ∧ closes 5 s.trace = n

/-- The state of `run_poll_loop` on listening socket 3 at a `poll` with
one connection open, on descriptor 5 in slot 1, after `n` others have come
and gone. -/
def ChurnedOpen (n : Nat) (s : PollState) : Prop :=
  (s.clts 0).fd = 3 ∧ (s.clts 1).fd = 5 ∧ (∀ i, 2 ≤ i → (s.clts i).fd = -1)
    ∧ s.size = n + 2 ∧ accepted s.trace = n + 1 ∧ closes 5 s.trace = n

/-- The bytes that go back to the peers in a trace: of the payload handed
to each `send`, the bytes the call has taken, as many as it returns (none
when it fails). -/
def echoed : List Effect → List UInt8
  | [] => []
  | .send _ payload ret :: t => payload.take ret.toNat ++ echoed t
  | _ :: t => echoed t

/-! ## Concrete states and scripts -/

/-- A `struct srv_log_stats` found on a zeroed stack. -/
def zero_stats : srv_log_stats :=
  { tm := 0, bytes := ⟨0, 0, 0, 0⟩, clt_ip := "", requests := 0, sd := 0 }

/-- A run of `run_epoll_loop` with `PKTSIZE` 1000, listening socket 3 and
epoll descriptor 4, on a zeroed stack. -/
def epoll_run (script : List WaitRes) : Flow EpollState :=
  run_epoll_loop PKTSIZE 3 4 true (fun _ => ⟨0, 0⟩) (fun _ => zero_stats) (fun _ => 0) script

/-- A run of `run_poll_loop` with `PKTSIZE` 1000 and listening socket 3, on
a zeroed stack. -/
def poll_run (script : List PollIn) : Flow PollState :=
  run_poll_loop PKTSIZE 3 (fun _ => ⟨0, 0, 0⟩) (fun _ => zero_stats) (fun _ => 0) 0 script

/-- A client connecting from `ip` at time `t` and accepted on descriptor
`sd`; `set_nonblocking` and `epoll_ctl` succeed on it. -/
def client (sd : Nat) (ip : String) (t : Nat) : NewConn :=
  { sd := sd, clt_ip := ip, t := t, nonblock_ok := true, ctl_ok := true }

/-- The event of the listening socket 3 with the clients `cs` pending. -/
def listen_ready (cs : List NewConn) : EvIn :=
  { ev := ⟨EPOLLIN, 3⟩, pending := cs, accept_end := .would_block, recv := .closed,
    bytes_sent := 0 }

/-- The event of a full packet of 1000 bytes `a` waiting on `fd`; the echo
is sent in full. -/
def packet_ready (fd : Int) : EvIn :=
  { ev := ⟨EPOLLIN, fd⟩, pending := [], accept_end := .would_block,
    recv := .data (List.replicate PKTSIZE 97), bytes_sent := 1000 }

/-- The event of the peer of `fd` having closed: `recv` returns 0. -/
def peer_closed (fd : Int) : EvIn :=
  { ev := ⟨EPOLLIN, fd⟩, pending := [], accept_end := .would_block, recv := .closed,
    bytes_sent := 0 }

/-- A pass of the poll loop in which only slot `i` has `POLLIN` to report;
`a` is the result of `accept`, `r` of `recv`, and `send` returns 1000. -/
def poll_in (i : Nat) (a : Option Peer) (r : RecvRes) : PollIn :=
  { wait := .events (fun k => if k = i then POLLIN else 0), accept := a,
    recv := fun _ => r, bytes_sent := fun _ => 1000 }

/-- Three clients connect on 5, 6 and 7 and send a packet each; then 6
sends a packet and 5 closes; a new client is accepted on the descriptor 5
again and sends one packet. -/
def reuse_script : List WaitRes :=
  [ .ready [listen_ready [client 5 "10.0.0.5" 100, client 6 "10.0.0.6" 101,
      client 7 "10.0.0.7" 102]],
    .ready [packet_ready 5, packet_ready 6, packet_ready 7],
    .ready [packet_ready 6, peer_closed 5],
    .ready [listen_ready [client 5 "10.0.0.8" 200]],
    .ready [packet_ready 5] ]

/-- Two clients connect on 5 and 6 and send a packet each; then 6 closes. -/
def close_second_script : List WaitRes :=
  [ .ready [listen_ready [client 5 "10.0.0.5" 100, client 6 "10.0.0.6" 101]],
    .ready [packet_ready 5, packet_ready 6],
    .ready [peer_closed 6] ]

/-- Two clients connect on 5 and 6; one wait reports a packet on 5 and the
close of 6. -/
def close_beside_script : List WaitRes :=
  [ .ready [listen_ready [client 5 "10.0.0.5" 100, client 6 "10.0.0.6" 101]],
    .ready [packet_ready 5, peer_closed 6] ]

/-- A client connects on 5, sends one packet and closes; a second client
is accepted on 5 and closes without sending anything. -/
def silent_script : List WaitRes :=
  [ .ready [listen_ready [client 5 "10.0.0.5" 100]],
    .ready [packet_ready 5],
    .ready [peer_closed 5],
    .ready [listen_ready [client 5 "10.0.0.9" 200]],
    .ready [peer_closed 5] ]

/-- The script `silent_script` for `run_poll_loop`: the two clients take
slot 1, one after the other. -/
def silent_poll_script : List PollIn :=
  [ poll_in 0 (some ⟨5, "10.0.0.5", 100⟩) .closed,
    poll_in 1 none (.data (List.replicate PKTSIZE 97)),
    poll_in 1 none .closed,
    poll_in 0 (some ⟨5, "10.0.0.9", 200⟩) .closed,
    poll_in 1 none .closed ]

/-- Two clients connect on 5 and 6 and send a packet each; then 6 closes,
then 5 closes. -/
def close_both_script : List WaitRes :=
  [ .ready [listen_ready [client 5 "10.0.0.5" 100, client 6 "10.0.0.6" 101]],
    .ready [packet_ready 5, packet_ready 6],
    .ready [peer_closed 6],
    .ready [peer_closed 5] ]

/-- A client connects on 5; then the socket 5 is reported with `EPOLLERR`
and `EPOLLHUP`, and `recv` and `send` fail on it. -/
def hangup_script : List WaitRes :=
  [ .ready [listen_ready [client 5 "10.0.0.5" 100]],
    .ready [{ ev := ⟨EPOLLERR ||| EPOLLHUP, 5⟩, pending := [], accept_end := .would_block,
              recv := .error, bytes_sent := -1 }] ]

/-- A client connects on 5; then one wait reports the listening socket,
whose `accept` fails with an error that is not would-block, and a packet
on 5. -/
def accept_error_script : List WaitRes :=
  [ .ready [listen_ready [client 5 "10.0.0.5" 100]],
    .ready [{ ev := ⟨EPOLLIN, 3⟩, pending := [], accept_end := .error, recv := .closed,
              bytes_sent := 0 },
            packet_ready 5] ]

/-- A stats table with no unused slot: slot `j` holds descriptor `5 + j`. -/
def full_stats : Nat → srv_log_stats :=
  fun j => { tm := 0, bytes := ⟨0, 0, 0, 0⟩, clt_ip := "10.0.0.1", requests := 0, sd := 5 + j }

/-- A state of `run_epoll_loop` whose stats table is full, with the
listening socket 3 reported as event 0. -/
def epoll_full : EpollState :=
  { sd_listen := 3, esd := 4, events := fun _ => ⟨EPOLLIN, 3⟩, stats := full_stats,
    recv_buff := fun _ => 0, total_clts := 50000, trace := [] }

/-- A state of `run_poll_loop` whose descriptor array is full: slot `i`
holds descriptor `3 + i`, and the listening socket in slot 0 is readable. -/
def poll_full : PollState :=
  { sd_listen := 3, clts := fun i => ⟨3 + i, POLLIN, if i = 0 then POLLIN else 0⟩,
    stats := full_stats, recv_buff := fun _ => 0, size := 15000, ready := 1,
    total_clts := 14999, trace := [] }

/-- One more connection, on descriptor 60000, for which `set_nonblocking`
and `epoll_ctl` succeed. -/
def late_conn : NewConn :=
  { sd := 60000, clt_ip := "10.0.0.2", t := 1, nonblock_ok := true, ctl_ok := true }

/-- The same connection as `accept` hands it to `run_poll_loop`. -/
def late_peer : Peer := { sd := 60000, clt_ip := "10.0.0.2", t := 1 }

/-- A state of `run_epoll_loop` with the client 5 in stats slot 0 and its
socket reported as event 0. -/
def epoll_open : EpollState :=
  { sd_listen := 3, esd := 4, events := fun _ => ⟨EPOLLIN, 5⟩,
    stats := fun j => { zero_stats with sd := if j = 0 then 5 else -1 },
    recv_buff := fun _ => 0, total_clts := 1, trace := [] }

/-- A state of `run_poll_loop` with the client 5 in slot 1, readable. -/
def poll_open : PollState :=
  { sd_listen := 3,
    clts := fun i => if i = 0 then ⟨3, POLLIN, 0⟩ else if i = 1 then ⟨5, POLLIN, POLLIN⟩
      else ⟨-1, 0, 0⟩,
    stats := fun _ => zero_stats, recv_buff := fun _ => 0, size := 2, ready := 1,
    total_clts := 1, trace := [] }

/-- The state of an `echo_loop` thread serving descriptor 5, before its
first `recv`. -/
def thread_open : ThreadState :=
  { stats := zero_stats, recv_buff := fun _ => 0, trace := [] }

/-- The event of a `recv` on `fd` that fails with -1; the `send` that
follows returns 1000. -/
def read_error (fd : Int) : EvIn :=
  { ev := ⟨EPOLLIN, fd⟩, pending := [], accept_end := .would_block, recv := .error,
    bytes_sent := 1000 }

/-- A client connects on 5; then `recv` on 5 returns -1. -/
def read_error_script : List WaitRes :=
  [ .ready [listen_ready [client 5 "10.0.0.5" 100]],
    .ready [read_error 5] ]

/-- The script `read_error_script` for `run_poll_loop`: the client takes
slot 1. -/
def read_error_poll_script : List PollIn :=
  [ poll_in 0 (some ⟨5, "10.0.0.5", 100⟩) .closed,
    poll_in 1 none .error ]

/-- The event of 400 bytes `a` read on `fd`, of which the `send` that
follows takes 300. -/
def short_packet (fd : Int) : EvIn :=
  { ev := ⟨EPOLLIN, fd⟩, pending := [], accept_end := .would_block,
    recv := .data (List.replicate 400 97), bytes_sent := 300 }

/-- The script `close_beside_script`, then a packet on 5, whose stats slot
the close of 6 has marked unused. -/
def lost_slot_script : List WaitRes :=
  close_beside_script ++ [.ready [packet_ready 5]]

/-- A client connects on 5 and sends a packet. -/
def busy_script : List WaitRes :=
  [ .ready [listen_ready [client 5 "10.0.0.5" 100]],
    .ready [packet_ready 5] ]

/-- The script `busy_script`, then `epoll_wait` times out. -/
def idle_script : List WaitRes :=
  busy_script ++ [.timeout]

/-- A `poll` that has no event to report. -/
def poll_idle : PollIn :=
  { wait := .events (fun _ => 0), accept := none, recv := fun _ => .closed,
    bytes_sent := fun _ => 0 }

/-- The script `busy_script` for `run_poll_loop`: the client takes slot 1. -/
def busy_poll_script : List PollIn :=
  [ poll_in 0 (some ⟨5, "10.0.0.5", 100⟩) .closed,
    poll_in 1 none (.data (List.replicate PKTSIZE 97)) ]

/-- The script `busy_poll_script`, then `poll` times out. -/
def idle_poll_script : List PollIn :=
  busy_poll_script ++ [poll_idle]

/-- A pass of the accept loop of srv_thread.c in which a client is
accepted on `sd` and its thread is started. -/
def accept_in (sd : Nat) : AcceptIn :=
  { accept := some ⟨sd, "10.0.0.5", 100⟩, create_ok := true, detach_ok := true }

/-- Four clients connect, one after the other, on 5, 6, 7 and 8. -/
def four_clients : List AcceptIn :=
  [accept_in 5, accept_in 6, accept_in 7, accept_in 8]

/-- A pass of the send loop that starts at second `sec`, sends the packet
in full, gets `r` from `recv` one millisecond and a half later, and reads
the clock at second `sec` again. -/
def clt_pass (sec : Int) (r : RecvRes) : CltIn :=
  { tt1 := ⟨sec, 0⟩, bytes_sent := 1000, recv := r, tt2 := ⟨sec, 1500⟩, t2 := sec }

/-- A pass of the send loop in which `send` fails. -/
def clt_send_error (sec : Int) : CltIn :=
  { tt1 := ⟨sec, 0⟩, bytes_sent := -1, recv := .closed, tt2 := ⟨sec, 0⟩, t2 := sec }

/-- A run of `send_loop` with `PKTSIZE` 1000 on socket 7, entered at second
100, on a zeroed stack. -/
def clt_run (script : List CltIn) : Flow CltState :=
  send_loop PKTSIZE 7 100 100 0 (fun _ => 0) script

/-- Answers of the operating system with which a reactor starts: the log
header is written, `socket` returns 3, and every call succeeds. -/
def srv_env : SrvEnv :=
  { hdr_ok := true, socket := 3, nonblock_ok := true, bind_ok := true, listen_ok := true,
    sigint_ok := true }

/-- The program srv_epoll with `PKTSIZE` 1000 and epoll descriptor 4, on a
zeroed stack, started with every call succeeding. -/
def epoll_main (argv : List String) (script : List WaitRes) : Option Int × List SetupEffect :=
  SrvEpoll.main PKTSIZE argv srv_env 4 true (fun _ => ⟨0, 0⟩) (fun _ => zero_stats)
    (fun _ => 0) script

/-- The program srv_poll with `PKTSIZE` 1000, on a zeroed stack, started
with every call succeeding. -/
def poll_main (argv : List String) (script : List PollIn) : Option Int × List SetupEffect :=
  SrvPoll.main PKTSIZE argv srv_env (fun _ => ⟨0, 0, 0⟩) (fun _ => zero_stats) (fun _ => 0) 0
    script

/-- The event of a full packet of 1000 bytes read on `fd`, whose echo
fails: `send` returns -1. -/
def send_fails (fd : Int) : EvIn :=
  { ev := ⟨EPOLLIN, fd⟩, pending := [], accept_end := .would_block,
    recv := .data (List.replicate PKTSIZE 97), bytes_sent := -1 }

/-- A pass of the poll loop in which slot `i` has a full packet to read
and the `send` of its echo returns -1. -/
def poll_send_fails (i : Nat) : PollIn :=
  { wait := .events (fun k => if k = i then POLLIN else 0), accept := none,
    recv := fun _ => .data (List.replicate PKTSIZE 97), bytes_sent := fun _ => -1 }

/-- A `struct srv_log_stats` of a connection that has echoed nothing: the
four byte counters are 0. -/
def no_bytes_stats (tm : Nat) (clt_ip : String) (requests sd : Int) : srv_log_stats :=
  { tm := tm, bytes := init_bytes_struct ⟨0, 0, 0, 0⟩, clt_ip := clt_ip, requests := requests,
    sd := sd }

/-- The arguments of an `echo_loop` thread that serves descriptor 5. -/
def thread_5 : thread_args := ⟨5, "10.0.0.5"⟩

/-- A run of `echo_loop` with `PKTSIZE` 1000 on descriptor 5, started at
time 100 on a zeroed stack; `freed_sd` is what the read of `_args->sd`
after `free(_args)` returns. -/
def thread_run (freed_sd : Int) (script : List (RecvRes × Int)) : Flow ThreadState :=
  echo_loop PKTSIZE thread_5 100 0 (fun _ => 0) freed_sd script

/-- The state in which the `echo_loop` of `thread_run` enters its loop. -/
def thread_start : ThreadState :=
  { stats := { tm := 100, bytes := init_bytes_struct ⟨0, 0, 0, 0⟩, clt_ip := "10.0.0.5",
               requests := 0, sd := 0 },
    recv_buff := fun _ => 0, trace := [] }

/-- A client is accepted on descriptor 5 and then closes: two passes of the
poll loop. -/
def churn_pass : List PollIn :=
  [poll_in 0 (some ⟨5, "10.0.0.5", 100⟩) .closed, poll_in 1 none .closed]

/-- The passes of `n` connections that come and go, one after the other. -/
def churn : Nat → List PollIn
  | 0 => []
  | n + 1 => churn_pass ++ churn n

/-- The script of 14999 connections that come and go, one after the other,
and of one more that is accepted: 15000 accepts, with no two connections
open at once. -/
def churn_script : List PollIn :=
  churn 14999 ++ [poll_in 0 (some ⟨5, "10.0.0.5", 100⟩) .closed]

/-! ## Lemmas on the slot search, the receive buffer and the accept loop -/

/-- A search that meets no match runs to the bound. -/
theorem scan_none (p : Nat → Bool) (n j : Nat)
    (h : ∀ k, j ≤ k → k < j + n → p k = false) : scan p n j = j + n := by
  induction n generalizing j with
  | zero => rfl
  | succ m ih =>
    have h0 : p j = false := h j (Nat.le_refl j) (by omega)
    have h1 : scan p m (j + 1) = j + 1 + m :=
      ih (j + 1) (fun k hk hk2 => h k (by omega) (by omega))
    simp only [scan, h0]
    simp [h1]
    omega

/-- After a `recv` that delivered `P` bytes `b`, the buffer handed to `send`
is these `P` bytes, whatever it held before. -/
theorem payload_fill (P : Nat) (b : UInt8) (buff : Nat → UInt8) :
    payload P (RecvRes.fill P (.data (List.replicate P b)) buff) = List.replicate P b := by
  apply List.ext_getElem
  · simp [payload]
  · intro k h1 h2
    have hk : k < P := by simpa [payload] using h1
    simp [payload, RecvRes.fill, RecvRes.got, hk, List.getD_eq_getElem?_getD]

/-- A `recv` that delivered `P` bytes returns `P`. -/
theorem ret_full (P : Nat) (b : UInt8) :
    RecvRes.ret P (.data (List.replicate P b)) = (P : Int) := by
  simp [RecvRes.ret, RecvRes.got]

/-- The test of line 244 of srv_epoll.c masks the flags with
`EPOLLHUP & EPOLLERR`, which is 0: it never holds. -/
theorem never_error_branch (flags : Nat) : flags &&& (EPOLLHUP &&& EPOLLERR) = 0 := by
  have h : EPOLLHUP &&& EPOLLERR = 0 := by decide
  rw [h]
  exact Nat.and_zero flags

/-- An event on a socket other than the listening one runs the read and
echo code, whatever its flags. -/
theorem event_body_data (P : Nat) (s : EpollState) (i : Nat) (e : EvIn)
    (h : (s.events i).fd ≠ s.sd_listen) : epoll_event_body P s i e = epoll_data P s i e := by
  simp [epoll_event_body, never_error_branch, h]

/-- An event on the listening socket runs the accept loop. -/
theorem event_body_listen (P : Nat) (s : EpollState) (i : Nat) (e : EvIn)
    (h : (s.events i).fd = s.sd_listen) :
    epoll_event_body P s i e = accept_loop s e.pending e.accept_end := by
  simp [epoll_event_body, never_error_branch, h]

/-- One round of the accept loop on a connection that can be set
non-blocking and registered. -/
theorem accept_loop_cons_ok (s : EpollState) (c : NewConn) (rest : List NewConn)
    (e : AcceptEnd) (hnb : c.nonblock_ok = true) (hctl : c.ctl_ok = true) :
    accept_loop s (c :: rest) e
      = accept_loop (register_client (((s.emit (.accept_ok c.sd)).emit
          (.set_nonblocking c.sd true)).emit (.epoll_ctl_add c.sd true)) c) rest e := by
  rw [accept_loop]
  simp [hnb, hctl]

/-- The accept loop returns -1 when `set_nonblocking` fails. -/
theorem accept_loop_cons_nb (s : EpollState) (c : NewConn) (rest : List NewConn)
    (e : AcceptEnd) (hnb : c.nonblock_ok = false) :
    accept_loop s (c :: rest) e
      = .ret (-1) ((s.emit (.accept_ok c.sd)).emit (.set_nonblocking c.sd false)) := by
  rw [accept_loop]
  simp [hnb]

/-- The accept loop returns -1 when `epoll_ctl` fails. -/
theorem accept_loop_cons_ctl (s : EpollState) (c : NewConn) (rest : List NewConn)
    (e : AcceptEnd) (hnb : c.nonblock_ok = true) (hctl : c.ctl_ok = false) :
    accept_loop s (c :: rest) e
      = .ret (-1) ((((s.emit (.accept_ok c.sd)).emit (.set_nonblocking c.sd true)).emit
          (.epoll_ctl_add c.sd false)).emit (.close s.esd)) := by
  rw [accept_loop]
  simp [hnb, hctl]

/-- When every pending connection can be set non-blocking and registered,
the `accept` calls of the accept loop are one success per pending
connection, followed by the would-block. -/
theorem accept_loop_all_ok (cs : List NewConn) (s : EpollState)
    (h : ∀ c ∈ cs, c.nonblock_ok = true ∧ c.ctl_ok = true) :
    accepts_of (accept_loop s cs .would_block).state.trace
      = accepts_of s.trace
        ++ ((cs.map (fun c => (c.sd : Int))).map Effect.accept_ok ++ [.accept_would_block]) := by
  induction cs generalizing s with
  | nil => simp [accept_loop, Flow.state, EpollState.emit, accepts_of, Effect.is_accept]
  | cons c rest ih =>
    have hc := h c (List.mem_cons_self c rest)
    rw [accept_loop_cons_ok s c rest .would_block hc.1 hc.2,
      ih _ (fun d hd => h d (List.mem_cons_of_mem c hd))]
    simp [register_client, EpollState.emit, accepts_of, Effect.is_accept]

/-- With no unused slot, saving a client leaves the stats table as it is. -/
theorem save_client_full (stats : Nat → srv_log_stats) (c : NewConn)
    (h : ∀ j, j < MAXEVENTS → (stats j).sd ≠ -1) : save_client stats c = stats := by
  have hs : scan (fun j => (stats j).sd == -1) MAXEVENTS 0 = 0 + MAXEVENTS :=
    scan_none _ _ _ (fun k _ hk => by simpa using h k (by omega))
  simp [save_client, hs]

/-- The accept loop of `run_epoll_loop` on one pending connection, when the
stats table is full. -/
theorem accept_loop_full (se : EpollState) (c : NewConn)
    (hfe : ∀ j, j < MAXEVENTS → (se.stats j).sd ≠ -1)
    (hnb : c.nonblock_ok = true) (hctl : c.ctl_ok = true) :
    accept_loop se [c] .would_block
        = .next { se with
            total_clts := se.total_clts + 1,
            trace := se.trace ++ [.accept_ok c.sd, .set_nonblocking c.sd true,
              .epoll_ctl_add c.sd true, .accept_would_block] } := by
  rw [accept_loop_cons_ok se c [] .would_block hnb hctl]
  simp [accept_loop, register_client, EpollState.emit, save_client_full _ c hfe]

/-- The accept of `run_poll_loop`, when the descriptor array is full. -/
theorem poll_accept_full (sp : PollState) (p : Peer)
    (hfp : ∀ i, 1 ≤ i → i < MAXCLIENTS → (sp.clts i).fd ≠ -1) :
    poll_accept sp (some p)
        = .next { sp with
            size := sp.size + 1, ready := sp.ready - 1,
            trace := sp.trace ++ [.accept_ok p.sd] } := by
  have hs : scan (fun i => (sp.clts i).fd == -1) (MAXCLIENTS - 1) 1 = 1 + (MAXCLIENTS - 1) :=
    scan_none _ _ _ (fun k hk hk2 => by
      have : k < MAXCLIENTS := by simp only [MAXCLIENTS] at hk2 ⊢; omega
      simpa using hfp k hk this)
  have hs2 : ¬ (1 + (MAXCLIENTS - 1) < MAXCLIENTS) := by simp [MAXCLIENTS]
  simp [poll_accept, PollState.emit, hs, hs2]

/-- The table of `epoll_full` has no unused slot. -/
theorem epoll_full_is_full : ∀ j, j < MAXEVENTS → (epoll_full.stats j).sd ≠ -1 := by
  intro j _
  simp only [epoll_full, full_stats]
  omega

/-- The array of `poll_full` has no unused slot. -/
theorem poll_full_is_full : ∀ i, 1 ≤ i → i < MAXCLIENTS → (poll_full.clts i).fd ≠ -1 := by
  intro i _ _
  simp only [poll_full]
  omega

/-! ## Lemmas on the loops: composition, invariants, steps -/

/-- A search from 0 that meets no match returns the bound. -/
theorem scan_none_bound (p : Nat → Bool) (n : Nat)
    (h : ∀ k, k < n → p k = false) : scan p n 0 = n := by
  have := scan_none p n 0 (fun k _ hk => h k (by omega))
  simpa using this

/-- A search returns an index from its start on. -/
theorem scan_ge (p : Nat → Bool) (n j : Nat) : j ≤ scan p n j := by
  induction n generalizing j with
  | zero => simp [scan]
  | succ m ih =>
    simp only [scan]
    split
    · exact Nat.le_refl j
    · exact Nat.le_trans (Nat.le_succ j) (ih (j + 1))

/-- A search that stops below the bound stops at a match. -/
theorem scan_hit (p : Nat → Bool) (n j : Nat) (h : scan p n j < j + n) :
    p (scan p n j) = true := by
  induction n generalizing j with
  | zero => simp [scan] at h
  | succ m ih =>
    simp only [scan] at h ⊢
    by_cases hp : p j = true
    · simp [hp]
    · simp only [hp, Bool.false_eq_true, if_false] at h ⊢
      exact ih (j + 1) (by omega)

/-- A search stops at or before any match in its range. -/
theorem scan_le_of_hit (p : Nat → Bool) (n j k : Nat) (hjk : j ≤ k) (hk : k < j + n)
    (hp : p k = true) : scan p n j ≤ k := by
  induction n generalizing j with
  | zero => omega
  | succ m ih =>
    simp only [scan]
    split
    · exact hjk
    · rename_i hpj
      have hne : j ≠ k := fun h => hpj (h ▸ hp)
      exact ih (j + 1) (by omega) (by omega)

/-- A `Flow` that is still running is `next` of its state. -/
theorem Flow.eq_next_of_is_next {σ : Type} (f : Flow σ) (h : f.is_next = true) :
    f = .next f.state := by
  cases f <;> simp [Flow.is_next, Flow.state] at h ⊢

/-- A `Flow` that has returned `c` is `ret c` of its state. -/
theorem Flow.eq_ret_of_code {σ : Type} (f : Flow σ) (c : Int) (h : f.code = some c) :
    f = .ret c f.state := by
  cases f <;> simp [Flow.code, Flow.state] at h ⊢
  exact h

/-- After a `recv` that delivered the bytes `bs`, no more than `P`, the buffer
handed to `send` is `bs` followed by what the buffer held from there on. -/
theorem payload_fill_short (P : Nat) (bs : List UInt8) (buff : Nat → UInt8)
    (h : bs.length ≤ P) :
    payload P (RecvRes.fill P (.data bs) buff) = bs ++ (payload P buff).drop bs.length := by
  have hg : RecvRes.got P (.data bs) = bs := by
    simp [RecvRes.got, List.take_of_length_le h]
  apply List.ext_getElem
  · simp [payload]; omega
  · intro k h1 h2
    have hk : k < P := by simpa [payload] using h1
    by_cases hkb : k < bs.length
    · simp [payload, RecvRes.fill, hg, hkb, List.getD_eq_getElem?_getD, List.getElem_append_left]
    · have hle : bs.length ≤ k := by omega
      simp [payload, RecvRes.fill, hg, hkb, List.getElem_append_right hle]
      congr 1
      omega

/-- A `recv` that delivered no more than `P` bytes returns their number. -/
theorem ret_short (P : Nat) (bs : List UInt8) (h : bs.length ≤ P) :
    RecvRes.ret P (.data bs) = (bs.length : Int) := by
  simp [RecvRes.ret, RecvRes.got, List.take_of_length_le h]

/-- The epoll loop on a script in two parts: the second part is run from the
state the first part leaves, unless the first part ends the loop. -/
theorem epoll_loop_append (P : Nat) (l1 l2 : List WaitRes) (s : EpollState) :
    epoll_loop P s (l1 ++ l2)
      = match epoll_loop P s l1 with
        | .next s1 => epoll_loop P s1 l2
        | out => out := by
  induction l1 generalizing s with
  | nil => simp [epoll_loop]
  | cons w rest ih =>
    cases w with
    | error => simp [epoll_loop]
    | timeout => simp [epoll_loop]
    | ready evs =>
      simp only [List.cons_append, epoll_loop]
      by_cases hE : (List.take MAXEVENTS evs).isEmpty = true
      · simp [hE]
      · simp only [hE, if_false]
        cases hp : process_events P
            { s with events := write_events s.events (List.take MAXEVENTS evs) } 0
            (List.take MAXEVENTS evs) with
        | next s1 => simpa using ih s1
        | ret c s1 => rfl
        | undefined s1 => rfl

/-- The poll loop on a script in two parts: the second part is run from the
state the first part leaves, unless the first part ends the loop. -/
theorem poll_loop_append (P : Nat) (l1 l2 : List PollIn) (s : PollState) :
    poll_loop P s (l1 ++ l2)
      = match poll_loop P s l1 with
        | .next s1 => poll_loop P s1 l2
        | out => out := by
  induction l1 generalizing s with
  | nil => simp [poll_loop]
  | cons inp rest ih =>
    simp only [List.cons_append, poll_loop]
    cases hp : poll_pass P s inp with
    | next s1 => simpa using ih s1
    | ret c s1 => rfl
    | undefined s1 => rfl

/-- The descriptors in the stats table after `close_beside_script`: slot 1
holds 6, every other slot is marked unused. -/
theorem beside_sd (j : Nat) :
    ((epoll_run close_beside_script).state.stats j).sd = if j = 1 then 6 else -1 := by
  by_cases h0 : j = 0
  · subst h0; decide
  · by_cases h1 : j = 1
    · subst h1; decide
    · simp only [h1, if_false]
      show ((epoll_run close_beside_script).state.stats j).sd = -1
      have : (epoll_run close_beside_script).state.stats
          = setAt (setAt (setAt (setAt (setAt (fun _ => { zero_stats with sd := -1 }) 0
              { tm := 100, bytes := ⟨0,0,0,0⟩, clt_ip := "10.0.0.5", requests := 0, sd := 5 }) 1
              { tm := 101, bytes := ⟨0,0,0,0⟩, clt_ip := "10.0.0.6", requests := 0, sd := 6 }) 0
              { tm := 100, bytes := ⟨0,0,0,0⟩, clt_ip := "10.0.0.5", requests := 1, sd := 5 }) 0
              { tm := 100, bytes := update_bytes_struct ⟨0,0,0,0⟩ 1000, clt_ip := "10.0.0.5", requests := 1, sd := 5 }) 0
              { tm := 100, bytes := update_bytes_struct ⟨0,0,0,0⟩ 1000, clt_ip := "10.0.0.5", requests := 1, sd := -1 } := by
        rfl
      rw [this]
      simp [setAt, h0, h1, zero_stats]

/-- When no stats slot holds the descriptor of the event, the search of lines
322-327 of srv_epoll.c ends at `MAXEVENTS` and the update of line 331 is made
at that index, outside the array. -/
theorem epoll_data_no_slot (P : Nat) (s : EpollState) (i : Nat) (e : EvIn)
    (hret : e.recv.ret P ≠ 0)
    (h : ∀ j, j < MAXEVENTS → (s.stats j).sd ≠ (s.events i).fd) :
    epoll_slot s.stats (s.events i).fd = MAXEVENTS
    ∧ (epoll_data P s i e).is_undefined = true := by
  have hs : epoll_slot s.stats (s.events i).fd = MAXEVENTS :=
    scan_none_bound _ _ (fun k hk => by simpa using h k hk)
  refine ⟨hs, ?_⟩
  have hs1 : epoll_slot (({ s with recv_buff := e.recv.fill P s.recv_buff }).emit
      (.recv (s.events i).fd (e.recv.ret P))).stats (s.events i).fd = MAXEVENTS := hs
  simp only [epoll_data, hret, if_false, epoll_echo]
  simp only [EpollState.emit] at hs1 ⊢
  simp [hs1, Flow.is_undefined]

/-- The accepts of two traces add up. -/
theorem accepted_append (l1 l2 : List Effect) :
    accepted (l1 ++ l2) = accepted l1 + accepted l2 := by
  simp [accepted, List.filter_append]

/-- The totals of two traces add up. -/
theorem totals_append (l1 l2 : List Effect) :
    totals (l1 ++ l2) = totals l1 + totals l2 := by
  simp [totals, List.filter_append]

/-- An empty trace has no accept. -/
theorem accepted_nil : accepted [] = 0 := rfl

/-- The accepts of a trace, call by call. -/
theorem accepted_cons (e : Effect) (l : List Effect) :
    accepted (e :: l) = (if e.is_accept_ok then 1 else 0) + accepted l := by
  cases h : e.is_accept_ok <;> (simp [accepted, List.filter_cons, h]; try omega)

/-- An empty trace has no total. -/
theorem totals_nil : totals [] = 0 := rfl

/-- The totals of a trace, call by call. -/
theorem totals_cons (e : Effect) (l : List Effect) :
    totals (e :: l) = (if e.is_total then 1 else 0) + totals l := by
  cases h : e.is_total <;> (simp [totals, List.filter_cons, h]; try omega)

/-- The invariant of `run_epoll_loop` holds on entering the loop. -/
theorem epoll_init_inv (L E : Int) (events0 : Nat → epoll_event)
    (stats0 : Nat → srv_log_stats) (buff0 : Nat → UInt8) :
    EpollInv L E (epoll_init L E events0 stats0 buff0) :=
  ⟨rfl, rfl, rfl, rfl⟩

/-- The accept loop keeps the invariant of `run_epoll_loop` when it falls
through. -/
theorem accept_loop_inv (L E : Int) (cs : List NewConn) (e : AcceptEnd) (s s1 : EpollState)
    (hi : EpollInv L E s) (h : accept_loop s cs e = .next s1) : EpollInv L E s1 := by
  induction cs generalizing s with
  | nil =>
    obtain ⟨h1, h2, h3, h4⟩ := hi
    cases e with
    | would_block =>
      simp only [accept_loop, Flow.next.injEq] at h
      subst h
      exact ⟨h1, h2, by simp [EpollState.emit, accepted_append, accepted_cons, accepted_nil, h3, Effect.is_accept_ok],
        by simp [EpollState.emit, totals_append, totals_cons, totals_nil, h4, Effect.is_total]⟩
    | error =>
      simp only [accept_loop, Flow.next.injEq] at h
      subst h
      exact ⟨h1, h2, by simp [EpollState.emit, accepted_append, accepted_cons, accepted_nil, h3, Effect.is_accept_ok],
        by simp [EpollState.emit, totals_append, totals_cons, totals_nil, h4, Effect.is_total]⟩
  | cons c rest ih =>
    cases hnb : c.nonblock_ok with
    | false => rw [accept_loop_cons_nb s c rest e hnb] at h; cases h
    | true =>
      cases hctl : c.ctl_ok with
      | false => rw [accept_loop_cons_ctl s c rest e hnb hctl] at h; cases h
      | true =>
        rw [accept_loop_cons_ok s c rest e hnb hctl] at h
        refine ih _ ?_ h
        obtain ⟨h1, h2, h3, h4⟩ := hi
        exact ⟨h1, h2,
          by simp [register_client, EpollState.emit, accepted_append, accepted_cons, accepted_nil, h3,
            Effect.is_accept_ok],
          by simp [register_client, EpollState.emit, totals_append, totals_cons, totals_nil, h4,
            Effect.is_total]⟩

/-- The read and echo code keeps the invariant of `run_epoll_loop`. -/
theorem epoll_data_inv (L E : Int) (P : Nat) (s : EpollState) (i : Nat) (e : EvIn)
    (hi : EpollInv L E s) : EpollInv L E (epoll_data P s i e).state := by
  obtain ⟨h1, h2, h3, h4⟩ := hi
  simp only [epoll_data]
  split
  · simp only [Flow.state, epoll_disconnect, EpollState.emit]
    exact ⟨h1, h2, by simp [accepted_append, accepted_cons, accepted_nil, h3, Effect.is_accept_ok],
      by simp [totals_append, totals_cons, totals_nil, h4, Effect.is_total]⟩
  · simp only [epoll_echo, EpollState.emit]
    split
    · simp only [Flow.state]
      exact ⟨h1, h2, by simp [accepted_append, accepted_cons, accepted_nil, h3, Effect.is_accept_ok],
        by simp [totals_append, totals_cons, totals_nil, h4, Effect.is_total]⟩
    · simp only [Flow.state]
      exact ⟨h1, h2, by simp [accepted_append, accepted_cons, accepted_nil, h3, Effect.is_accept_ok],
        by simp [totals_append, totals_cons, totals_nil, h4, Effect.is_total]⟩

/-- The handling of one event keeps the invariant of `run_epoll_loop`. -/
theorem event_body_inv (L E : Int) (P : Nat) (s s1 : EpollState) (i : Nat) (e : EvIn)
    (hi : EpollInv L E s) (h : epoll_event_body P s i e = .next s1) : EpollInv L E s1 := by
  by_cases hfd : (s.events i).fd = s.sd_listen
  · rw [event_body_listen P s i e hfd] at h
    exact accept_loop_inv L E _ _ s s1 hi h
  · rw [event_body_data P s i e hfd] at h
    have := epoll_data_inv L E P s i e hi
    rw [h] at this
    exact this

/-- The loop over the events keeps the invariant of `run_epoll_loop`. -/
theorem process_events_inv (L E : Int) (P : Nat) (evs : List EvIn) (s s1 : EpollState)
    (i : Nat) (hi : EpollInv L E s) (h : process_events P s i evs = .next s1) :
    EpollInv L E s1 := by
  induction evs generalizing s i with
  | nil =>
    simp only [process_events, Flow.next.injEq] at h
    subst h
    exact hi
  | cons e rest ih =>
    simp only [process_events] at h
    cases hb : epoll_event_body P s i e with
    | next s2 =>
      rw [hb] at h
      exact ih s2 (i + 1) (event_body_inv L E P s s2 i e hi hb) h
    | ret c s2 => rw [hb] at h; cases h
    | undefined s2 => rw [hb] at h; cases h

/-- The invariant of `run_epoll_loop` holds at every `epoll_wait`. -/
theorem epoll_loop_inv (L E : Int) (P : Nat) (script : List WaitRes) (s s1 : EpollState)
    (hi : EpollInv L E s) (h : epoll_loop P s script = .next s1) : EpollInv L E s1 := by
  induction script generalizing s with
  | nil =>
    simp only [epoll_loop, Flow.next.injEq] at h
    subst h
    exact hi
  | cons w rest ih =>
    cases w with
    | error => simp [epoll_loop] at h
    | timeout => simp [epoll_loop] at h
    | ready evs =>
      simp only [epoll_loop] at h
      by_cases hE : (List.take MAXEVENTS evs).isEmpty = true
      · simp [hE] at h
      · simp only [hE, if_false] at h
        cases hp : process_events P
            { s with events := write_events s.events (List.take MAXEVENTS evs) } 0
            (List.take MAXEVENTS evs) with
        | next s2 =>
          rw [hp] at h
          refine ih s2 ?_ (by simpa using h)
          exact process_events_inv L E P _ _ s2 0
            (show EpollInv L E { s with events := write_events s.events (List.take MAXEVENTS evs) }
              from hi) hp
        | ret c s2 => rw [hp] at h; simp at h
        | undefined s2 => rw [hp] at h; simp at h

/-- The invariant of `run_poll_loop` holds on entering the loop. -/
theorem poll_init_inv (L : Int) (clts0 : Nat → pollfd) (stats0 : Nat → srv_log_stats)
    (buff0 : Nat → UInt8) (ready0 : Int) :
    PollInv L (poll_init L clts0 stats0 buff0 ready0) := by
  refine ⟨rfl, fun _ => rfl, rfl, Nat.le_refl 1, ?_⟩
  intro i hi
  have hne : i ≠ 0 := by
    have : 1 ≤ i := hi
    omega
  simp [poll_init, hne]

/-- The read and echo code keeps the invariant of `run_poll_loop`. -/
theorem poll_data_inv (L : Int) (P : Nat) (s : PollState) (i : Nat) (r : RecvRes)
    (sent : Int) (hi : PollInv L s) : PollInv L (poll_data P s i r sent) := by
  obtain ⟨h1, h2, h3, h4, h5⟩ := hi
  simp only [poll_data, PollState.emit]
  split
  · refine ⟨h1, ?_, ?_, h4, ?_⟩
    · intro hs
      simp [accepted_append, accepted_cons, accepted_nil, h2 hs, Effect.is_accept_ok]
    · simp [totals_append, totals_cons, totals_nil, h3, Effect.is_total]
    · intro k hk
      simp only [setAt]
      split
      · rfl
      · exact h5 k hk
  · refine ⟨h1, ?_, ?_, h4, h5⟩
    · intro hs
      simp [accepted_append, accepted_cons, accepted_nil, h2 hs, Effect.is_accept_ok]
    · simp [totals_append, totals_cons, totals_nil, h3, Effect.is_total]

/-- The loop over the slots keeps the invariant of `run_poll_loop`. -/
theorem poll_scan_inv (L : Int) (P : Nat) (recv : Nat → RecvRes) (sent : Nat → Int)
    (n i : Nat) (s : PollState) (hi : PollInv L s) :
    PollInv L (poll_scan P recv sent n i s) := by
  induction n generalizing i s with
  | zero => exact hi
  | succ m ih =>
    simp only [poll_scan]
    by_cases hfd : (s.clts i).fd = -1
    · simp only [hfd, ne_eq, not_true_eq_false, if_false]
      exact ih _ _ hi
    · simp only [hfd, ne_eq, not_false_eq_true, if_true]
      by_cases hrev : (s.clts i).revents = POLLIN
      · simp only [hrev, if_true]
        have hd := poll_data_inv L P s i (recv i) (sent i) hi
        split
        · exact hd
        · exact ih _ _ hd
      · simp only [hrev, if_false]
        split
        · exact hi
        · exact ih _ _ hi

/-- An accept keeps the invariant of `run_poll_loop`: while `_size` is below
`MAXCLIENTS` the slot `_size` is unused, so a slot is found and the client
counted. -/
theorem poll_accept_inv (L : Int) (s s1 : PollState) (c : Peer) (hi : PollInv L s)
    (hs : s.size ≤ MAXCLIENTS) (h : poll_accept s (some c) = .next s1) : PollInv L s1 := by
  obtain ⟨h1, h2, h3, h4, h5⟩ := hi
  have hfound : s.size < MAXCLIENTS →
      scan (fun i => (s.clts i).fd == -1) (MAXCLIENTS - 1) 1 ≤ s.size := by
    intro hlt
    apply scan_le_of_hit _ _ _ _ h4
    · simp only [MAXCLIENTS] at hlt ⊢; omega
    · simpa using h5 s.size (Nat.le_refl _)
  simp only [poll_accept, PollState.emit, Flow.next.injEq] at h
  subst h
  by_cases hj : scan (fun i => (s.clts i).fd == -1) (MAXCLIENTS - 1) 1 < MAXCLIENTS
  · simp only [hj, if_true]
    have hle : scan (fun i => (s.clts i).fd == -1) (MAXCLIENTS - 1) 1 ≤ s.size := by
      by_cases hlt : s.size < MAXCLIENTS
      · exact hfound hlt
      · omega
    refine ⟨h1, ?_, ?_, Nat.le_add_left 1 s.size, ?_⟩
    · intro hs1
      have hs2 : s.size ≤ MAXCLIENTS := hs
      simp [accepted_append, accepted_cons, accepted_nil, h2 hs2, Effect.is_accept_ok]
    · simp [totals_append, totals_cons, totals_nil, h3, Effect.is_total]
    · intro k hk
      have hk1 : s.size + 1 ≤ k := hk
      have hne : k ≠ scan (fun i => (s.clts i).fd == -1) (MAXCLIENTS - 1) 1 := by omega
      simp only [setAt, hne, if_false]
      exact h5 k (by omega)
  · simp only [hj, if_false]
    have hfull : ¬ s.size < MAXCLIENTS := fun hlt => hj (Nat.lt_of_le_of_lt (hfound hlt) hlt)
    refine ⟨h1, ?_, ?_, Nat.le_add_left 1 s.size, ?_⟩
    · intro hs1
      have hs2 : s.size + 1 ≤ MAXCLIENTS := hs1
      omega
    · simp [totals_append, totals_cons, totals_nil, h3, Effect.is_total]
    · intro k hk
      have hk1 : s.size + 1 ≤ k := hk
      exact h5 k (by omega)

/-- A pass of the poll loop keeps the invariant of `run_poll_loop`. -/
theorem poll_pass_inv (L : Int) (P : Nat) (s s1 : PollState) (inp : PollIn)
    (hi : PollInv L s) (h : poll_pass P s inp = .next s1) : PollInv L s1 := by
  simp only [poll_pass] at h
  by_cases hsz : s.size > MAXCLIENTS
  · simp [hsz] at h
  · simp only [hsz, if_false] at h
    have hs : s.size ≤ MAXCLIENTS := by omega
    cases hw : inp.wait with
    | error => rw [hw] at h; simp at h
    | events rev =>
      rw [hw] at h
      simp only at h
      have hi1 : PollInv L { s with
          clts := fun i => { s.clts i with revents := poll_revents s rev i },
          ready := poll_count s rev } := by
        obtain ⟨h1, h2, h3, h4, h5⟩ := hi
        exact ⟨h1, h2, h3, h4, fun k hk => h5 k hk⟩
      by_cases hz : poll_count s rev = 0
      · simp [hz] at h
      · simp only [hz, if_false] at h
        by_cases hl : poll_revents s rev 0 = POLLIN
        · simp only [hl, if_true] at h
          cases ha : inp.accept with
          | none => rw [ha] at h; simp [poll_accept] at h
          | some c =>
            rw [ha] at h
            cases hacc : poll_accept { s with
                clts := fun i => { s.clts i with revents := poll_revents s rev i },
                ready := poll_count s rev } (some c) with
            | next s2 =>
              rw [hacc] at h
              simp only [Flow.next.injEq] at h
              subst h
              have hi2 := poll_accept_inv L _ s2 c hi1 hs hacc
              split
              · exact poll_scan_inv L P _ _ _ _ s2 hi2
              · exact hi2
            | ret c2 s2 => rw [hacc] at h; simp at h
            | undefined s2 => rw [hacc] at h; simp at h
        · simp only [hl, if_false, Flow.next.injEq] at h
          subst h
          split
          · exact poll_scan_inv L P _ _ _ _ _ hi1
          · exact hi1

/-- The invariant of `run_poll_loop` holds at every `poll`. -/
theorem poll_loop_inv (L : Int) (P : Nat) (script : List PollIn) (s s1 : PollState)
    (hi : PollInv L s) (h : poll_loop P s script = .next s1) : PollInv L s1 := by
  induction script generalizing s with
  | nil =>
    simp only [poll_loop, Flow.next.injEq] at h
    subst h
    exact hi
  | cons inp rest ih =>
    simp only [poll_loop] at h
    cases hp : poll_pass P s inp with
    | next s2 =>
      rw [hp] at h
      exact ih s2 (poll_pass_inv L P s s2 inp hi hp) (by simpa using h)
    | ret c s2 => rw [hp] at h; simp at h
    | undefined s2 => rw [hp] at h; simp at h

/-- An accept leaves an occupied slot as it is: the slot it writes is one that
was marked unused. -/
theorem poll_accept_keeps_slot (s : PollState) (c : Peer) (i : Nat)
    (hfd : (s.clts i).fd ≠ -1) :
    ((poll_accept s (some c)).state.clts i).fd = (s.clts i).fd
    ∧ (poll_accept s (some c)).state.stats i = s.stats i := by
  simp only [poll_accept, PollState.emit, Flow.state]
  by_cases hj : scan (fun i => (s.clts i).fd == -1) (MAXCLIENTS - 1) 1 < MAXCLIENTS
  · have hhit : (s.clts (scan (fun i => (s.clts i).fd == -1) (MAXCLIENTS - 1) 1)).fd = -1 := by
      have := scan_hit (fun i => (s.clts i).fd == -1) (MAXCLIENTS - 1) 1
        (by simp only [MAXCLIENTS] at hj ⊢; omega)
      simpa using this
    have hne : i ≠ scan (fun i => (s.clts i).fd == -1) (MAXCLIENTS - 1) 1 := by
      intro h
      rw [← h] at hhit
      exact hfd hhit
    simp [hj, setAt, hne]
  · simp [hj]

/-- A read on slot `k` leaves every other slot as it is. -/
theorem poll_data_other_slot (P : Nat) (s : PollState) (k i : Nat) (r : RecvRes) (sent : Int)
    (hne : k ≠ i) :
    (poll_data P s k r sent).clts i = s.clts i
    ∧ (poll_data P s k r sent).stats i = s.stats i := by
  have hne2 : i ≠ k := fun h => hne h.symm
  simp only [poll_data, PollState.emit]
  split <;> simp [setAt, hne2]

/-- A read on slot `i` that returns a non-zero count adds one request to slot
`i` and leaves its descriptor, peer address and open time. -/
theorem poll_data_read (P : Nat) (s : PollState) (i : Nat) (r : RecvRes) (sent : Int)
    (hr : r.ret P ≠ 0) :
    (poll_data P s i r sent).clts i = s.clts i
    ∧ ((poll_data P s i r sent).stats i).requests = (s.stats i).requests + 1
    ∧ ((poll_data P s i r sent).stats i).clt_ip = (s.stats i).clt_ip
    ∧ ((poll_data P s i r sent).stats i).tm = (s.stats i).tm := by
  simp [poll_data, PollState.emit, hr, setAt]

/-- Through any sequence of steps without a peer close on slot `i`, an occupied
slot `i` keeps its descriptor, peer address and open time, and its request
count grows by the number of reads on it that return a non-zero count. -/
theorem poll_ops_keep_slot (P : Nat) (i : Nat) (ops : List PollOp) (s : PollState)
    (hfd : (s.clts i).fd ≠ -1) (hopen : ∀ op ∈ ops, op.closes P i = false) :
    ((poll_ops P s ops).clts i).fd = (s.clts i).fd
    ∧ ((poll_ops P s ops).stats i).requests = (s.stats i).requests + reads_on P i ops
    ∧ ((poll_ops P s ops).stats i).clt_ip = (s.stats i).clt_ip
    ∧ ((poll_ops P s ops).stats i).tm = (s.stats i).tm := by
  induction ops generalizing s with
  | nil => simp [poll_ops, reads_on]
  | cons op rest ih =>
    have hrest : ∀ o ∈ rest, o.closes P i = false :=
      fun o ho => hopen o (List.mem_cons_of_mem op ho)
    have hop := hopen op (List.mem_cons_self op rest)
    have hstep : poll_ops P s (op :: rest) = poll_ops P (poll_op P s op) rest := rfl
    rw [hstep]
    cases op with
    | wait rev =>
      have h1 : ((poll_op P s (.wait rev)).clts i).fd = (s.clts i).fd := rfl
      have h2 : (poll_op P s (.wait rev)).stats i = s.stats i := rfl
      obtain ⟨a, b, c, d⟩ := ih (poll_op P s (.wait rev)) (by rw [h1]; exact hfd) hrest
      rw [h1] at a
      rw [h2] at b c d
      exact ⟨a, by simpa [reads_on] using b, c, d⟩
    | accept c0 =>
      obtain ⟨h1, h2⟩ := poll_accept_keeps_slot s c0 i hfd
      have h1a : ((poll_op P s (.accept c0)).clts i).fd = (s.clts i).fd := h1
      have h2a : (poll_op P s (.accept c0)).stats i = s.stats i := h2
      obtain ⟨a, b, c, d⟩ := ih (poll_op P s (.accept c0)) (by rw [h1a]; exact hfd) hrest
      rw [h1a] at a
      rw [h2a] at b c d
      exact ⟨a, by simpa [reads_on] using b, c, d⟩
    | data k r sent =>
      by_cases hk : k = i
      · subst hk
        have hr : r.ret P ≠ 0 := by
          simpa [PollOp.closes] using hop
        obtain ⟨h1, h2, h3, h4⟩ := poll_data_read P s k r sent hr
        have h1a : (poll_op P s (.data k r sent)).clts k = s.clts k := h1
        obtain ⟨a, b, c, d⟩ := ih (poll_op P s (.data k r sent)) (by rw [h1a]; exact hfd) hrest
        rw [h1a] at a
        refine ⟨a, ?_, ?_, ?_⟩
        · rw [b]
          show ((poll_data P s k r sent).stats k).requests + _ = _
          rw [h2]
          simp [reads_on, hr]
          omega
        · rw [c]; exact h3
        · rw [d]; exact h4
      · obtain ⟨h1, h2⟩ := poll_data_other_slot P s k i r sent hk
        have h1a : (poll_op P s (.data k r sent)).clts i = s.clts i := h1
        have h2a : (poll_op P s (.data k r sent)).stats i = s.stats i := h2
        obtain ⟨a, b, c, d⟩ := ih (poll_op P s (.data k r sent)) (by rw [h1a]; exact hfd) hrest
        rw [h1a] at a
        rw [h2a] at b c d
        exact ⟨a, by simpa [reads_on, hk] using b, c, d⟩

/-- The steps of two sequences, one after the other. -/
theorem poll_ops_append (P : Nat) (s : PollState) (a b : List PollOp) :
    poll_ops P s (a ++ b) = poll_ops P (poll_ops P s a) b := by
  simp [poll_ops, List.foldl_append]

/-- The loop over the slots is a sequence of reads. -/
theorem poll_scan_is_ops (P : Nat) (recv : Nat → RecvRes) (sent : Nat → Int) (n i : Nat)
    (s : PollState) : ∃ ops, poll_scan P recv sent n i s = poll_ops P s ops := by
  induction n generalizing i s with
  | zero => exact ⟨[], rfl⟩
  | succ m ih =>
    simp only [poll_scan]
    by_cases hfd : (s.clts i).fd = -1
    · simp only [hfd, ne_eq, not_true_eq_false, if_false]
      exact ih _ _
    · simp only [hfd, ne_eq, not_false_eq_true, if_true]
      by_cases hrev : (s.clts i).revents = POLLIN
      · simp only [hrev, if_true]
        split
        · exact ⟨[.data i (recv i) (sent i)], rfl⟩
        · obtain ⟨ops, h⟩ := ih (i + 1) (poll_data P s i (recv i) (sent i))
          exact ⟨.data i (recv i) (sent i) :: ops, by rw [h]; rfl⟩
      · simp only [hrev, if_false]
        split
        · exact ⟨[], rfl⟩
        · exact ih _ _

/-- A pass of the poll loop that goes on is a sequence of steps: the `poll`,
the accept if there is one, and the reads. -/
theorem poll_pass_is_ops (P : Nat) (s s1 : PollState) (inp : PollIn)
    (h : poll_pass P s inp = .next s1) : ∃ ops, s1 = poll_ops P s ops := by
  simp only [poll_pass] at h
  by_cases hsz : s.size > MAXCLIENTS
  · simp [hsz] at h
  · simp only [hsz, if_false] at h
    cases hw : inp.wait with
    | error => rw [hw] at h; simp at h
    | events rev =>
      rw [hw] at h
      simp only at h
      by_cases hz : poll_count s rev = 0
      · simp [hz] at h
      · simp only [hz, if_false] at h
        by_cases hl : poll_revents s rev 0 = POLLIN
        · simp only [hl, if_true] at h
          cases ha : inp.accept with
          | none => rw [ha] at h; simp [poll_accept] at h
          | some c =>
            rw [ha] at h
            cases hacc : poll_accept { s with
                clts := fun i => { s.clts i with revents := poll_revents s rev i },
                ready := poll_count s rev } (some c) with
            | next s2 =>
              rw [hacc] at h
              simp only [Flow.next.injEq] at h
              have hs2 : s2 = poll_ops P s [.wait rev, .accept c] :=
                (congrArg Flow.state hacc).symm
              by_cases hr : s2.ready > 0
              · simp only [hr, if_true] at h
                obtain ⟨ops, hops⟩ := poll_scan_is_ops P inp.recv inp.bytes_sent
                  (MAXCLIENTS - 1) 1 s2
                refine ⟨[.wait rev, .accept c] ++ ops, ?_⟩
                rw [poll_ops_append, ← hs2, ← hops, h]
              · simp only [hr, if_false] at h
                exact ⟨[.wait rev, .accept c], by rw [← h]; exact hs2⟩
            | ret c2 s2 => rw [hacc] at h; simp at h
            | undefined s2 => rw [hacc] at h; simp at h
        · simp only [hl, if_false, Flow.next.injEq] at h
          split at h
          · obtain ⟨ops, hops⟩ := poll_scan_is_ops P inp.recv inp.bytes_sent
              (MAXCLIENTS - 1) 1 { s with
                clts := fun i => { s.clts i with revents := poll_revents s rev i },
                ready := poll_count s rev }
            refine ⟨.wait rev :: ops, ?_⟩
            rw [← h, hops]
            rfl
          · exact ⟨[.wait rev], by rw [← h]; rfl⟩

/-- Every state the poll loop reaches is reached by a sequence of steps. -/
theorem poll_loop_is_ops (P : Nat) (script : List PollIn) (s s1 : PollState)
    (h : poll_loop P s script = .next s1) : ∃ ops, s1 = poll_ops P s ops := by
  induction script generalizing s with
  | nil =>
    simp only [poll_loop, Flow.next.injEq] at h
    exact ⟨[], h.symm⟩
  | cons inp rest ih =>
    simp only [poll_loop] at h
    cases hp : poll_pass P s inp with
    | next s2 =>
      rw [hp] at h
      obtain ⟨ops1, h1⟩ := poll_pass_is_ops P s s2 inp hp
      obtain ⟨ops2, h2⟩ := ih s2 (by simpa using h)
      exact ⟨ops1 ++ ops2, by rw [poll_ops_append, ← h1, h2]⟩
    | ret c s2 => rw [hp] at h; simp at h
    | undefined s2 => rw [hp] at h; simp at h

/-- While every accept and thread creation succeeds, `n` rounds of the accept
loop of srv_thread.c on `n` connections or more start `n` threads and
return 0. -/
theorem accept_rounds_all_ok (L : Int) (n : Nat) (script : List AcceptIn) (s : AcceptState)
    (h : ∀ a ∈ script, a.ok = true) (hlen : n ≤ script.length) :
    ∃ s1, accept_rounds L n s script = .ret 0 s1
      ∧ s1.threads.length = s.threads.length + n
      ∧ s1.total_clts = s.total_clts + n
      ∧ accepted s1.trace = accepted s.trace + n := by
  induction n generalizing script s with
  | zero => exact ⟨s, by simp [accept_rounds], by simp, by simp, by simp⟩
  | succ m ih =>
    cases script with
    | nil => simp at hlen
    | cons a rest =>
      have ha := h a (List.mem_cons_self a rest)
      simp only [AcceptIn.ok, Bool.and_eq_true] at ha
      obtain ⟨⟨hacc, hcr⟩, hdt⟩ := ha
      cases hc : a.accept with
      | none => rw [hc] at hacc; simp at hacc
      | some c =>
        obtain ⟨s1, h1, h2, h3, h4⟩ := ih rest
          { ({ s with total_clts := s.total_clts + 1 }).emit (.accept_ok c.sd) with
            threads := s.threads ++ [⟨c.sd, c.clt_ip⟩] }
          (fun b hb => h b (List.mem_cons_of_mem a hb))
          (by simpa using hlen)
        refine ⟨s1, ?_, ?_, ?_, ?_⟩
        · simp only [accept_rounds, hc, hcr, hdt, Bool.not_true, Bool.false_eq_true, if_false]
          exact h1
        · rw [h2]; simp [AcceptState.emit]; omega
        · rw [h3]; simp [AcceptState.emit]; omega
        · rw [h4]
          simp [AcceptState.emit, accepted_append, accepted_cons, accepted_nil,
            Effect.is_accept_ok]
          omega

/-- While every accept and thread creation succeeds, the accept loop of
srv_thread.c on fewer than `n` connections is blocked in `accept`. -/
theorem accept_rounds_short (L : Int) (n : Nat) (script : List AcceptIn) (s : AcceptState)
    (h : ∀ a ∈ script, a.ok = true) (hlen : script.length < n) :
    ∃ s1, accept_rounds L n s script = .next s1
      ∧ s1.threads.length = s.threads.length + script.length := by
  induction script generalizing n s with
  | nil =>
    cases n with
    | zero => simp at hlen
    | succ m => exact ⟨s, by simp [accept_rounds], by simp⟩
  | cons a rest ih =>
    cases n with
    | zero => simp at hlen
    | succ m =>
      have ha := h a (List.mem_cons_self a rest)
      simp only [AcceptIn.ok, Bool.and_eq_true] at ha
      obtain ⟨⟨hacc, hcr⟩, hdt⟩ := ha
      cases hc : a.accept with
      | none => rw [hc] at hacc; simp at hacc
      | some c =>
        obtain ⟨s1, h1, h2⟩ := ih m
          { ({ s with total_clts := s.total_clts + 1 }).emit (.accept_ok c.sd) with
            threads := s.threads ++ [⟨c.sd, c.clt_ip⟩] }
          (fun b hb => h b (List.mem_cons_of_mem a hb))
          (by simpa using hlen)
        refine ⟨s1, ?_, ?_⟩
        · simp only [accept_rounds, hc, hcr, hdt, Bool.not_true, Bool.false_eq_true, if_false]
          exact h1
        · rw [h2]; simp [AcceptState.emit]; omega

/-- When the send loop returns 0, at least one request is counted and the last
call hands over the sum of the round-trip times divided by the request
count. -/
theorem send_while_spec (P : Nat) (sd : Int) (t1 : Int) (script : List CltIn)
    (s s1 : CltState) (hreq : 0 ≤ s.stats.requests)
    (h : send_while P sd t1 s script = .ret 0 s1) :
    1 ≤ s1.stats.requests
    ∧ s1.trace.getLast? = some (.append_clt_data s1.stats
        ((s.avg_time + (round_trips P t1 script).sum) / (s1.stats.requests : ℚ))) := by
  induction script generalizing s with
  | nil => simp [send_while] at h
  | cons inp rest ih =>
    simp only [send_while, send_body, CltState.emit] at h
    simp only [round_trips]
    by_cases hs : inp.bytes_sent = -1
    · simp [hs] at h
    · simp only [hs, if_false] at h ⊢
      by_cases hr1 : inp.recv.ret P = -1
      · simp [hr1] at h
      · simp only [hr1, if_false] at h ⊢
        by_cases hr0 : inp.recv.ret P = 0
        · simp only [hr0, if_true, send_finish] at h ⊢
          have hne : ¬ s.stats.requests + 1 = 0 := by omega
          simp only [hne, if_false, CltState.emit, Flow.ret.injEq, true_and] at h
          subst h
          refine ⟨by simp; omega, ?_⟩
          simp
        · simp only [hr0, if_false] at h ⊢
          by_cases hto : inp.t2 - t1 > TIMEOUT
          · simp only [hto, if_true, send_finish] at h ⊢
            have hne : ¬ s.stats.requests + 1 = 0 := by omega
            simp only [hne, if_false, CltState.emit, Flow.ret.injEq, true_and] at h
            subst h
            refine ⟨by simp; omega, ?_⟩
            simp
          · simp only [hto, if_false] at h ⊢
            obtain ⟨a, b⟩ := ih _ (by simp; omega) h
            refine ⟨a, ?_⟩
            rw [b]
            simp [add_assoc]

/-- The send loop never divides by a request count of 0. -/
theorem send_while_defined (P : Nat) (sd : Int) (t1 : Int) (script : List CltIn)
    (s : CltState) (hreq : 0 ≤ s.stats.requests) :
    (send_while P sd t1 s script).is_undefined = false := by
  induction script generalizing s with
  | nil => simp [send_while, Flow.is_undefined]
  | cons inp rest ih =>
    simp only [send_while, send_body, CltState.emit]
    by_cases hs : inp.bytes_sent = -1
    · simp [hs, Flow.is_undefined]
    · simp only [hs, if_false]
      by_cases hr1 : inp.recv.ret P = -1
      · simp [hr1, Flow.is_undefined]
      · simp only [hr1, if_false]
        have hne : ¬ s.stats.requests + 1 = 0 := by omega
        by_cases hr0 : inp.recv.ret P = 0
        · simp [hr0, send_finish, hne, Flow.is_undefined]
        · simp only [hr0, if_false]
          by_cases hto : inp.t2 - t1 > TIMEOUT
          · simp [hto, send_finish, hne, Flow.is_undefined]
          · simp only [hto, if_false]
            exact ih _ (by simp; omega)

/-- The value the send loop returns and the number of `append_clt_data` calls
it makes, by the way the loop ends. -/
theorem send_while_exit (P : Nat) (sd : Int) (t1 : Int) (script : List CltIn)
    (s : CltState) (hreq : 0 ≤ s.stats.requests) :
    (send_while P sd t1 s script).code = (clt_exit P t1 script).map CltExit.code
    ∧ clt_appends (send_while P sd t1 s script).state.trace
        = clt_appends s.trace + ((clt_exit P t1 script).map CltExit.appends).getD 0 := by
  induction script generalizing s with
  | nil => simp [send_while, clt_exit, Flow.code, Flow.state]
  | cons inp rest ih =>
    simp only [send_while, send_body, CltState.emit, clt_exit]
    by_cases hs : inp.bytes_sent = -1
    · simp [hs, Flow.code, Flow.state, CltExit.code, CltExit.appends, clt_appends,
        List.filter_append, CltEffect.is_append]
    · simp only [hs, if_false]
      by_cases hr1 : inp.recv.ret P = -1
      · simp [hr1, Flow.code, Flow.state, CltExit.code, CltExit.appends, clt_appends,
          List.filter_append, CltEffect.is_append]
      · simp only [hr1, if_false]
        have hne : ¬ s.stats.requests + 1 = 0 := by omega
        by_cases hr0 : inp.recv.ret P = 0
        · simp [hr0, send_finish, hne, Flow.code, Flow.state, CltExit.code, CltExit.appends,
            clt_appends, List.filter_append, CltEffect.is_append, CltState.emit]
        · simp only [hr0, if_false]
          by_cases hto : inp.t2 - t1 > TIMEOUT
          · simp [hto, send_finish, hne, Flow.code, Flow.state, CltExit.code,
              CltExit.appends, clt_appends, List.filter_append, CltEffect.is_append,
              CltState.emit]
          · simp only [hto, if_false]
            obtain ⟨a, b⟩ := ih { s with
                stats := { s.stats with
                  requests := s.stats.requests + 1,
                  bytes := update_bytes_struct s.stats.bytes (inp.recv.ret P) },
                recv_buff := fun _ => 0,
                avg_time := s.avg_time + elapsed_ms inp.tt1 inp.tt2,
                trace := s.trace ++ [.send sd (List.replicate P 65) inp.bytes_sent]
                  ++ [.recv sd (inp.recv.ret P)] } (by simp; omega)
            refine ⟨a, ?_⟩
            rw [b]
            simp [clt_appends, List.filter_append, CltEffect.is_append]

/-- Calls of `fprintf` do not change whether the mutex is held. -/
theorem lock_held_fprintf (held : Bool) (l : List LogEffect)
    (h : ∀ e ∈ l, ∃ f, e = LogEffect.fprintf f) : ∀ rest, lock_held held (l ++ rest)
      = lock_held held rest := by
  induction l with
  | nil => intro rest; rfl
  | cons e t ih =>
    intro rest
    obtain ⟨f, hf⟩ := h e (List.mem_cons_self e t)
    subst hf
    simp only [List.cons_append, lock_held]
    exact ih (fun e he => h e (List.mem_cons_of_mem _ he)) rest

/-- Calls of `fprintf` do not open a file. -/
theorem opens_locked_fprintf (held : Bool) (l : List LogEffect)
    (h : ∀ e ∈ l, ∃ f, e = LogEffect.fprintf f) : ∀ rest, opens_locked held (l ++ rest)
      = opens_locked held rest := by
  induction l with
  | nil => intro rest; rfl
  | cons e t ih =>
    intro rest
    obtain ⟨f, hf⟩ := h e (List.mem_cons_self e t)
    subst hf
    simp only [List.cons_append, opens_locked]
    exact ih (fun e he => h e (List.mem_cons_of_mem _ he)) rest

/-- The line of the byte total is made of `fprintf` calls. -/
theorem bytes_line_fprintf (bytes : Bytes) (tail : String) :
    ∀ e ∈ bytes_line bytes tail, ∃ f, e = LogEffect.fprintf f := by
  intro e he
  simp only [bytes_line] at he
  split at he
  · simp at he; exact ⟨_, he⟩
  · split at he
    · simp at he; exact ⟨_, he⟩
    · split at he
      · simp at he; exact ⟨_, he⟩
      · split at he
        · simp at he; exact ⟨_, he⟩
        · simp at he

/-! ## Lemmas on the arguments, the byte counters, the send loop and the poll table -/

/-- The loop of `valid_args` runs to the end of the string exactly when every
character of the string is a digit; an empty string has no character to
fail on. -/
theorem digits_to_end_iff (l : List Char) :
    digits_to_end l = true ↔ ∀ c ∈ l, isdigit c = true := by
  induction l with
  | nil => simp [digits_to_end]
  | cons c t ih =>
    simp only [digits_to_end, List.mem_cons, forall_eq_or_imp]
    cases hc : isdigit c <;> simp [ih]

/-- The function `valid_args` of the servers returns 1 exactly when the count is `ARGSNUM`
and every character of the port argument is a digit. -/
theorem valid_args_iff (prog : String) (arg : Int) (port : String) :
    (valid_args prog arg port).1 = 1
      ↔ arg = ARGSNUM ∧ ∀ c ∈ port.toList, isdigit c = true := by
  rw [← digits_to_end_iff]
  simp only [valid_args]
  by_cases ha : arg = ARGSNUM
  · cases hp : digits_to_end port.toList <;> simp [ha]
  · simp [ha]

/-- When the argument count is not 2, or some character of the port argument
is not a digit, `valid_args` returns 0 and `main` of a reactor exits with
status 1 without a call of `create_socket`. -/
theorem main_exits_on_bad_args (r : Reactor) (argv : List String) (env : SrvEnv)
    (loop : Int → Option Int)
    (h : ¬ (argv.length = 2 ∧ ∀ c ∈ (argv.getD ARG_PORT "").toList, isdigit c = true)) :
    (valid_args r.prog argv.length (argv.getD ARG_PORT "")).1 = 0
    ∧ (main r argv env loop).1 = some 1
    ∧ ∀ sd, SetupEffect.create_socket sd ∉ (main r argv env loop).2 := by
  rw [← digits_to_end_iff] at h
  simp only [main, valid_args, ARGSNUM]
  generalize argv.getD ARG_PORT "" = port at h ⊢
  by_cases ha : (argv.length : Int) = 2
  · have ha2 : argv.length = 2 := by exact_mod_cast ha
    cases hc : digits_to_end port.toList
    · simp [ha]
    · exact absurd ⟨ha2, hc⟩ h
  · simp [ha]

/-- The function `run_epoll_loop` calls `epoll_wait` at least once. -/
theorem epoll_states_ne_nil (P : Nat) (s : EpollState) (script : List WaitRes) :
    epoll_states P s script ≠ [] := by
  cases script <;> simp [epoll_states]

/-- The function `run_poll_loop` calls `poll` at least once. -/
theorem poll_states_ne_nil (P : Nat) (s : PollState) (script : List PollIn) :
    poll_states P s script ≠ [] := by
  cases script <;> simp [poll_states]

/-- The invariant of `run_poll_loop` holds at every call of `poll`. -/
theorem poll_states_inv (L : Int) (P : Nat) (script : List PollIn) (s : PollState)
    (hi : PollInv L s) : ∀ st ∈ poll_states P s script, PollInv L st := by
  induction script generalizing s with
  | nil =>
    intro st hst
    simp only [poll_states, List.mem_singleton] at hst
    subst hst
    exact hi
  | cons inp rest ih =>
    intro st hst
    simp only [poll_states, List.mem_cons] at hst
    rcases hst with hst | hst
    · subst hst
      exact hi
    · cases hp : poll_pass P s inp with
      | next s2 =>
        rw [hp] at hst
        exact ih s2 (poll_pass_inv L P s s2 inp hi hp) st hst
      | ret c s2 => rw [hp] at hst; simp at hst
      | undefined s2 => rw [hp] at hst; simp at hst

/-- The last call of `poll` of a loop still running is made in the state the
loop has reached. -/
theorem poll_states_getLast (P : Nat) (script : List PollIn) (s s1 : PollState)
    (h : poll_loop P s script = .next s1) : (poll_states P s script).getLast? = some s1 := by
  induction script generalizing s with
  | nil =>
    simp only [poll_loop, Flow.next.injEq] at h
    subst h
    rfl
  | cons inp rest ih =>
    simp only [poll_loop] at h
    cases hp : poll_pass P s inp with
    | next s2 =>
      rw [hp] at h
      have h2 := ih s2 (by simpa using h)
      simp only [poll_states, hp]
      rw [List.getLast?_cons, h2]
      rfl
    | ret c s2 => rw [hp] at h; simp at h
    | undefined s2 => rw [hp] at h; simp at h

/-- A read leaves `_size` and the number of accepts as they are. -/
theorem poll_data_size (P : Nat) (s : PollState) (i : Nat) (r : RecvRes) (sent : Int) :
    (poll_data P s i r sent).size = s.size
    ∧ accepted (poll_data P s i r sent).trace = accepted s.trace := by
  simp only [poll_data, PollState.emit]
  split <;>
    simp [accepted_append, accepted_cons, accepted_nil, Effect.is_accept_ok]

/-- The loop over the slots leaves `_size` and the number of accepts as they
are. -/
theorem poll_scan_size (P : Nat) (recv : Nat → RecvRes) (sent : Nat → Int) (n i : Nat)
    (s : PollState) :
    (poll_scan P recv sent n i s).size = s.size
    ∧ accepted (poll_scan P recv sent n i s).trace = accepted s.trace := by
  induction n generalizing i s with
  | zero => exact ⟨rfl, rfl⟩
  | succ m ih =>
    simp only [poll_scan]
    by_cases hfd : (s.clts i).fd = -1
    · simp only [hfd, ne_eq, not_true_eq_false, if_false]
      exact ih _ _
    · simp only [hfd, ne_eq, not_false_eq_true, if_true]
      have hd := poll_data_size P s i (recv i) (sent i)
      by_cases hrev : (s.clts i).revents = POLLIN
      · simp only [hrev, if_true]
        split
        · exact hd
        · obtain ⟨a, b⟩ := ih (i + 1) (poll_data P s i (recv i) (sent i))
          exact ⟨a.trans hd.1, b.trans hd.2⟩
      · simp only [hrev, if_false]
        split
        · exact ⟨rfl, rfl⟩
        · exact ih _ _

/-- An accept adds one to `_size`, whether a slot is found or not. -/
theorem poll_accept_size (s s1 : PollState) (c : Peer)
    (h : poll_accept s (some c) = .next s1) :
    s1.size = s.size + 1 ∧ accepted s1.trace = accepted s.trace + 1 := by
  simp only [poll_accept, PollState.emit, Flow.next.injEq] at h
  subst h
  split <;> simp [accepted_append, accepted_cons, accepted_nil, Effect.is_accept_ok]

/-- In a pass of the poll loop `_size` grows by the number of accepts of the
pass. -/
theorem poll_pass_size (P : Nat) (s s1 : PollState) (inp : PollIn)
    (h : poll_pass P s inp = .next s1) :
    s1.size + accepted s.trace = s.size + accepted s1.trace := by
  simp only [poll_pass] at h
  by_cases hsz : s.size > MAXCLIENTS
  · simp [hsz] at h
  · simp only [hsz, if_false] at h
    cases hw : inp.wait with
    | error => rw [hw] at h; simp at h
    | events rev =>
      rw [hw] at h
      simp only at h
      by_cases hz : poll_count s rev = 0
      · simp [hz] at h
      · simp only [hz, if_false] at h
        by_cases hl : poll_revents s rev 0 = POLLIN
        · simp only [hl, if_true] at h
          cases ha : inp.accept with
          | none => rw [ha] at h; simp [poll_accept] at h
          | some c =>
            rw [ha] at h
            cases hacc : poll_accept { s with
                clts := fun i => { s.clts i with revents := poll_revents s rev i },
                ready := poll_count s rev } (some c) with
            | next s2 =>
              rw [hacc] at h
              simp only [Flow.next.injEq] at h
              subst h
              obtain ⟨c1, c2⟩ := poll_accept_size _ s2 c hacc
              simp only [] at c1 c2
              split
              · obtain ⟨a, b⟩ := poll_scan_size P inp.recv inp.bytes_sent (MAXCLIENTS - 1) 1 s2
                rw [a, b]; omega
              · omega
            | ret c2 s2 => rw [hacc] at h; simp at h
            | undefined s2 => rw [hacc] at h; simp at h
        · simp only [hl, if_false, Flow.next.injEq] at h
          subst h
          split
          · obtain ⟨a, b⟩ := poll_scan_size P inp.recv inp.bytes_sent (MAXCLIENTS - 1) 1
              { s with
                clts := fun i => { s.clts i with revents := poll_revents s rev i },
                ready := poll_count s rev }
            rw [a, b]
          · rfl

/-- At every call of `poll`, `_size` is one more than the number of
connections accepted so far. -/
theorem poll_states_size (P : Nat) (script : List PollIn) (s : PollState)
    (h : s.size = 1 + accepted s.trace) :
    ∀ st ∈ poll_states P s script, st.size = 1 + accepted st.trace := by
  induction script generalizing s with
  | nil =>
    intro st hst
    simp only [poll_states, List.mem_singleton] at hst
    subst hst
    exact h
  | cons inp rest ih =>
    intro st hst
    simp only [poll_states, List.mem_cons] at hst
    rcases hst with hst | hst
    · subst hst
      exact h
    · cases hp : poll_pass P s inp with
      | next s2 =>
        rw [hp] at hst
        have := poll_pass_size P s s2 inp hp
        exact ih s2 (by omega) st hst
      | ret c s2 => rw [hp] at hst; simp at hst
      | undefined s2 => rw [hp] at hst; simp at hst

/-- A search whose first index matches stops there. -/
theorem scan_first (p : Nat → Bool) (n j : Nat) (h : p j = true) : scan p (n + 1) j = j := by
  simp [scan, h]

/-- When one index below `n` satisfies `p` and no other does, the indices below `n`
that satisfy `p` are one. -/
theorem count_range_single (p : Nat → Bool) (n k : Nat) (hk : k < n) (hpk : p k = true)
    (hp : ∀ i, i < n → i ≠ k → p i = false) : ((List.range n).filter p).length = 1 := by
  induction n with
  | zero => omega
  | succ m ih =>
    rw [List.range_succ, List.filter_append, List.length_append]
    by_cases hkm : k = m
    · subst hkm
      have h0 : (List.range k).filter p = [] := by
        rw [List.filter_eq_nil_iff]
        intro a ha
        have := hp a (by have := List.mem_range.mp ha; omega)
          (by have := List.mem_range.mp ha; omega)
        simp [this]
      simp [h0, hpk]
    · have hm : p m = false := hp m (by omega) (fun h => hkm h.symm)
      have := ih (by omega) (fun i hi hne => hp i (by omega) hne)
      simp [this, hm]

/-- With no connection open, a pass that accepts one on descriptor 5 stores it
in slot 1 and adds one to `_size`. -/
theorem churn_accept (P : Nat) (n : Nat) (s : PollState) (r : RecvRes)
    (h : Churned n s) (hn : n + 1 ≤ MAXCLIENTS) :
    ∃ s1, poll_pass P s (poll_in 0 (some ⟨5, "10.0.0.5", 100⟩) r) = .next s1
      ∧ ChurnedOpen n s1 := by
  obtain ⟨h0, hfree, hsz, hacc, hcl⟩ := h
  have hsz2 : ¬ s.size > MAXCLIENTS := by omega
  have hrev0 : poll_revents s (fun k => if k = 0 then POLLIN else 0) 0 = POLLIN := by
    simp [poll_revents, hsz, h0]
  have hcount : poll_count s (fun k => if k = 0 then POLLIN else 0) = 1 := by
    simp only [poll_count]
    rw [count_range_single _ s.size 0 (by omega)
      (by show (poll_revents s _ 0 != 0) = true; rw [hrev0]; decide)]
    · rfl
    · intro i hi hne
      simp [poll_revents, hi, hfree i (by omega)]
  have hscan : scan (fun i => (s.clts i).fd == -1) 14999 1 = 1 :=
    scan_first _ 14998 1 (by simp [hfree 1 (le_refl 1)])
  simp only [poll_pass, hsz2, if_false, poll_in, hcount, hrev0, if_true, poll_accept,
    PollState.emit]
  simp [hscan, MAXCLIENTS]
  refine ⟨by simp [setAt, h0], by simp [setAt], ?_, by simp [hsz], ?_, ?_⟩
  · intro i hi
    have hne : i ≠ 1 := by omega
    simp [setAt, hne, hfree i (by omega)]
  · simp [accepted_append, accepted_cons, accepted_nil, Effect.is_accept_ok, hacc]
  · simp only [closes] at hcl ⊢
    simp [List.count_append, hcl]

/-- The loop over the slots, when the first slot it looks at is readable and
is the last one with an event: it reads that slot and stops. -/
theorem poll_scan_read_last (P : Nat) (recv : Nat → RecvRes) (sent : Nat → Int) (n i : Nat)
    (s : PollState) (hfd : (s.clts i).fd ≠ -1) (hrev : (s.clts i).revents = POLLIN)
    (hready : (poll_data P s i (recv i) (sent i)).ready ≤ 0) :
    poll_scan P recv sent (n + 1) i s = poll_data P s i (recv i) (sent i) := by
  simp [poll_scan, hfd, hrev, hready]

/-- With one connection open in slot 1, the pass of its close marks the slot
unused and leaves `_size` as it is. -/
theorem churn_close (P : Nat) (n : Nat) (s : PollState) (h : ChurnedOpen n s)
    (hn : n + 2 ≤ MAXCLIENTS) :
    ∃ s1, poll_pass P s (poll_in 1 none .closed) = .next s1 ∧ Churned (n + 1) s1 := by
  obtain ⟨h0, h1, hfree, hsz, hacc, hcl⟩ := h
  have hsz2 : ¬ s.size > MAXCLIENTS := by omega
  have hrev0 : poll_revents s (fun k => if k = 1 then POLLIN else 0) 0 = 0 := by
    simp [poll_revents, hsz, h0]
  have hrev1 : poll_revents s (fun k => if k = 1 then POLLIN else 0) 1 = POLLIN := by
    simp [poll_revents, hsz, h1]
  have hcount : poll_count s (fun k => if k = 1 then POLLIN else 0) = 1 := by
    simp only [poll_count]
    rw [count_range_single _ s.size 1 (by omega)
      (by show (poll_revents s _ 1 != 0) = true; rw [hrev1]; decide)]
    · rfl
    · intro i hi hne
      by_cases hi0 : i = 0
      · subst hi0
        show (poll_revents s _ 0 != 0) = false
        rw [hrev0]; rfl
      · simp [poll_revents, hi, hfree i (by omega)]
  have hp : ¬ (0 : Int) = POLLIN := by decide
  have hM : MAXCLIENTS - 1 = 14998 + 1 := rfl
  have h51 : ¬ (5 : Int) = -1 := by decide
  simp only [poll_pass, hsz2, if_false, poll_in, hcount, hrev0, hp, hM]
  rw [poll_scan_read_last P _ _ 14998 1 _ (by simp [h1]) (by simp [hrev1])
    (by simp [poll_data, PollState.emit, RecvRes.ret, RecvRes.got])]
  simp [poll_data, PollState.emit, RecvRes.ret, RecvRes.got]
  refine ⟨by simp [setAt, h0], ?_, by simp [hsz], ?_, ?_⟩
  · intro i hi
    by_cases hi1 : i = 1
    · simp [setAt, hi1]
    · simp [setAt, hi1, hfree i (by omega)]
  · simp [accepted_append, accepted_cons, accepted_nil, Effect.is_accept_ok, hacc]
  · simp only [closes] at hcl ⊢
    simp [List.count_append, hcl, h1]

/-- With no connection open, `k` connections that come and go add `k` to
`_size`, as long as `_size` stays within the array. -/
theorem churn_run (P : Nat) (k n : Nat) (s : PollState) (h : Churned n s)
    (hn : n + k + 1 ≤ MAXCLIENTS) :
    ∃ s1, poll_loop P s (churn k) = .next s1 ∧ Churned (n + k) s1 := by
  induction k generalizing n s with
  | zero => exact ⟨s, rfl, h⟩
  | succ m ih =>
    obtain ⟨s1, hp1, hc1⟩ := churn_accept P n s .closed h (by omega)
    obtain ⟨s2, hp2, hc2⟩ := churn_close P n s1 hc1 (by omega)
    obtain ⟨s3, hp3, hc3⟩ := ih (n + 1) s2 hc2 (by omega)
    refine ⟨s3, ?_, by simpa [Nat.add_assoc, Nat.add_comm 1 m] using hc3⟩
    simp only [churn, churn_pass, List.cons_append, List.nil_append, poll_loop, hp1, hp2]
    exact hp3

/-- On entering its loop `run_poll_loop` has no connection open and `_size`
is 1. -/
theorem poll_init_churned :
    Churned 0 (poll_init 3 (fun _ => ⟨0, 0, 0⟩) (fun _ => zero_stats) (fun _ => 0) 0) := by
  refine ⟨rfl, ?_, rfl, rfl, rfl⟩
  intro i hi
  have : i ≠ 0 := by omega
  simp [poll_init, this]

/-- After `churn_script` the loop is at a `poll` with `_size` one more than
`MAXCLIENTS`. -/
theorem churn_overflow (P : Nat) (s0 : PollState) (h : Churned 0 s0) :
    ∃ s2, poll_loop P s0 churn_script = .next s2 ∧ s2.size = MAXCLIENTS + 1
      ∧ accepted s2.trace = 15000 ∧ closes 5 s2.trace = 14999 := by
  obtain ⟨s1, hp1, hc1⟩ := churn_run P 14999 0 s0 h (by decide)
  obtain ⟨s2, hp2, hc2⟩ := churn_accept P (0 + 14999) s1 .closed hc1 (by decide)
  obtain ⟨_, _, _, hsz, hacc, hcl⟩ := hc2
  refine ⟨s2, ?_, hsz, hacc, hcl⟩
  rw [churn_script, poll_loop_append, hp1]
  simp only [poll_loop, hp2]

/-- In exact arithmetic `update_bytes_struct` adds the count to the byte
total, whatever the count. -/
theorem update_bytes_total (d : Bytes) (b : Int) :
    (update_bytes_struct d b).total = d.total + (b : ℚ) := by
  simp only [update_bytes_struct, Bytes.total]
  have hk : KILO ≠ 0 := by simp [KILO]
  split
  · split
    · split <;> (simp only []; field_simp; ring)
    · simp only []; field_simp; ring
  · simp only []; ring

/-- An update with a non-negative count keeps the invariant of a `struct
Bytes`. -/
theorem update_bytes_inv (d : Bytes) (b : Int) (hb : 0 ≤ b) (hi : BytesInv d) :
    BytesInv (update_bytes_struct d b) := by
  obtain ⟨h1, h2, h3, h4, h5, h6⟩ := hi
  have hk : (0 : ℚ) < KILO := by simp [KILO]
  have hbq : (0 : ℚ) ≤ (b : ℚ) := by exact_mod_cast hb
  simp only [update_bytes_struct]
  by_cases c1 : d.bytes + (b : ℚ) ≥ KILO
  · have hq : 0 ≤ (d.bytes + (b : ℚ)) / KILO := div_nonneg (by linarith) hk.le
    have hkb : 0 ≤ d.kilobytes + (d.bytes + (b : ℚ)) / KILO := by linarith
    by_cases c2 : d.kilobytes + (d.bytes + (b : ℚ)) / KILO ≥ KILO
    · by_cases c3 : (d.kilobytes + (d.bytes + (b : ℚ)) / KILO) / KILO ≥ KILO
      · simp only [c1, c2, c3, if_true]
        exact ⟨le_refl _, hk, hkb, le_refl _, fun _ => c2, fun _ => c3⟩
      · simp only [c1, c2, c3, if_true, if_false]
        refine ⟨le_refl _, hk, hkb, le_refl _, fun _ => c2, ?_⟩
        intro hg
        have := h6 hg
        have : d.kilobytes / KILO ≤ (d.kilobytes + (d.bytes + (b : ℚ)) / KILO) / KILO :=
          div_le_div_of_nonneg_right (by linarith) hk.le
        exact absurd (by linarith : (d.kilobytes + (d.bytes + (b : ℚ)) / KILO) / KILO ≥ KILO) c3
    · simp only [c1, c2, if_true, if_false]
      have hm : d.megabytes = 0 := by
        by_contra hne
        have := h5 hne
        exact c2 (by linarith)
      have hg : d.gigabytes = 0 := by
        by_contra hne
        have := h6 hne
        rw [hm] at this
        linarith
      refine ⟨le_refl _, hk, hkb, ?_, ?_, ?_⟩
      · rw [hm]; exact div_nonneg hkb hk.le
      · intro hne; exact absurd hm hne
      · intro hne; exact absurd hg hne
  · simp only [c1, if_false]
    exact ⟨by show 0 ≤ d.bytes + (b : ℚ); linarith,
      by show d.bytes + (b : ℚ) < KILO; exact lt_of_not_ge c1, h3, h4, h5, h6⟩

/-- Updates with non-negative counts keep the invariant of a `struct Bytes`
and add up in the byte total. -/
theorem foldl_update_bytes (counts : List Int) (h : ∀ b ∈ counts, 0 ≤ b) (d : Bytes)
    (hi : BytesInv d) :
    BytesInv (counts.foldl update_bytes_struct d)
    ∧ (counts.foldl update_bytes_struct d).total = d.total + ((counts.sum : Int) : ℚ) := by
  induction counts generalizing d with
  | nil => simp [hi]
  | cons b t ih =>
    have hb := h b (List.mem_cons_self b t)
    obtain ⟨a, c⟩ := ih (fun x hx => h x (List.mem_cons_of_mem b hx)) (update_bytes_struct d b)
      (update_bytes_inv d b hb hi)
    refine ⟨by simpa using a, ?_⟩
    simp only [List.foldl_cons, List.sum_cons, c, update_bytes_total]
    push_cast
    ring

/-- Through complete round trips made before the duration has elapsed, the
send loop goes on: each adds one request, the bytes of its echo and its
round-trip time. -/
theorem send_while_round_trips (P : Nat) (sd : Int) (t1 : Int) (pre : List CltIn)
    (hpre : ∀ inp ∈ pre, inp.round_trip P = true ∧ inp.elapsed t1 = false) (s : CltState) :
    ∃ s1, (∀ rest, send_while P sd t1 s (pre ++ rest) = send_while P sd t1 s1 rest)
      ∧ s1.stats.requests = s.stats.requests + pre.length
      ∧ s1.stats.bytes.total = s.stats.bytes.total + (echo_bytes P pre : ℚ)
      ∧ s1.avg_time = s.avg_time + elapsed_sum pre := by
  induction pre generalizing s with
  | nil => exact ⟨s, fun rest => rfl, by simp, by simp [echo_bytes], by simp [elapsed_sum]⟩
  | cons inp t ih =>
    obtain ⟨hrt, hel⟩ := hpre inp (List.mem_cons_self inp t)
    simp only [CltIn.round_trip, Bool.and_eq_true, bne_iff_ne, ne_eq] at hrt
    obtain ⟨⟨hs, hr1⟩, hr0⟩ := hrt
    simp only [CltIn.elapsed, decide_eq_false_iff_not] at hel
    obtain ⟨s1, h1, h2, h3, h4⟩ := ih (fun x hx => hpre x (List.mem_cons_of_mem inp hx))
      { s with
        stats := { s.stats with
          requests := s.stats.requests + 1,
          bytes := update_bytes_struct s.stats.bytes (inp.recv.ret P) },
        recv_buff := fun _ => 0,
        avg_time := s.avg_time + elapsed_ms inp.tt1 inp.tt2,
        trace := s.trace ++ [.send sd (List.replicate P 65) inp.bytes_sent]
          ++ [.recv sd (inp.recv.ret P)] }
    refine ⟨s1, ?_, ?_, ?_, ?_⟩
    · intro rest
      rw [← h1 rest]
      simp [send_while, send_body, CltState.emit, hs, hr1, hr0, hel]
    · rw [h2]; simp; omega
    · rw [h3]
      simp only [update_bytes_total, echo_bytes, List.map_cons, List.sum_cons]
      push_cast
      ring
    · rw [h4]
      simp only [elapsed_sum, List.map_cons, List.sum_cons]
      ring

/-- The send loop adds one request for every `send` that does not fail. -/
theorem send_while_counts_sent (P : Nat) (sd : Int) (t1 : Int) (script : List CltIn)
    (s : CltState) :
    (send_while P sd t1 s script).state.stats.requests + packets_sent s.trace
      = s.stats.requests + packets_sent (send_while P sd t1 s script).state.trace := by
  induction script generalizing s with
  | nil => simp [send_while, Flow.state]
  | cons inp rest ih =>
    simp only [send_while, send_body, CltState.emit]
    by_cases hs : inp.bytes_sent = -1
    · simp [hs, Flow.state, packets_sent, List.filter_append, CltEffect.is_sent]
    · simp only [hs, if_false]
      by_cases hr1 : inp.recv.ret P = -1
      · simp [hr1, Flow.state, packets_sent, List.filter_append, CltEffect.is_sent, hs]
        omega
      · simp only [hr1, if_false]
        by_cases hr0 : inp.recv.ret P = 0
        · simp only [hr0, if_true, send_finish]
          split <;>
            (simp [Flow.state, packets_sent, List.filter_append, CltEffect.is_sent, hs,
              CltState.emit]; try omega)
        · simp only [hr0, if_false]
          by_cases hto : inp.t2 - t1 > TIMEOUT
          · simp only [hto, if_true, send_finish]
            split <;>
              (simp [Flow.state, packets_sent, List.filter_append, CltEffect.is_sent, hs,
                CltState.emit]; try omega)
          · simp only [hto, if_false]
            have := ih { s with
                stats := { s.stats with
                  requests := s.stats.requests + 1,
                  bytes := update_bytes_struct s.stats.bytes (inp.recv.ret P) },
                recv_buff := fun _ => 0,
                avg_time := s.avg_time + elapsed_ms inp.tt1 inp.tt2,
                trace := s.trace ++ [.send sd (List.replicate P 65) inp.bytes_sent]
                  ++ [.recv sd (inp.recv.ret P)] }
            simp [packets_sent, List.filter_append, CltEffect.is_sent, hs] at this ⊢
            omega

/-- The bytes that go back in two traces, one after the other. -/
theorem echoed_append (l1 l2 : List Effect) : echoed (l1 ++ l2) = echoed l1 ++ echoed l2 := by
  induction l1 with
  | nil => rfl
  | cons e t ih => cases e <;> simp [echoed, ih]

/-- What the read after `free` returns changes neither the statistics of
`echo_loop` nor the value it returns. -/
theorem echo_while_freed (P : Nat) (args : thread_args) (v w : Int)
    (script : List (RecvRes × Int)) (s : ThreadState) :
    (echo_while P args v s script).state.stats = (echo_while P args w s script).state.stats
    ∧ (echo_while P args v s script).code = (echo_while P args w s script).code := by
  induction script generalizing s with
  | nil => exact ⟨rfl, rfl⟩
  | cons a rest ih =>
    obtain ⟨r, sent⟩ := a
    simp only [echo_while]
    cases h : echo_body P args s r sent with
    | mk go s1 =>
      cases go
      · exact ⟨rfl, rfl⟩
      · exact ih s1

/-- A pass of the echo loop that ends in `break` is followed by the calls made
after the loop. -/
theorem echo_while_leave (P : Nat) (args : thread_args) (v : Int) (s : ThreadState)
    (r : RecvRes) (sent : Int) (rest : List (RecvRes × Int))
    (h : (echo_body P args s r sent).1 = false) :
    echo_while P args v s ((r, sent) :: rest)
      = .ret 0 (echo_finish v (echo_body P args s r sent).2) := by
  simp only [echo_while]
  cases hb : echo_body P args s r sent with
  | mk go s1 =>
    rw [hb] at h
    simp only at h
    subst h
    rfl

/-- A pass of the echo loop that does not end in `break` is followed by the
next pass. -/
theorem echo_while_again (P : Nat) (args : thread_args) (v : Int) (s : ThreadState)
    (r : RecvRes) (sent : Int) (rest : List (RecvRes × Int))
    (h : (echo_body P args s r sent).1 = true) :
    echo_while P args v s ((r, sent) :: rest)
      = echo_while P args v (echo_body P args s r sent).2 rest := by
  simp only [echo_while]
  cases hb : echo_body P args s r sent with
  | mk go s1 =>
    rw [hb] at h
    simp only at h
    subst h
    rfl

/-- The calls after the echo loop close the connection once more exactly when
the read after `free` returns its descriptor. -/
theorem closes_finish (fd v : Int) (s : ThreadState) :
    closes fd (echo_finish v s).trace = closes fd s.trace + (if v = fd then 1 else 0) := by
  simp only [echo_finish, ThreadState.emit, closes, List.count_append]
  by_cases h : v = fd
  · subst h; simp
  · have : ¬ (Effect.close v = Effect.close fd) := by simpa using h
    simp [h, List.count_cons, this]

/-- The calls `echo_loop` makes after its loop: the flush, the `free`, and the
`close` of what the freed block holds. -/
theorem brief_finish (v : Int) (s : ThreadState) :
    (echo_finish v s).trace.map Effect.brief
      = s.trace.map Effect.brief
          ++ [("append_srv_data", s.stats.sd), ("free", -1), ("close", v)] := by
  simp [echo_finish, ThreadState.emit, Effect.brief]

/-- The run `thread_run` is the echo loop entered in `thread_start`. -/
theorem thread_run_start (v : Int) (script : List (RecvRes × Int)) :
    thread_run v script = echo_while PKTSIZE thread_5 v thread_start script := rfl

/-- In `echo_loop` a failed `send` after one echo leaves the byte total at
1000, whatever the read after `free` returns. -/
theorem thread_stats_after_failed_send (v : Int) :
    (thread_run v [(.data (List.replicate PKTSIZE 97), 1000),
          (.data (List.replicate PKTSIZE 97), -1)]).state.stats.bytes.total = 1000 := by
  have h := (echo_while_freed PKTSIZE thread_5 v 5 [(.data (List.replicate PKTSIZE 97), 1000),
          (.data (List.replicate PKTSIZE 97), -1)] thread_start).1
  rw [thread_run_start, h]
  decide!

/-! ## The claims -/

/-- Claim C1, evaluated on `reuse_script`: the claim asks that the request
count of the entry keyed by a handle be the number of echo cycles handled on
it, whatever other connections do.  Here the second client accepted on
descriptor 5 has had one echo cycle.  The entry made when it was admitted
(slot 2, peer 10.0.0.8) still counts 0 requests; the slot the search for key
5 finds is slot 0, the entry of the first client of descriptor 5, which was
not marked unused when that client closed, and it counts 2. -/
theorem requests_counted_on_stale_entry :
    ((epoll_run reuse_script).state.stats 2).sd = 5
    ∧ ((epoll_run reuse_script).state.stats 2).clt_ip = "10.0.0.8"
    ∧ ((epoll_run reuse_script).state.stats 2).requests = 0
    ∧ epoll_slot (epoll_run reuse_script).state.stats 5 = 0
    ∧ ((epoll_run reuse_script).state.stats 0).clt_ip = "10.0.0.5"
    ∧ ((epoll_run reuse_script).state.stats 0).requests = 2 := by
  decide

/-- Claim C2, evaluated on `close_second_script`: the claim asks that the
record handed to `append_srv_data` on a peer close be the entry of the
closing handle.  Here descriptor 6 (stats slot 1) closes as event 0, and the
one record flushed is `_stats[0]`: the entry of descriptor 5, peer 10.0.0.5,
which is still open. -/
theorem close_flushes_other_entry :
    (flushed (epoll_run close_second_script).state.trace).map
        (fun r => (r.sd, r.clt_ip, r.tm, r.requests))
      = [(5, "10.0.0.5", 100, 1)]
    ∧ Effect.close 6 ∈ (epoll_run close_second_script).state.trace
    ∧ Effect.close 5 ∉ (epoll_run close_second_script).state.trace := by
  decide

/-- Claim C3, evaluated on `close_beside_script`: the claim asks that after
a peer close no slot be keyed by the closed handle and no slot of an open
connection be marked unused.  Here descriptor 6 closes as event 1 while
event 0 is a packet on descriptor 5: the search compares `_stats[j].sd`
with `_events[j].data.fd`, matches at slot 0 and marks the slot of the open
descriptor 5 unused, and slot 1 stays keyed by the closed descriptor 6. -/
theorem close_unmarks_other_slot :
    ((epoll_run close_beside_script).state.stats 0).sd = -1
    ∧ ((epoll_run close_beside_script).state.stats 0).clt_ip = "10.0.0.5"
    ∧ ((epoll_run close_beside_script).state.stats 1).sd = 6
    ∧ Effect.close 6 ∈ (epoll_run close_beside_script).state.trace
    ∧ Effect.close 5 ∉ (epoll_run close_beside_script).state.trace := by
  decide

/-- Claim C4, evaluated on `silent_script` and `silent_poll_script`: the
claim asks that the byte total flushed for a connection be the sum of what
`send` returned for that connection.  In both reactors the second client,
which closed without sending and was never echoed to (0 requests), is
flushed with the 1000 bytes of the client that had its slot before: the
slot keeps its `bytes` when a client is saved into it. -/
theorem silent_connection_flushed_with_old_bytes :
    (flushed (epoll_run silent_script).state.trace).map
        (fun r => (r.clt_ip, r.requests, r.bytes.total))
      = [("10.0.0.5", 1, 1000), ("10.0.0.9", 0, 1000)]
    ∧ (flushed (poll_run silent_poll_script).state.trace).map
        (fun r => (r.clt_ip, r.requests, r.bytes.total))
      = [("10.0.0.5", 1, 1000), ("10.0.0.9", 0, 1000)] := by
  constructor <;> decide!

/-- Claim C5 as stated fails: a client sends 1000 bytes of value 97.  In each
of the three servers, when `send` takes 300 of the bytes read, 300 bytes go
back; when `send` fails, none; and when `recv` delivers 400 of the bytes
and `send` takes all it is handed, what goes back is the 400 bytes read
followed by the 600 bytes the buffer held, here zeros. -/
theorem echo_can_fall_short :
    (echoed (epoll_event_body PKTSIZE epoll_open 0
          { packet_ready 5 with bytes_sent := 300 }).state.trace = List.replicate 300 97
      ∧ echoed (epoll_event_body PKTSIZE epoll_open 0
          { packet_ready 5 with bytes_sent := -1 }).state.trace = []
      ∧ echoed (epoll_event_body PKTSIZE epoll_open 0
          { short_packet 5 with bytes_sent := 1000 }).state.trace
        = List.replicate 400 97 ++ List.replicate 600 0)
    ∧ (echoed (poll_data PKTSIZE poll_open 1 (.data (List.replicate PKTSIZE 97)) 300).trace
        = List.replicate 300 97
      ∧ echoed (poll_data PKTSIZE poll_open 1 (.data (List.replicate PKTSIZE 97)) (-1)).trace
        = []
      ∧ echoed (poll_data PKTSIZE poll_open 1 (.data (List.replicate 400 97)) 1000).trace
        = List.replicate 400 97 ++ List.replicate 600 0)
    ∧ (echoed (echo_body PKTSIZE ⟨5, "10.0.0.5"⟩ thread_open
          (.data (List.replicate PKTSIZE 97)) 300).2.trace = List.replicate 300 97
      ∧ echoed (echo_body PKTSIZE ⟨5, "10.0.0.5"⟩ thread_open
          (.data (List.replicate PKTSIZE 97)) (-1)).2.trace = []
      ∧ echoed (echo_body PKTSIZE ⟨5, "10.0.0.5"⟩ thread_open
          (.data (List.replicate 400 97)) 1000).2.trace
        = List.replicate 400 97 ++ List.replicate 600 0) := by
  decide

/-- Claim C5, amended: for every packet size `P > 0` and every byte `b`, when
the `recv` of an echo cycle delivers `P` bytes of value `b`, the cycle of
each of the three servers makes one `send` call and hands it exactly `P`
bytes, all of value `b`, whatever the receive buffer held before; what goes
back is what `send` takes of them, as many bytes of value `b` as it
returns, and so exactly `P` bytes of value `b` when it returns `P`.  The
epoll cycle is the one run for an event on a socket other than the listening
one. -/
theorem echo_cycle_sends_packet (P : Nat) (b : UInt8) (hP : 0 < P)
    (se : EpollState) (i : Nat) (e : EvIn) (sp : PollState) (k : Nat) (sent_p : Int)
    (args : thread_args) (st : ThreadState) (sent_t : Int)
    (hfd : (se.events i).fd ≠ se.sd_listen)
    (he : e.recv = .data (List.replicate P b)) :
    ((epoll_event_body P se i e).state.trace
        = se.trace ++ [.recv (se.events i).fd P,
                       .send (se.events i).fd (List.replicate P b) e.bytes_sent]
      ∧ echoed (epoll_event_body P se i e).state.trace
        = echoed se.trace ++ (List.replicate P b).take e.bytes_sent.toNat
      ∧ (e.bytes_sent = P → echoed (epoll_event_body P se i e).state.trace
          = echoed se.trace ++ List.replicate P b))
    ∧ ((poll_data P sp k (.data (List.replicate P b)) sent_p).trace
        = sp.trace ++ [.recv (sp.clts k).fd P,
                       .send (sp.clts k).fd (List.replicate P b) sent_p]
      ∧ echoed (poll_data P sp k (.data (List.replicate P b)) sent_p).trace
        = echoed sp.trace ++ (List.replicate P b).take sent_p.toNat
      ∧ (sent_p = P → echoed (poll_data P sp k (.data (List.replicate P b)) sent_p).trace
          = echoed sp.trace ++ List.replicate P b))
    ∧ ((echo_body P args st (.data (List.replicate P b)) sent_t).2.trace
        = st.trace ++ [.recv args.sd P, .send args.sd (List.replicate P b) sent_t]
      ∧ echoed (echo_body P args st (.data (List.replicate P b)) sent_t).2.trace
        = echoed st.trace ++ (List.replicate P b).take sent_t.toNat
      ∧ (sent_t = P → echoed (echo_body P args st (.data (List.replicate P b)) sent_t).2.trace
          = echoed st.trace ++ List.replicate P b)) := by
  have hne : (P : Int) ≠ 0 := by omega
  have hne1 : (P : Int) ≠ -1 := by omega
  have hfull : ∀ (l : List Effect) (fd : Int) (r : Int) (l0 : List Effect),
      l = l0 ++ [.recv fd P, .send fd (List.replicate P b) r] →
      echoed l = echoed l0 ++ (List.replicate P b).take r.toNat
      ∧ (r = P → echoed l = echoed l0 ++ List.replicate P b) := by
    intro l fd r l0 hl
    have h1 : echoed l = echoed l0 ++ (List.replicate P b).take r.toNat := by
      rw [hl, echoed_append]
      simp [echoed]
    refine ⟨h1, ?_⟩
    intro hr
    rw [h1, hr]
    simp
  have t1 : (epoll_event_body P se i e).state.trace
        = se.trace ++ [.recv (se.events i).fd P,
                       .send (se.events i).fd (List.replicate P b) e.bytes_sent] := by
    rw [event_body_data P se i e hfd]
    simp only [epoll_data, he, ret_full, hne, if_false, epoll_echo, EpollState.emit,
      payload_fill]
    split <;> simp [Flow.state]
  have t2 : (poll_data P sp k (.data (List.replicate P b)) sent_p).trace
        = sp.trace ++ [.recv (sp.clts k).fd P,
                       .send (sp.clts k).fd (List.replicate P b) sent_p] := by
    simp [poll_data, ret_full, hne, PollState.emit, payload_fill]
  have t3 : (echo_body P args st (.data (List.replicate P b)) sent_t).2.trace
        = st.trace ++ [.recv args.sd P, .send args.sd (List.replicate P b) sent_t] := by
    simp only [echo_body, ret_full, hne, hne1, if_false, ThreadState.emit, payload_fill]
    split <;> simp
  exact ⟨⟨t1, hfull _ _ _ _ t1⟩, ⟨t2, hfull _ _ _ _ t2⟩, ⟨t3, hfull _ _ _ _ t3⟩⟩

/-- Claim C5, amended, at packet size 1000 and byte 97, on a connection of
each server, with a `send` that takes the 1000 bytes. -/
theorem echo_cycle_sends_packet_witness :
    (0 < PKTSIZE ∧ (epoll_open.events 0).fd ≠ epoll_open.sd_listen
      ∧ (packet_ready 5).recv = .data (List.replicate PKTSIZE 97)
      ∧ (packet_ready 5).bytes_sent = PKTSIZE)
    ∧ (echoed (epoll_event_body PKTSIZE epoll_open 0 (packet_ready 5)).state.trace
        = echoed epoll_open.trace ++ List.replicate PKTSIZE 97
      ∧ echoed (poll_data PKTSIZE poll_open 1 (.data (List.replicate PKTSIZE 97)) PKTSIZE).trace
        = echoed poll_open.trace ++ List.replicate PKTSIZE 97
      ∧ echoed (echo_body PKTSIZE ⟨5, "10.0.0.5"⟩ thread_open
            (.data (List.replicate PKTSIZE 97)) PKTSIZE).2.trace
        = echoed thread_open.trace ++ List.replicate PKTSIZE 97) :=
  ⟨⟨by decide, by decide, rfl, by decide⟩,
    (echo_cycle_sends_packet PKTSIZE 97 (by decide) epoll_open 0 (packet_ready 5) poll_open 1
      PKTSIZE ⟨5, "10.0.0.5"⟩ thread_open PKTSIZE (by decide) rfl).1.2.2 (by decide),
    (echo_cycle_sends_packet PKTSIZE 97 (by decide) epoll_open 0 (packet_ready 5) poll_open 1
      PKTSIZE ⟨5, "10.0.0.5"⟩ thread_open PKTSIZE (by decide) rfl).2.1.2.2 rfl,
    (echo_cycle_sends_packet PKTSIZE 97 (by decide) epoll_open 0 (packet_ready 5) poll_open 1
      PKTSIZE ⟨5, "10.0.0.5"⟩ thread_open PKTSIZE (by decide) rfl).2.2.2.2 rfl⟩

/-- Claim C6, evaluated on `close_both_script`: the claim asks for exactly
one `append_srv_data` call for a connection whose peer closed, and none
later.  Here descriptors 6 and 5 close, in this order, each as event 0 of
its wait: both closes flush `_stats[0]`, the entry of peer 10.0.0.5, so that
entry is flushed twice and the entry of peer 10.0.0.6 is never flushed. -/
theorem one_entry_flushed_twice :
    (flushed (epoll_run close_both_script).state.trace).map (fun r => (r.clt_ip, r.requests))
      = [("10.0.0.5", 1), ("10.0.0.5", 1)] := by
  decide

/-- Claim C7 as stated fails: with a full table in either reactor, the
socket of a newly accepted connection (descriptor 60000) is never closed,
and the epoll reactor has registered it for readiness events. -/
theorem full_table_socket_left_open :
    (∀ j, j < MAXEVENTS → (epoll_full.stats j).sd ≠ -1)
    ∧ Effect.close 60000 ∉ (accept_loop epoll_full [late_conn] .would_block).state.trace
    ∧ Effect.epoll_ctl_add 60000 true
        ∈ (accept_loop epoll_full [late_conn] .would_block).state.trace
    ∧ (∀ i, 1 ≤ i → i < MAXCLIENTS → (poll_full.clts i).fd ≠ -1)
    ∧ Effect.close 60000 ∉ (poll_accept poll_full (some late_peer)).state.trace := by
  refine ⟨epoll_full_is_full, by decide, by decide, poll_full_is_full, ?_⟩
  rw [poll_accept_full poll_full late_peer poll_full_is_full]
  decide

/-- Claim C7, amended: in both reactors, when no slot is marked unused and
a new connection is accepted, no slot is written: the new connection gets
no entry and the stats table and the descriptor array, hence the entries of
all existing connections, are unchanged.  The new socket is not closed.  The
epoll reactor has by then set it non-blocking, registered it for readiness
events and counted it in `_total_clts`; the poll reactor does not watch it
or count it, and increments `_size` and decrements `_ready`. -/
theorem full_table_no_slot_written (se : EpollState) (c : NewConn) (sp : PollState) (p : Peer)
    (hfe : ∀ j, j < MAXEVENTS → (se.stats j).sd ≠ -1)
    (hfp : ∀ i, 1 ≤ i → i < MAXCLIENTS → (sp.clts i).fd ≠ -1)
    (hnb : c.nonblock_ok = true) (hctl : c.ctl_ok = true) :
    accept_loop se [c] .would_block
        = .next { se with
            total_clts := se.total_clts + 1,
            trace := se.trace ++ [.accept_ok c.sd, .set_nonblocking c.sd true,
              .epoll_ctl_add c.sd true, .accept_would_block] }
    ∧ poll_accept sp (some p)
        = .next { sp with
            size := sp.size + 1, ready := sp.ready - 1,
            trace := sp.trace ++ [.accept_ok p.sd] } :=
  ⟨accept_loop_full se c hfe hnb hctl, poll_accept_full sp p hfp⟩

/-- Claim C7, amended, on the full tables `epoll_full` and `poll_full`. -/
theorem full_table_no_slot_written_witness :
    ((∀ j, j < MAXEVENTS → (epoll_full.stats j).sd ≠ -1)
      ∧ (∀ i, 1 ≤ i → i < MAXCLIENTS → (poll_full.clts i).fd ≠ -1)
      ∧ late_conn.nonblock_ok = true ∧ late_conn.ctl_ok = true)
    ∧ (accept_loop epoll_full [late_conn] .would_block
        = .next { epoll_full with
            total_clts := epoll_full.total_clts + 1,
            trace := epoll_full.trace ++ [.accept_ok late_conn.sd,
              .set_nonblocking late_conn.sd true,
              .epoll_ctl_add late_conn.sd true, .accept_would_block] }
      ∧ poll_accept poll_full (some late_peer)
        = .next { poll_full with
            size := poll_full.size + 1, ready := poll_full.ready - 1,
            trace := poll_full.trace ++ [.accept_ok late_peer.sd] }) :=
  ⟨⟨epoll_full_is_full, poll_full_is_full, rfl, rfl⟩,
    full_table_no_slot_written epoll_full late_conn poll_full late_peer
      epoll_full_is_full poll_full_is_full rfl rfl⟩

/-- Claim C9, evaluated on `hangup_script`: the claim asks that an event
whose flags include `EPOLLERR` or `EPOLLHUP` take the error branch, which
closes the descriptor, and run no echo cycle.  Here descriptor 5 is
reported with both flags: it is not closed, its slot stays keyed by 5, and
the handler reads it, counts a request and calls `send`. -/
theorem hangup_event_is_echoed :
    (epoll_run hangup_script).state.trace.map Effect.brief
      = [("epoll_ctl", 3), ("accept", 5), ("set_nonblocking", 5), ("epoll_ctl", 5),
         ("accept: EAGAIN", -1), ("recv", 5), ("send", 5)]
    ∧ ((epoll_run hangup_script).state.stats 0).sd = 5
    ∧ ((epoll_run hangup_script).state.stats 0).requests = 1 := by
  decide

/-- Claim C10, evaluated on `accept_error_script`: the claim asks that an
`accept` failure other than would-block make `run_epoll_loop` return -1 at
once.  Here the failing `accept` is followed by the close of the listening
socket 3 only: the next event of the same wait is read and echoed, and the
loop has not returned, it is back in `epoll_wait`. -/
theorem accept_error_not_fatal :
    (epoll_run accept_error_script).code = none
    ∧ (epoll_run accept_error_script).state.trace.map Effect.brief
      = [("epoll_ctl", 3), ("accept", 5), ("set_nonblocking", 5), ("epoll_ctl", 5),
         ("accept: EAGAIN", -1), ("accept: error", -1), ("close", 3), ("recv", 5),
         ("send", 5)] := by
  decide

/-- Claim C11, evaluated on `read_error_script` and `read_error_poll_script`:
the claim asks that a `recv` that returns -1 tear the connection down, with
no request counted and nothing echoed.  In both reactors the test is
`_bytes_recv == 0` only: after the failed `recv` on descriptor 5 a request
is counted, `send` is called, and the descriptor is neither closed nor
flushed. -/
theorem read_error_is_echoed :
    ((epoll_run read_error_script).state.trace.filterMap Effect.io
        = [("recv", 5, -1), ("send", 5, 1000)]
      ∧ Effect.close 5 ∉ (epoll_run read_error_script).state.trace
      ∧ (flushed (epoll_run read_error_script).state.trace).length = 0
      ∧ ((epoll_run read_error_script).state.stats 0).sd = 5
      ∧ ((epoll_run read_error_script).state.stats 0).requests = 1)
    ∧ ((poll_run read_error_poll_script).state.trace.filterMap Effect.io
        = [("recv", 5, -1), ("send", 5, 1000)]
      ∧ Effect.close 5 ∉ (poll_run read_error_poll_script).state.trace
      ∧ (flushed (poll_run read_error_poll_script).state.trace).length = 0
      ∧ ((poll_run read_error_poll_script).state.clts 1).fd = 5
      ∧ ((poll_run read_error_poll_script).state.stats 1).requests = 1) := by
  decide

/-- Claim C12 as stated fails: in each of the three servers a `recv` that
delivers 400 of the 1000 bytes is counted as a request and followed by one
`send`, and a `send` that takes 300 bytes is followed by no other; the
cycle makes these two calls and no more. -/
theorem short_transfer_not_retried :
    ((epoll_event_body PKTSIZE epoll_open 0 (short_packet 5)).state.trace.filterMap Effect.io
        = [("recv", 5, 400), ("send", 5, 300)]
      ∧ ((epoll_event_body PKTSIZE epoll_open 0 (short_packet 5)).state.stats 0).requests = 1)
    ∧ ((poll_data PKTSIZE poll_open 1 (.data (List.replicate 400 97)) 300).trace.filterMap
          Effect.io = [("recv", 5, 400), ("send", 5, 300)]
      ∧ ((poll_data PKTSIZE poll_open 1 (.data (List.replicate 400 97)) 300).stats 1).requests
          = 1)
    ∧ ((echo_body PKTSIZE ⟨5, "10.0.0.5"⟩ thread_open (.data (List.replicate 400 97))
          300).2.trace.filterMap Effect.io = [("recv", 5, 400), ("send", 5, 300)]
      ∧ (echo_body PKTSIZE ⟨5, "10.0.0.5"⟩ thread_open (.data (List.replicate 400 97))
          300).2.stats.requests = 1) := by
  decide

/-- Claim C12, amended: a cycle of each server makes one `recv` and one `send`
and retries neither.  A `recv` that delivers a positive number of bytes, up
to the packet size, is counted as one request and answered by one `send` of
`P` bytes, the bytes read followed by what the buffer held; what `send`
returns is added to the byte total as it is.  The epoll cycle is the one of
a descriptor that has a stats slot. -/
theorem short_transfer_taken_as_is (P : Nat) (bs : List UInt8) (hpos : 0 < bs.length)
    (hlen : bs.length ≤ P)
    (se : EpollState) (i : Nat) (e : EvIn) (sp : PollState) (k : Nat) (sent_p : Int)
    (args : thread_args) (st : ThreadState) (sent_t : Int)
    (hfd : (se.events i).fd ≠ se.sd_listen) (he : e.recv = .data bs)
    (hslot : epoll_slot se.stats (se.events i).fd < MAXEVENTS) :
    ((epoll_event_body P se i e).state.trace
        = se.trace ++ [.recv (se.events i).fd bs.length,
            .send (se.events i).fd (bs ++ (payload P se.recv_buff).drop bs.length)
              e.bytes_sent]
      ∧ ((epoll_event_body P se i e).state.stats
            (epoll_slot se.stats (se.events i).fd)).requests
          = (se.stats (epoll_slot se.stats (se.events i).fd)).requests + 1
      ∧ ((epoll_event_body P se i e).state.stats
            (epoll_slot se.stats (se.events i).fd)).bytes
          = update_bytes_struct (se.stats (epoll_slot se.stats (se.events i).fd)).bytes
              e.bytes_sent)
    ∧ ((poll_data P sp k (.data bs) sent_p).trace
        = sp.trace ++ [.recv (sp.clts k).fd bs.length,
            .send (sp.clts k).fd (bs ++ (payload P sp.recv_buff).drop bs.length) sent_p]
      ∧ ((poll_data P sp k (.data bs) sent_p).stats k).requests = (sp.stats k).requests + 1
      ∧ ((poll_data P sp k (.data bs) sent_p).stats k).bytes
          = update_bytes_struct (sp.stats k).bytes sent_p)
    ∧ ((echo_body P args st (.data bs) sent_t).2.trace
        = st.trace ++ [.recv args.sd bs.length,
            .send args.sd (bs ++ (payload P st.recv_buff).drop bs.length) sent_t]
      ∧ (echo_body P args st (.data bs) sent_t).2.stats.requests = st.stats.requests + 1
      ∧ (sent_t ≠ -1 → (echo_body P args st (.data bs) sent_t).2.stats.bytes
          = update_bytes_struct st.stats.bytes sent_t)) := by
  have hne : (bs.length : Int) ≠ 0 := by omega
  have hne1 : (bs.length : Int) ≠ -1 := by omega
  refine ⟨?_, ?_, ?_⟩
  · rw [event_body_data P se i e hfd]
    have hs1 : epoll_slot (({ se with recv_buff := e.recv.fill P se.recv_buff }).emit
        (.recv (se.events i).fd (e.recv.ret P))).stats (se.events i).fd
          = epoll_slot se.stats (se.events i).fd := rfl
    simp only [epoll_data, he, ret_short P bs hlen, hne, if_false, epoll_echo]
    simp only [EpollState.emit] at hs1 ⊢
    simp [hslot, Flow.state, payload_fill_short P bs _ hlen, setAt]
  · simp [poll_data, ret_short P bs hlen, hne, PollState.emit, payload_fill_short P bs _ hlen,
      setAt]
  · simp only [echo_body, ret_short P bs hlen, hne, hne1, if_false, ThreadState.emit,
      payload_fill_short P bs _ hlen]
    refine ⟨?_, ?_, ?_⟩
    · split <;> simp
    · split <;> simp
    · intro h
      simp [h]

/-- Claim C12, amended, on a read of 400 bytes answered by a send that
takes 300, on a connection of each server. -/
theorem short_transfer_taken_as_is_witness :
    (0 < (List.replicate 400 (97 : UInt8)).length
      ∧ (List.replicate 400 (97 : UInt8)).length ≤ PKTSIZE
      ∧ (epoll_open.events 0).fd ≠ epoll_open.sd_listen
      ∧ (short_packet 5).recv = .data (List.replicate 400 97)
      ∧ epoll_slot epoll_open.stats (epoll_open.events 0).fd < MAXEVENTS)
    ∧ ((epoll_event_body PKTSIZE epoll_open 0 (short_packet 5)).state.stats
          (epoll_slot epoll_open.stats (epoll_open.events 0).fd)).requests
        = (epoll_open.stats (epoll_slot epoll_open.stats (epoll_open.events 0).fd)).requests + 1
    ∧ ((poll_data PKTSIZE poll_open 1 (.data (List.replicate 400 97)) 300).stats 1).requests
        = (poll_open.stats 1).requests + 1
    ∧ (echo_body PKTSIZE ⟨5, "10.0.0.5"⟩ thread_open (.data (List.replicate 400 97))
          300).2.stats.requests = thread_open.stats.requests + 1 :=
  ⟨⟨by decide, by decide, by decide, rfl, by decide⟩,
    (short_transfer_taken_as_is PKTSIZE (List.replicate 400 97) (by decide) (by decide)
      epoll_open 0 (short_packet 5) poll_open 1 300 ⟨5, "10.0.0.5"⟩ thread_open 300
      (by decide) rfl (by decide)).1.2.1,
    (short_transfer_taken_as_is PKTSIZE (List.replicate 400 97) (by decide) (by decide)
      epoll_open 0 (short_packet 5) poll_open 1 300 ⟨5, "10.0.0.5"⟩ thread_open 300
      (by decide) rfl (by decide)).2.1.2.1,
    (short_transfer_taken_as_is PKTSIZE (List.replicate 400 97) (by decide) (by decide)
      epoll_open 0 (short_packet 5) poll_open 1 300 ⟨5, "10.0.0.5"⟩ thread_open 300
      (by decide) rfl (by decide)).2.2.2.1⟩

/-- Claim C13, evaluated on `lost_slot_script`: the claim asks that a request
for a handle without a stats entry be a no-op.  After `close_beside_script`
no slot below `MAXEVENTS` holds descriptor 5, though its connection is
open; on the next packet on 5 the search leaves `j` at `MAXEVENTS` and
`update_bytes_struct` is called on `_stats[MAXEVENTS]`, outside the array. -/
theorem lost_slot_update_out_of_bounds :
    (∀ j, j < MAXEVENTS → ((epoll_run close_beside_script).state.stats j).sd ≠ 5)
    ∧ epoll_slot (epoll_run close_beside_script).state.stats 5 = MAXEVENTS
    ∧ (epoll_run lost_slot_script).is_undefined = true := by
  have hsd : ∀ j, j < MAXEVENTS → ((epoll_run close_beside_script).state.stats j).sd ≠ 5 := by
    intro j _
    rw [beside_sd]
    split <;> decide
  refine ⟨hsd, scan_none_bound _ _ (fun k hk => by simpa using hsd k hk), ?_⟩
  have hnext : (epoll_run close_beside_script).is_next = true := by decide
  have hl : ((epoll_run close_beside_script).state).sd_listen = 3 := by decide
  have hrun : epoll_run lost_slot_script
      = match epoll_run close_beside_script with
        | .next s1 => epoll_loop PKTSIZE s1 [.ready [packet_ready 5]]
        | out => out := by
    simp only [epoll_run, lost_slot_script, run_epoll_loop]
    simp only [show ((4 : Int) = -1) = False by decide, if_false, Bool.not_true,
      Bool.false_eq_true]
    exact epoll_loop_append PKTSIZE _ _ _
  rw [hrun]
  cases h : epoll_run close_beside_script with
  | ret c s1 => rw [h] at hnext; simp [Flow.is_next] at hnext
  | undefined s1 => rw [h] at hnext; simp [Flow.is_next] at hnext
  | next s1 =>
    rw [h] at hsd hl
    simp only [Flow.state] at hsd hl
    have htake : List.take MAXEVENTS [packet_ready 5] = [packet_ready 5] :=
      List.take_of_length_le (by simp [MAXEVENTS])
    have hev : ∀ s : EpollState, ({ s with events := write_events s.events [packet_ready 5] }).events 0
        = ⟨EPOLLIN, 5⟩ := fun s => rfl
    simp only [epoll_loop, htake, List.isEmpty_cons, Bool.false_eq_true, if_false,
      process_events]
    have hfd : (({ s1 with events := write_events s1.events [packet_ready 5] }).events 0).fd
        ≠ ({ s1 with events := write_events s1.events [packet_ready 5] }).sd_listen := by
      show (5 : Int) ≠ s1.sd_listen
      rw [hl]; decide
    rw [event_body_data PKTSIZE _ 0 _ hfd]
    have hu := (epoll_data_no_slot PKTSIZE
      { s1 with events := write_events s1.events [packet_ready 5] } 0 (packet_ready 5)
      (by decide) (fun j hj => hsd j hj)).2
    cases hd : epoll_data PKTSIZE
        { s1 with events := write_events s1.events [packet_ready 5] } 0 (packet_ready 5) with
    | next s2 => rw [hd] at hu; simp [Flow.is_undefined] at hu
    | ret c s2 => rw [hd] at hu; simp [Flow.is_undefined] at hu
    | undefined s2 => simp [Flow.is_undefined]

/-- Claim C14: in both reactors, on any run that is at a readiness wait, a wait
that reports no event makes the loop function return -1, whatever the rest
of the script: the calls added are the close of the listening socket (and
of the epoll descriptor) and one `append_total_clients`, the only one of the
run, with the number of successful accepts of the run.  For `run_poll_loop`
the `poll` is one over no more slots than the array has. -/
theorem idle_timeout_appends_total (P : Nat) (sd_listen esd : Int)
    (events0 : Nat → epoll_event) (stats0 : Nat → srv_log_stats) (buff0 : Nat → UInt8)
    (script rest : List WaitRes) (w : WaitRes) (s : EpollState)
    (clts0 : Nat → pollfd) (pstats0 : Nat → srv_log_stats) (pbuff0 : Nat → UInt8)
    (ready0 : Int) (pscript prest : List PollIn) (inp : PollIn) (rev : Nat → Int)
    (sp : PollState)
    (he : run_epoll_loop P sd_listen esd true events0 stats0 buff0 script = .next s)
    (hw : w = .timeout ∨ w = .ready [])
    (hp : run_poll_loop P sd_listen clts0 pstats0 pbuff0 ready0 pscript = .next sp)
    (hsz : sp.size ≤ MAXCLIENTS) (hrev : inp.wait = .events rev)
    (hz : poll_count sp rev = 0) :
    (∃ s1, run_epoll_loop P sd_listen esd true events0 stats0 buff0 (script ++ w :: rest)
          = .ret (-1) s1
        ∧ s1.trace = s.trace ++ [.close sd_listen, .close esd,
            .append_total_clients (accepted s.trace)]
        ∧ totals s1.trace = 1)
    ∧ (∃ s1, run_poll_loop P sd_listen clts0 pstats0 pbuff0 ready0 (pscript ++ inp :: prest)
          = .ret (-1) s1
        ∧ s1.trace = sp.trace ++ [.close sd_listen, .append_total_clients (accepted sp.trace)]
        ∧ totals s1.trace = 1) := by
  constructor
  · have hne : ¬ esd = -1 := by
      intro h
      simp [run_epoll_loop, h] at he
    simp only [run_epoll_loop, hne, if_false, Bool.not_true, Bool.false_eq_true] at he ⊢
    obtain ⟨h1, h2, h3, h4⟩ := epoll_loop_inv sd_listen esd P script _ s
      (epoll_init_inv sd_listen esd events0 stats0 buff0) he
    rw [epoll_loop_append, he]
    refine ⟨((s.emit (.close s.sd_listen)).emit (.close s.esd)).emit
      (.append_total_clients s.total_clts), ?_, ?_, ?_⟩
    · rcases hw with hw | hw <;> subst hw <;> simp [epoll_loop]
    · simp [EpollState.emit, h1, h2, h3]
    · simp [EpollState.emit, totals_append, totals_cons, totals_nil, h4, Effect.is_total]
  · simp only [run_poll_loop] at hp ⊢
    obtain ⟨h1, h2, h3, _, _⟩ := poll_loop_inv sd_listen P pscript _ sp
      (poll_init_inv sd_listen clts0 pstats0 pbuff0 ready0) hp
    rw [poll_loop_append, hp]
    have hnot : ¬ sp.size > MAXCLIENTS := by omega
    refine ⟨(({ sp with
        clts := fun i => { sp.clts i with revents := poll_revents sp rev i },
        ready := poll_count sp rev }).emit (.close sp.sd_listen)).emit
          (.append_total_clients sp.total_clts), ?_, ?_, ?_⟩
    · simp [poll_loop, poll_pass, hnot, hrev, hz]
    · simp [PollState.emit, h1, h2 hsz]
    · simp [PollState.emit, totals_append, totals_cons, totals_nil, h3, Effect.is_total]

/-- Claim C14 on the runs `busy_script` and `busy_poll_script`, followed by
a wait that reports nothing: one client was accepted, and the total
appended is 1. -/
theorem idle_timeout_appends_total_witness :
    (epoll_run busy_script = .next (epoll_run busy_script).state
      ∧ (WaitRes.timeout = .timeout ∨ WaitRes.timeout = .ready [])
      ∧ poll_run busy_poll_script = .next (poll_run busy_poll_script).state
      ∧ (poll_run busy_poll_script).state.size ≤ MAXCLIENTS
      ∧ poll_idle.wait = .events (fun _ => 0)
      ∧ poll_count (poll_run busy_poll_script).state (fun _ => 0) = 0)
    ∧ (∃ s1, epoll_run (busy_script ++ .timeout :: []) = .ret (-1) s1
        ∧ s1.trace = (epoll_run busy_script).state.trace ++ [.close 3, .close 4,
            .append_total_clients (accepted (epoll_run busy_script).state.trace)]
        ∧ totals s1.trace = 1)
    ∧ (∃ s1, poll_run (busy_poll_script ++ poll_idle :: []) = .ret (-1) s1
        ∧ s1.trace = (poll_run busy_poll_script).state.trace ++ [.close 3,
            .append_total_clients (accepted (poll_run busy_poll_script).state.trace)]
        ∧ totals s1.trace = 1) :=
  ⟨⟨Flow.eq_next_of_is_next _ (by decide), Or.inl rfl,
      Flow.eq_next_of_is_next _ (by decide), by decide, rfl, by decide⟩,
    idle_timeout_appends_total PKTSIZE 3 4 (fun _ => ⟨0, 0⟩) (fun _ => zero_stats)
      (fun _ => 0) busy_script [] .timeout (epoll_run busy_script).state
      (fun _ => ⟨0, 0, 0⟩) (fun _ => zero_stats) (fun _ => 0) 0 busy_poll_script []
      poll_idle (fun _ => 0) (poll_run busy_poll_script).state
      (Flow.eq_next_of_is_next _ (by decide)) (Or.inl rfl)
      (Flow.eq_next_of_is_next _ (by decide)) (by decide) rfl (by decide)⟩

/-- Claim C15 as stated fails: when either reactor returns on the idle timeout
with the client 5 connected (one request counted), descriptor 5 is not
closed and no `append_srv_data` is made. -/
theorem open_connection_dropped_at_timeout :
    ((epoll_run idle_script).code = some (-1)
      ∧ ((epoll_run idle_script).state.stats 0).sd = 5
      ∧ ((epoll_run idle_script).state.stats 0).requests = 1
      ∧ Effect.close 5 ∉ (epoll_run idle_script).state.trace
      ∧ (flushed (epoll_run idle_script).state.trace).length = 0)
    ∧ ((poll_run idle_poll_script).code = some (-1)
      ∧ ((poll_run idle_poll_script).state.clts 1).fd = 5
      ∧ ((poll_run idle_poll_script).state.stats 1).requests = 1
      ∧ Effect.close 5 ∉ (poll_run idle_poll_script).state.trace
      ∧ (flushed (poll_run idle_poll_script).state.trace).length = 0) := by
  decide

/-- Claim C15, amended: when either reactor leaves its loop because of the idle
timeout or of a failed readiness wait, it closes the listening socket (and,
in `run_epoll_loop`, the epoll descriptor), appends the total on timeout,
and returns -1.  It makes no other call: the connections still open are
neither closed nor flushed, and their entries are left in the tables of the
function that returns. -/
theorem loop_exit_closes_listener_only (P : Nat) (s : EpollState) (rest : List WaitRes)
    (sp : PollState) (inp : PollIn) (rev : Nat → Int) (prest : List PollIn)
    (hsz : sp.size ≤ MAXCLIENTS) (hrev : inp.wait = .events rev)
    (hz : poll_count sp rev = 0) :
    epoll_loop P s (.timeout :: rest)
        = .ret (-1) { s with trace := s.trace ++ [.close s.sd_listen, .close s.esd,
            .append_total_clients s.total_clts] }
    ∧ epoll_loop P s (.error :: rest)
        = .ret (-1) { s with trace := s.trace ++ [.close s.sd_listen, .close s.esd] }
    ∧ poll_loop P sp (inp :: prest)
        = .ret (-1) { sp with
            clts := fun i => { sp.clts i with revents := poll_revents sp rev i },
            ready := 0,
            trace := sp.trace ++ [.close sp.sd_listen, .append_total_clients sp.total_clts] }
    ∧ poll_loop P sp ({ inp with wait := .error } :: prest)
        = .ret (-1) { sp with trace := sp.trace ++ [.close sp.sd_listen] } := by
  have hnot : ¬ sp.size > MAXCLIENTS := by omega
  refine ⟨?_, ?_, ?_, ?_⟩
  · simp [epoll_loop, EpollState.emit]
  · simp [epoll_loop, EpollState.emit]
  · simp [poll_loop, poll_pass, hnot, hrev, hz, PollState.emit]
  · simp [poll_loop, poll_pass, hnot, PollState.emit]

/-- Claim C15, amended, on the states `epoll_open` and `poll_open`, each
with the client 5 still connected. -/
theorem loop_exit_closes_listener_only_witness :
    (poll_open.size ≤ MAXCLIENTS ∧ poll_idle.wait = .events (fun _ => 0)
      ∧ poll_count poll_open (fun _ => 0) = 0)
    ∧ epoll_loop PKTSIZE epoll_open (.timeout :: [])
        = .ret (-1) { epoll_open with trace := epoll_open.trace ++ [.close epoll_open.sd_listen,
            .close epoll_open.esd, .append_total_clients epoll_open.total_clts] }
    ∧ poll_loop PKTSIZE poll_open (poll_idle :: [])
        = .ret (-1) { poll_open with
            clts := fun i => { poll_open.clts i with
              revents := poll_revents poll_open (fun _ => 0) i },
            ready := 0,
            trace := poll_open.trace ++ [.close poll_open.sd_listen,
              .append_total_clients poll_open.total_clts] } :=
  ⟨⟨by decide, rfl, by decide⟩,
    (loop_exit_closes_listener_only PKTSIZE epoll_open [] poll_open poll_idle (fun _ => 0) []
      (by decide) rfl (by decide)).1,
    (loop_exit_closes_listener_only PKTSIZE epoll_open [] poll_open poll_idle (fun _ => 0) []
      (by decide) rfl (by decide)).2.2.1⟩

/-- Claim C16: in `run_poll_loop`, for a connection admitted into slot `i` and
any sequence of steps after it (waits, accepts, reads on any slot) without a
peer close on slot `i`: slot `i` still holds its descriptor, peer address
and open time, and its request count is the number of reads on slot `i` that
returned a non-zero count; a read on slot `i` that then returns 0 marks the
slot unused and closes and flushes exactly the entry of slot `i`.  By
`poll_loop_is_ops` every run of the loop is such a sequence of steps. -/
theorem poll_slot_owns_its_stats (P : Nat) (s : PollState) (c : Peer) (i : Nat)
    (ops : List PollOp) (r : RecvRes) (sent : Int)
    (hslot : scan (fun k => (s.clts k).fd == -1) (MAXCLIENTS - 1) 1 = i)
    (hi : i < MAXCLIENTS)
    (hopen : ∀ op ∈ ops, op.closes P i = false) (hr : r.ret P = 0) :
    ((poll_ops P (poll_accept s (some c)).state ops).clts i).fd = c.sd
    ∧ ((poll_ops P (poll_accept s (some c)).state ops).stats i).requests = reads_on P i ops
    ∧ ((poll_ops P (poll_accept s (some c)).state ops).stats i).clt_ip = c.clt_ip
    ∧ ((poll_ops P (poll_accept s (some c)).state ops).stats i).tm = c.t
    ∧ ((poll_data P (poll_ops P (poll_accept s (some c)).state ops) i r sent).clts i).fd = -1
    ∧ (poll_data P (poll_ops P (poll_accept s (some c)).state ops) i r sent).trace
        = (poll_ops P (poll_accept s (some c)).state ops).trace
          ++ [.recv c.sd 0, .close c.sd,
              .append_srv_data ((poll_ops P (poll_accept s (some c)).state ops).stats i)] := by
  have hadm : ((poll_accept s (some c)).state.clts i).fd = c.sd
      ∧ ((poll_accept s (some c)).state.stats i).requests = 0
      ∧ ((poll_accept s (some c)).state.stats i).clt_ip = c.clt_ip
      ∧ ((poll_accept s (some c)).state.stats i).tm = c.t := by
    simp [poll_accept, PollState.emit, Flow.state, hslot, hi, setAt]
  obtain ⟨a1, a2, a3, a4⟩ := hadm
  have hfd : ((poll_accept s (some c)).state.clts i).fd ≠ -1 := by
    rw [a1]; omega
  obtain ⟨b1, b2, b3, b4⟩ := poll_ops_keep_slot P i ops (poll_accept s (some c)).state hfd hopen
  rw [a1] at b1
  rw [a2] at b2
  rw [a3] at b3
  rw [a4] at b4
  refine ⟨b1, by simpa using b2, b3, b4, ?_, ?_⟩
  · simp [poll_data, PollState.emit, hr, setAt]
  · simp [poll_data, PollState.emit, hr, b1]

/-- Claim C16 on a client admitted into slot 2 while slot 1 is occupied:
two reads on slot 2 return a non-zero count (a packet and an error), and in
between slot 1 is closed and taken by another client. -/
theorem poll_slot_owns_its_stats_witness :
    (scan (fun k => (poll_open.clts k).fd == -1) (MAXCLIENTS - 1) 1 = 2
      ∧ 2 < MAXCLIENTS
      ∧ (∀ op ∈ [PollOp.wait (fun _ => POLLIN),
            .data 2 (.data (List.replicate PKTSIZE 97)) 1000, .data 1 .closed 0,
            .accept ⟨60001, "10.0.0.3", 2⟩, .data 2 .error 0],
          op.closes PKTSIZE 2 = false)
      ∧ RecvRes.ret PKTSIZE .closed = 0)
    ∧ ((poll_ops PKTSIZE (poll_accept poll_open (some late_peer)).state
          [PollOp.wait (fun _ => POLLIN),
            .data 2 (.data (List.replicate PKTSIZE 97)) 1000, .data 1 .closed 0,
            .accept ⟨60001, "10.0.0.3", 2⟩, .data 2 .error 0]).clts 2).fd = late_peer.sd
    ∧ ((poll_ops PKTSIZE (poll_accept poll_open (some late_peer)).state
          [PollOp.wait (fun _ => POLLIN),
            .data 2 (.data (List.replicate PKTSIZE 97)) 1000, .data 1 .closed 0,
            .accept ⟨60001, "10.0.0.3", 2⟩, .data 2 .error 0]).stats 2).requests
        = reads_on PKTSIZE 2 [PollOp.wait (fun _ => POLLIN),
            .data 2 (.data (List.replicate PKTSIZE 97)) 1000, .data 1 .closed 0,
            .accept ⟨60001, "10.0.0.3", 2⟩, .data 2 .error 0] :=
  ⟨⟨by decide, by decide, by decide, by decide⟩,
    (poll_slot_owns_its_stats PKTSIZE poll_open late_peer 2 _ .closed 0
      (by decide) (by decide) (by decide) (by decide)).1,
    (poll_slot_owns_its_stats PKTSIZE poll_open late_peer 2 _ .closed 0
      (by decide) (by decide) (by decide) (by decide)).2.1⟩

/-- Claim C17 as stated fails: with `THREADS` 3 and four clients connecting,
every accept succeeding, `run_accept_loop` returns 0 after the third
accept, and `main` returns 0: the fourth client is never accepted. -/
theorem accept_loop_returns_after_threads :
    (∀ a ∈ four_clients, a.ok = true)
    ∧ (run_accept_loop 3 3 four_clients).code = some 0
    ∧ (run_accept_loop 3 3 four_clients).state.threads.length = 3
    ∧ accepted (run_accept_loop 3 3 four_clients).state.trace = 3
    ∧ SrvThread.main 3 3 true true four_clients = some 0 := by
  decide

/-- Claim C17, amended: the accept loop bounds the total number of connections.
While every `accept`, `pthread_create` and `pthread_detach` succeeds, on
`THREADS` connections or more `run_accept_loop` accepts exactly `THREADS`
of them, starts one thread for each and returns 0, and `main` returns 0;
on fewer it is blocked in `accept`. -/
theorem accept_loop_bounds_total (THREADS : Nat) (sd_listen : Int) (script : List AcceptIn)
    (h : ∀ a ∈ script, a.ok = true) :
    (THREADS ≤ script.length →
      (∃ s, run_accept_loop THREADS sd_listen script = .ret 0 s
        ∧ s.threads.length = THREADS ∧ s.total_clts = THREADS
        ∧ accepted s.trace = THREADS)
      ∧ SrvThread.main THREADS sd_listen true true script = some 0)
    ∧ (script.length < THREADS →
      (∃ s, run_accept_loop THREADS sd_listen script = .next s
        ∧ s.threads.length = script.length)
      ∧ SrvThread.main THREADS sd_listen true true script = none) := by
  constructor
  · intro hlen
    obtain ⟨s, h1, h2, h3, h4⟩ := accept_rounds_all_ok sd_listen THREADS script
      { total_clts := 0, threads := [], trace := [] } h hlen
    refine ⟨⟨s, h1, by simpa using h2, by simpa using h3, by simpa [accepted_nil] using h4⟩, ?_⟩
    simp only [SrvThread.main, SrvThread.run_srv, run_accept_loop, h1]
    decide
  · intro hlen
    obtain ⟨s, h1, h2⟩ := accept_rounds_short sd_listen THREADS script
      { total_clts := 0, threads := [], trace := [] } h hlen
    refine ⟨⟨s, h1, by simpa using h2⟩, ?_⟩
    simp only [SrvThread.main, SrvThread.run_srv, run_accept_loop, h1]
    decide

/-- Claim C17, amended, with `THREADS` 3 and four clients connecting. -/
theorem accept_loop_bounds_total_witness :
    (∀ a ∈ four_clients, a.ok = true)
    ∧ (∃ s, run_accept_loop 3 3 four_clients = .ret 0 s
        ∧ s.threads.length = 3 ∧ s.total_clts = (3 : Nat) ∧ accepted s.trace = 3)
    ∧ SrvThread.main 3 3 true true four_clients = some 0 :=
  ⟨by decide, (accept_loop_bounds_total 3 3 four_clients (by decide)).1 (by decide)⟩

/-- Claim C18: whenever `send_loop` reaches the computation of the average (it
returns 0), the request count it divides by is not 0, and the value handed
to `append_clt_data` is the sum of the measured round-trip times divided by
the request count; on no script does the division meet a count of 0. -/
theorem average_divisor_nonzero (P : Nat) (sd : Int) (t : Nat) (t1 : Int) (avg0 : ℚ)
    (buff0 : Nat → UInt8) (script : List CltIn) (s : CltState)
    (h : send_loop P sd t t1 avg0 buff0 script = .ret 0 s) :
    s.stats.requests ≠ 0
    ∧ s.trace.getLast? = some (.append_clt_data s.stats
        ((round_trips P t1 script).sum / (s.stats.requests : ℚ)))
    ∧ ∀ script1, (send_loop P sd t t1 avg0 buff0 script1).is_undefined = false := by
  obtain ⟨a, b⟩ := send_while_spec P sd t1 script _ s (by simp) h
  refine ⟨by omega, by simpa using b, ?_⟩
  intro script1
  exact send_while_defined P sd t1 script1 _ (by simp)

/-- Claim C18 on the path where the server closes before any echo has been
received: one request is counted and the average handed over is 0 / 1. -/
theorem average_divisor_nonzero_witness :
    clt_run [clt_pass 100 .closed] = .ret 0 (clt_run [clt_pass 100 .closed]).state
    ∧ (clt_run [clt_pass 100 .closed]).state.stats.requests ≠ 0
    ∧ (clt_run [clt_pass 100 .closed]).state.trace.getLast?
        = some (.append_clt_data (clt_run [clt_pass 100 .closed]).state.stats
            ((round_trips PKTSIZE 100 [clt_pass 100 .closed]).sum
              / ((clt_run [clt_pass 100 .closed]).state.stats.requests : ℚ)))
    ∧ ∀ script1, (send_loop PKTSIZE 7 100 100 0 (fun _ => 0) script1).is_undefined = false :=
  ⟨Flow.eq_ret_of_code _ 0 (by decide),
    average_divisor_nonzero PKTSIZE 7 100 100 0 (fun _ => 0) [clt_pass 100 .closed]
      (clt_run [clt_pass 100 .closed]).state (Flow.eq_ret_of_code _ 0 (by decide))⟩

/-- Claim C19 as stated fails: when `send` fails, and when `recv` fails,
`send_loop` returns -1 without any `append_clt_data` call. -/
theorem io_error_skips_append :
    (clt_exit PKTSIZE 100 [clt_send_error 100] = some .io_error
      ∧ (clt_run [clt_send_error 100]).code = some (-1)
      ∧ clt_appends (clt_run [clt_send_error 100]).state.trace = 0)
    ∧ (clt_exit PKTSIZE 100 [clt_pass 100 .error] = some .io_error
      ∧ (clt_run [clt_pass 100 .error]).code = some (-1)
      ∧ clt_appends (clt_run [clt_pass 100 .error]).state.trace = 0) := by
  decide

/-- Claim C19, amended: `send_loop` returns 0 and has called `append_clt_data`
exactly once when its loop ends because the duration elapsed or the peer
closed; it returns -1 and has not called `append_clt_data` when `send` or
`recv` fails; `spawn_clients` adds no call of its own. -/
theorem append_once_unless_io_error (P : Nat) (sd : Int) (t : Nat) (t1 : Int) (avg0 : ℚ)
    (buff0 : Nat → UInt8) (script : List CltIn) :
    (send_loop P sd t t1 avg0 buff0 script).code = (clt_exit P t1 script).map CltExit.code
    ∧ clt_appends (send_loop P sd t t1 avg0 buff0 script).state.trace
        = ((clt_exit P t1 script).map CltExit.appends).getD 0
    ∧ clt_appends (spawn_clients P (some sd) t t1 avg0 buff0 script)
        = ((clt_exit P t1 script).map CltExit.appends).getD 0
    ∧ clt_appends (spawn_clients P none t t1 avg0 buff0 script) = 0 := by
  obtain ⟨a, b⟩ := send_while_exit P sd t1 script
    { stats := { tm := t, bytes := init_bytes_struct ⟨0, 0, 0, 0⟩, requests := 0,
                 avg_time := avg0 },
      avg_time := 0, recv_buff := buff0, trace := [] } (by simp)
  exact ⟨a, by simpa [clt_appends] using b, by simpa [clt_appends] using b, rfl⟩

/-- Claim C20, evaluated on the three appends: the claim asks that each take
the lock before opening the log file and have released it on return.
`append_srv_data` returns -1 with the lock still held when `fopen` fails;
`append_clt_data` and `append_total_clients` open the file without the
lock, whether `fopen` succeeds or not.  Only the success path of
`append_srv_data` opens under the lock and releases it. -/
theorem log_lock_discipline (filename : String) (stats : srv_log_stats)
    (cstats : clt_log_stats) (t : ℚ) (total : Int) (ok : Bool) :
    (lock_held false (append_srv_data filename stats false).2 = true
      ∧ (append_srv_data filename stats false).1 = -1)
    ∧ opens_locked false (append_clt_data cstats t ok).2 = false
    ∧ opens_locked false (append_total_clients filename total ok).2 = false
    ∧ (lock_held false (append_srv_data filename stats true).2 = false
      ∧ opens_locked false (append_srv_data filename stats true).2 = true) := by
  refine ⟨⟨rfl, rfl⟩, ?_, ?_, ?_, ?_⟩
  · cases ok <;> simp [append_clt_data, opens_locked]
  · cases ok <;> simp [append_total_clients, opens_locked]
  · simp only [append_srv_data, Bool.not_true, Bool.false_eq_true, if_false, List.cons_append,
      List.nil_append, lock_held, List.append_assoc, List.append_eq]
    rw [lock_held_fprintf true _ (bytes_line_fprintf stats.bytes "\n")]
    rfl
  · simp only [append_srv_data, Bool.not_true, Bool.false_eq_true, if_false, List.cons_append,
      List.nil_append, opens_locked, List.append_assoc, Bool.true_and, List.append_eq]
    rw [opens_locked_fprintf true _ (bytes_line_fprintf stats.bytes "\n")]
    rfl

/-- Claim C21, evaluated on an empty port argument: the claim asks that
`valid_args` return 0 for a port that is not numeric, an empty string
included, and that `main` exit before `create_socket`.  The loop of
`valid_args` has no character to reject in an empty string: `valid_args`
returns 1 for every server, and for the client with an empty port or an
empty client count; `atoi` reads the empty port as 0, and `main` of either
reactor goes on to write the log header, to `create_socket` and to bind port
0; `main` of the client goes on to `spawn_clients`.  By
`main_exits_on_bad_args` the other arguments the claim names are rejected. -/
theorem empty_port_is_accepted :
    (∀ prog, valid_args prog 2 "" = (1, []))
    ∧ Clt.valid_args 4 "" "2" = (1, [])
    ∧ Clt.valid_args 4 "7000" "" = (1, [])
    ∧ atoi "" = 0
    ∧ (∀ r loop, (main r [r.prog, ""] srv_env loop).2 =
        [.app_srv_hdr r.SRVLOGFILE true, .create_socket 3, .setsockopt 3,
         .set_nonblocking 3 true, .bind_socket 3 0 true, .listen_socket 3 100 true,
         .set_SIGINT true, .loop 3])
    ∧ (Clt.main ["./clt", "10.0.0.1", "", "2"] true 2).2 =
        [.app_clt_hdr true, .omp_set_num_threads 2, .spawn_clients "10.0.0.1" "",
         .spawn_clients "10.0.0.1" ""] := by
  refine ⟨fun prog => rfl, by decide, by decide, by decide, ?_, by decide⟩
  intro r loop
  cases r <;> cases h : loop 3 <;>
    simp [main, valid_args, Reactor.prog, ARGSNUM, ARG_PORT, digits_to_end, srv_env, run_srv,
      setup_srv, h, atoi, Reactor.SRVLOGFILE, BACKLOG] <;> split <;> simp_all

/-- Claim C22, evaluated on a failed echo: the claim asks that the byte total
of an open connection never decrease, also when `send` returns -1.  In both
reactors the connection on descriptor 5 has a byte total of 1000 after one
echo; a second packet whose `send` returns -1 is counted as a request and
the -1 is handed to `update_bytes_struct`: the total is 999, and the
connection is still open.  In `echo_loop` the failed `send` leaves the total
at 1000. -/
theorem failed_send_lowers_byte_total :
    (Bytes.total ((epoll_run busy_script).state.stats 0).bytes = 1000
      ∧ ((epoll_run busy_script).state.stats 0).requests = 1
      ∧ ((epoll_run (busy_script ++ [.ready [send_fails 5]])).state.stats 0).sd = 5
      ∧ ((epoll_run (busy_script ++ [.ready [send_fails 5]])).state.stats 0).requests = 2
      ∧ Bytes.total ((epoll_run (busy_script ++ [.ready [send_fails 5]])).state.stats 0).bytes
          = 999
      ∧ closes 5 (epoll_run (busy_script ++ [.ready [send_fails 5]])).state.trace = 0)
    ∧ (Bytes.total ((poll_run busy_poll_script).state.stats 1).bytes = 1000
      ∧ ((poll_run busy_poll_script).state.stats 1).requests = 1
      ∧ ((poll_run (busy_poll_script ++ [poll_send_fails 1])).state.clts 1).fd = 5
      ∧ ((poll_run (busy_poll_script ++ [poll_send_fails 1])).state.stats 1).requests = 2
      ∧ Bytes.total ((poll_run (busy_poll_script ++ [poll_send_fails 1])).state.stats 1).bytes
          = 999
      ∧ closes 5 (poll_run (busy_poll_script ++ [poll_send_fails 1])).state.trace = 0)
    ∧ (∀ freed_sd, (thread_run freed_sd [(.data (List.replicate PKTSIZE 97), 1000),
          (.data (List.replicate PKTSIZE 97), -1)]).state.stats.bytes.total = 1000) := by
  refine ⟨⟨by decide!, by decide, by decide, by decide, by decide!, by decide⟩,
    ⟨by decide!, by decide, by decide, by decide, by decide!, by decide⟩,
    fun v => thread_stats_after_failed_send v⟩

/-- Claim C23, evaluated on a connection whose byte counters are all zero: the
claim asks that the record hold the four fields and end with a line
terminator.  `append_srv_data` then makes three `fprintf` calls, for the
date, the time, and the peer with the request count; none of the four tests
of the byte counters holds, so no byte field and no line terminator is
written: the text ends with a tab.  With 500 bytes counted the record has
its byte field and ends with the line terminator. -/
theorem record_without_bytes_has_no_line_end (filename : String) (tm : Nat) (clt_ip : String)
    (requests sd : Int) :
    append_srv_data filename (no_bytes_stats tm clt_ip requests sd) true =
      (0, [.lock, .fopen filename true, .fprintf "%d/%d/%d ", .fprintf "%d:%d:%d \t\t",
           .fprintf "%s\t\t%d\t\t", .fclose, .unlock])
    ∧ written (append_srv_data filename (no_bytes_stats tm clt_ip requests sd) true).2
        = "%d/%d/%d %d:%d:%d \t\t%s\t\t%d\t\t".toList
    ∧ (written (append_srv_data filename (no_bytes_stats tm clt_ip requests sd) true).2).getLast?
        = some '\t'
    ∧ '\n' ∉ written (append_srv_data filename (no_bytes_stats tm clt_ip requests sd) true).2
    ∧ written (append_srv_data filename
          { no_bytes_stats tm clt_ip requests sd with bytes := ⟨500, 0, 0, 0⟩ } true).2
        = "%d/%d/%d %d:%d:%d \t\t%s\t\t%d\t\t\t%.2f Bytes\n".toList := by
  have h : append_srv_data filename (no_bytes_stats tm clt_ip requests sd) true =
      (0, [.lock, .fopen filename true, .fprintf "%d/%d/%d ", .fprintf "%d:%d:%d \t\t",
           .fprintf "%s\t\t%d\t\t", .fclose, .unlock]) := by
    simp [append_srv_data, no_bytes_stats, init_bytes_struct, bytes_line]
  have h2 : append_srv_data filename
          { no_bytes_stats tm clt_ip requests sd with bytes := ⟨500, 0, 0, 0⟩ } true =
      (0, [.lock, .fopen filename true, .fprintf "%d/%d/%d ", .fprintf "%d:%d:%d \t\t",
           .fprintf "%s\t\t%d\t\t", .fprintf "\t%.2f Bytes\n", .fclose, .unlock]) := by
    simp [append_srv_data, no_bytes_stats, init_bytes_struct, bytes_line]
  have hw : written [.lock, .fopen filename true, .fprintf "%d/%d/%d ",
      .fprintf "%d:%d:%d \t\t", .fprintf "%s\t\t%d\t\t", .fclose, .unlock]
        = "%d/%d/%d %d:%d:%d \t\t%s\t\t%d\t\t".toList := rfl
  have hw2 : written [.lock, .fopen filename true, .fprintf "%d/%d/%d ",
      .fprintf "%d:%d:%d \t\t", .fprintf "%s\t\t%d\t\t", .fprintf "\t%.2f Bytes\n", .fclose,
      .unlock] = "%d/%d/%d %d:%d:%d \t\t%s\t\t%d\t\t\t%.2f Bytes\n".toList := rfl
  rw [h, h2]
  simp only [hw, hw2]
  exact ⟨trivial, trivial, by decide, by decide, trivial⟩

/-- Claim C24: the variable `_timeout` of both reactors is 6000, not 15000 and
not 10000: the products of `0.1 * 60 * 1000`, rounded to `double` one after
the other, are 6 and 6000 exactly, as in exact arithmetic.  Every
`epoll_wait` of `run_epoll_loop` and every `poll` of `run_poll_loop`, from
any state and on any script, is called with this timeout, and at least one
call is made. -/
theorem idle_timeout_is_six_seconds (P : Nat) (s : EpollState) (script : List WaitRes)
    (sp : PollState) (pscript : List PollIn) :
    epoll_timeout = 6000 ∧ poll_timeout = 6000
    ∧ epoll_timeout ≠ 15 * 1000 ∧ poll_timeout ≠ 10 * 1000
    ∧ ((1 / 10 : ℚ) * 60 * 1000 = 6000)
    ∧ epoll_calls P s script ≠ []
    ∧ (epoll_calls P s script).map EpollWaitCall.timeout
        = List.replicate (epoll_calls P s script).length 6000
    ∧ poll_calls P sp pscript ≠ []
    ∧ (poll_calls P sp pscript).map PollCall.timeout
        = List.replicate (poll_calls P sp pscript).length 6000 := by
  have he : epoll_timeout = 6000 := by decide!
  have hp : poll_timeout = 6000 := by decide!
  refine ⟨he, hp, by rw [he]; decide, by rw [hp]; decide, by norm_num, ?_, ?_, ?_, ?_⟩
  · simpa [epoll_calls] using epoll_states_ne_nil P s script
  · simp [epoll_calls, he, List.map_map, Function.comp_def]
  · simpa [poll_calls] using poll_states_ne_nil P sp pscript
  · simp [poll_calls, hp, List.map_map, Function.comp_def]

/-- Claim C25, evaluated on an idle timeout: the claim asks that the loop
function return something else than the -1 of a failed wait, that `run_srv`
not return -1 and `main` not exit with status 1.  In both reactors the loop
function returns -1 on a timeout as on a failed wait, `run_srv` returns -1,
and `main`, started on port 7000 with every call succeeding, exits with
status 1 in both cases. -/
theorem idle_timeout_exits_like_failure :
    ((epoll_run idle_script).code = some (-1)
      ∧ (epoll_run (busy_script ++ [.error])).code = some (-1)
      ∧ epoll_main ["./srv_epoll", "7000"] idle_script
          = (some 1, [.app_srv_hdr "../data/srv_epoll_log" true, .create_socket 3,
              .setsockopt 3, .set_nonblocking 3 true, .bind_socket 3 7000 true,
              .listen_socket 3 100 true, .set_SIGINT true, .loop 3])
      ∧ (epoll_main ["./srv_epoll", "7000"] (busy_script ++ [.error])).1 = some 1
      ∧ (run_srv srv_env 7000 (fun sd => (run_epoll_loop PKTSIZE sd 4 true (fun _ => ⟨0, 0⟩)
          (fun _ => zero_stats) (fun _ => 0) idle_script).code)).1 = some (-1))
    ∧ ((poll_run idle_poll_script).code = some (-1)
      ∧ (poll_run (busy_poll_script ++ [{ poll_idle with wait := .error }])).code = some (-1)
      ∧ poll_main ["./srv_poll", "7000"] idle_poll_script
          = (some 1, [.app_srv_hdr "../data/srv_poll_log" true, .create_socket 3,
              .setsockopt 3, .set_nonblocking 3 true, .bind_socket 3 7000 true,
              .listen_socket 3 100 true, .set_SIGINT true, .loop 3])
      ∧ (poll_main ["./srv_poll", "7000"]
          (busy_poll_script ++ [{ poll_idle with wait := .error }])).1 = some 1
      ∧ (run_srv srv_env 7000 (fun sd => (run_poll_loop PKTSIZE sd (fun _ => ⟨0, 0, 0⟩)
          (fun _ => zero_stats) (fun _ => 0) 0 idle_poll_script).code)).1 = some (-1)) := by
  decide

/-- Claim C26: at every call of `poll` that `run_poll_loop` makes, on any
script, every slot whose descriptor is not -1 has an index below `_size`,
the number of slots handed to `poll`; and `_size` is one more than the
number of connections accepted so far, so it grows by one with each accept
and never shrinks. -/
theorem open_slots_are_watched (P : Nat) (sd_listen : Int) (clts0 : Nat → pollfd)
    (stats0 : Nat → srv_log_stats) (buff0 : Nat → UInt8) (ready0 : Int)
    (script : List PollIn) (st : PollState)
    (hst : st ∈ poll_states P (poll_init sd_listen clts0 stats0 buff0 ready0) script)
    (i : Nat) (hopen : (st.clts i).fd ≠ -1) :
    i < st.size ∧ st.size = 1 + accepted st.trace := by
  obtain ⟨_, _, _, _, h⟩ :=
    poll_states_inv sd_listen P script _ (poll_init_inv sd_listen clts0 stats0 buff0 ready0)
      st hst
  refine ⟨?_, poll_states_size P script _ rfl st hst⟩
  by_contra hlt
  exact hopen (h i (by omega))

/-- Claim C26 on `busy_poll_script`: one client accepted into slot 1, and two
slots watched. -/
theorem open_slots_are_watched_witness :
    (poll_run busy_poll_script).state
        ∈ poll_states PKTSIZE (poll_init 3 (fun _ => ⟨0, 0, 0⟩) (fun _ => zero_stats)
            (fun _ => 0) 0) busy_poll_script
    ∧ ((poll_run busy_poll_script).state.clts 1).fd ≠ -1
    ∧ 1 < (poll_run busy_poll_script).state.size
    ∧ (poll_run busy_poll_script).state.size
        = 1 + accepted (poll_run busy_poll_script).state.trace :=
  ⟨List.mem_of_getLast?_eq_some (poll_states_getLast PKTSIZE busy_poll_script _ _
      (Flow.eq_next_of_is_next (poll_run busy_poll_script) (by decide))),
    by decide,
    open_slots_are_watched PKTSIZE 3 (fun _ => ⟨0, 0, 0⟩) (fun _ => zero_stats) (fun _ => 0) 0
      busy_poll_script (poll_run busy_poll_script).state
      (List.mem_of_getLast?_eq_some (poll_states_getLast PKTSIZE busy_poll_script _ _
        (Flow.eq_next_of_is_next (poll_run busy_poll_script) (by decide))))
      1 (by decide)⟩

/-- Claim C27, evaluated on `churn_script`: the claim asks that the `_size`
handed to `poll` never exceed `MAXCLIENTS`.  On 14999 connections that
come and go one after the other, followed by one more accept, `_size` has
grown with each of the 15000 accepts while slot 1 was used again and again:
the loop is at a `poll` called with `MAXCLIENTS + 1` slots, one more than the
array has, and the pass that follows is outside the array. -/
theorem poll_size_outgrows_array :
    (poll_calls PKTSIZE (poll_init 3 (fun _ => ⟨0, 0, 0⟩) (fun _ => zero_stats) (fun _ => 0) 0)
        churn_script).getLast? = some ⟨MAXCLIENTS + 1, 6000⟩
    ∧ accepted (poll_run churn_script).state.trace = 15000
    ∧ closes 5 (poll_run churn_script).state.trace = 14999
    ∧ (poll_run churn_script).is_next = true
    ∧ (poll_run (churn_script ++ [poll_idle])).is_undefined = true := by
  obtain ⟨s2, hrun, hsz, hacc, hcl⟩ := churn_overflow PKTSIZE _ poll_init_churned
  have hrun2 : poll_run churn_script = .next s2 := hrun
  have hpt : poll_timeout = 6000 := by decide!
  have hlast := poll_states_getLast PKTSIZE churn_script _ s2 hrun
  refine ⟨?_, ?_, ?_, ?_, ?_⟩
  · rw [poll_calls, List.getLast?_map, hlast, Option.map_some', hsz, hpt]
  · rw [hrun2]; exact hacc
  · rw [hrun2]; exact hcl
  · rw [hrun2]; rfl
  · have hsz2 : s2.size > MAXCLIENTS := by rw [hsz]; decide
    have : poll_run (churn_script ++ [poll_idle]) = .undefined s2 := by
      rw [poll_run, run_poll_loop, poll_loop_append, hrun]
      simp [poll_loop, poll_pass, hsz2]
    rw [this]; rfl

/-- Claim C28, evaluated on the three exits of the loop of `echo_loop`: the
claim asks for exactly one `close` of the socket on each.  After the loop
the code calls `free(_args)` and then `close(_args->sd)` (lines 328-329):
the descriptor of that `close` is read from the freed block and is whatever
the block holds by then, `v`.  On a peer close the socket 5 has been closed
in the loop (line 305), so it is closed once when `v` is not 5 and twice
when it is; on a read error and on a send error the `close` after the
`free` is the only one, so the socket is closed once when `v` is 5 and not
at all when it is not.  For no `v` is the socket closed exactly once on the
three exits. -/
theorem socket_closed_after_free (v : Int) :
    ((thread_run v [(.data (List.replicate PKTSIZE 97), 1000), (.closed, 0)]).code = some 0
      ∧ (thread_run v [(.data (List.replicate PKTSIZE 97), 1000),
            (.closed, 0)]).state.trace.map Effect.brief
        = [("recv", 5), ("send", 5), ("recv", 5), ("close", 5), ("append_srv_data", 0),
           ("free", -1), ("close", v)]
      ∧ closes 5 (thread_run v [(.data (List.replicate PKTSIZE 97), 1000),
          (.closed, 0)]).state.trace = 1 + (if v = 5 then 1 else 0))
    ∧ ((thread_run v [(.error, 0)]).code = some 0
      ∧ (thread_run v [(.error, 0)]).state.trace.map Effect.brief
        = [("recv", 5), ("append_srv_data", 0), ("free", -1), ("close", v)]
      ∧ closes 5 (thread_run v [(.error, 0)]).state.trace = (if v = 5 then 1 else 0))
    ∧ ((thread_run v [(.data (List.replicate PKTSIZE 97), -1)]).code = some 0
      ∧ (thread_run v [(.data (List.replicate PKTSIZE 97), -1)]).state.trace.map Effect.brief
        = [("recv", 5), ("send", 5), ("append_srv_data", 0), ("free", -1), ("close", v)]
      ∧ closes 5 (thread_run v [(.data (List.replicate PKTSIZE 97), -1)]).state.trace
        = (if v = 5 then 1 else 0))
    ∧ ¬ (closes 5 (thread_run v [(.data (List.replicate PKTSIZE 97), 1000),
            (.closed, 0)]).state.trace = 1
        ∧ closes 5 (thread_run v [(.error, 0)]).state.trace = 1
        ∧ closes 5 (thread_run v [(.data (List.replicate PKTSIZE 97), -1)]).state.trace
            = 1) := by
  have e1 : thread_run v [(.data (List.replicate PKTSIZE 97), 1000), (.closed, 0)]
      = .ret 0 (echo_finish v (echo_body PKTSIZE thread_5
          (echo_body PKTSIZE thread_5 thread_start (.data (List.replicate PKTSIZE 97)) 1000).2
          .closed 0).2) := by
    rw [thread_run_start, echo_while_again _ _ _ _ _ _ _ (by decide),
      echo_while_leave _ _ _ _ _ _ _ (by decide)]
  have e2 : thread_run v [(.error, 0)]
      = .ret 0 (echo_finish v (echo_body PKTSIZE thread_5 thread_start .error 0).2) := by
    rw [thread_run_start, echo_while_leave _ _ _ _ _ _ _ (by decide)]
  have e3 : thread_run v [(.data (List.replicate PKTSIZE 97), -1)]
      = .ret 0 (echo_finish v (echo_body PKTSIZE thread_5 thread_start
          (.data (List.replicate PKTSIZE 97)) (-1)).2) := by
    rw [thread_run_start, echo_while_leave _ _ _ _ _ _ _ (by decide)]
  have c1 : closes 5 (thread_run v [(.data (List.replicate PKTSIZE 97), 1000),
      (.closed, 0)]).state.trace = 1 + (if v = 5 then 1 else 0) := by
    rw [e1]
    simp only [Flow.state, closes_finish]
    have : closes 5 (echo_body PKTSIZE thread_5
        (echo_body PKTSIZE thread_5 thread_start (.data (List.replicate PKTSIZE 97)) 1000).2
        .closed 0).2.trace = 1 := by decide
    rw [this]
  have c2 : closes 5 (thread_run v [(.error, 0)]).state.trace = (if v = 5 then 1 else 0) := by
    rw [e2]
    simp only [Flow.state, closes_finish]
    have : closes 5 (echo_body PKTSIZE thread_5 thread_start .error 0).2.trace = 0 := by decide
    rw [this, Nat.zero_add]
  have c3 : closes 5 (thread_run v [(.data (List.replicate PKTSIZE 97), -1)]).state.trace
      = (if v = 5 then 1 else 0) := by
    rw [e3]
    simp only [Flow.state, closes_finish]
    have : closes 5 (echo_body PKTSIZE thread_5 thread_start
        (.data (List.replicate PKTSIZE 97)) (-1)).2.trace = 0 := by decide
    rw [this, Nat.zero_add]
  refine ⟨⟨?_, ?_, c1⟩, ⟨?_, ?_, c2⟩, ⟨?_, ?_, c3⟩, ?_⟩
  · rw [e1]; rfl
  · rw [e1]
    simp only [Flow.state, brief_finish]
    rfl
  · rw [e2]; rfl
  · rw [e2]
    simp only [Flow.state, brief_finish]
    rfl
  · rw [e3]; rfl
  · rw [e3]
    simp only [Flow.state, brief_finish]
    rfl
  · rw [c1, c2, c3]
    by_cases h : v = 5 <;> simp [h]

/-- Claim C29: let `pre` be complete round trips made before the duration has
elapsed.  When the pass after them is a complete round trip at whose end
the duration has elapsed, `send_loop` returns 0 with a request count of the
number of round trips, `pre.length + 1`, the byte total of all the echoes,
and an average of the sum of the round-trip times over that count.  When
the pass after them finds the server closed, the request count is
`pre.length + 1`, one more than the round trips, the byte total covers the
echoes of `pre` only, and the average is the sum of the round-trip times of
`pre` divided by `pre.length + 1`.  On every script the request count is
the number of `send` calls that did not fail. -/
theorem requests_count_packets_sent (P : Nat) (sd : Int) (t : Nat) (t1 : Int) (avg0 : ℚ)
    (buff0 : Nat → UInt8) (pre : List CltIn) (last : CltIn)
    (hpre : ∀ inp ∈ pre, inp.round_trip P = true ∧ inp.elapsed t1 = false) :
    (last.round_trip P = true → last.elapsed t1 = true →
      ∃ s, send_loop P sd t t1 avg0 buff0 (pre ++ [last]) = .ret 0 s
        ∧ s.stats.requests = (pre.length : Int) + 1
        ∧ s.stats.bytes.total = (echo_bytes P (pre ++ [last]) : ℚ)
        ∧ s.trace.getLast? = some (.append_clt_data s.stats
            (elapsed_sum (pre ++ [last]) / ((pre.length : ℚ) + 1))))
    ∧ (last.server_closed P = true →
      ∃ s, send_loop P sd t t1 avg0 buff0 (pre ++ [last]) = .ret 0 s
        ∧ s.stats.requests = (pre.length : Int) + 1
        ∧ s.stats.bytes.total = (echo_bytes P pre : ℚ)
        ∧ s.trace.getLast? = some (.append_clt_data s.stats
            (elapsed_sum pre / ((pre.length : ℚ) + 1))))
    ∧ (∀ script, (send_loop P sd t t1 avg0 buff0 script).state.stats.requests
        = packets_sent (send_loop P sd t t1 avg0 buff0 script).state.trace) := by
  obtain ⟨s1, h1, h2, h3, h4⟩ := send_while_round_trips P sd t1 pre hpre
    { stats := { tm := t, bytes := init_bytes_struct ⟨0, 0, 0, 0⟩, requests := 0,
                 avg_time := avg0 },
      avg_time := 0, recv_buff := buff0, trace := [] }
  simp only [zero_add] at h2 h4
  have h3b : s1.stats.bytes.total = (echo_bytes P pre : ℚ) := by
    rw [h3]; simp [Bytes.total, init_bytes_struct]
  have hne : ¬ s1.stats.requests + 1 = 0 := by rw [h2]; omega
  have hq : ((s1.stats.requests + 1 : Int) : ℚ) = (pre.length : ℚ) + 1 := by
    rw [h2]; push_cast; ring
  refine ⟨?_, ?_, ?_⟩
  · intro hrt hel
    simp only [CltIn.round_trip, Bool.and_eq_true, bne_iff_ne, ne_eq] at hrt
    obtain ⟨⟨hs, hr1⟩, hr0⟩ := hrt
    simp only [CltIn.elapsed, decide_eq_true_eq] at hel
    simp only [send_loop]
    rw [h1 [last]]
    simp only [send_while, send_body, CltState.emit, hs, hr1, hr0, hel, if_false, if_true,
      send_finish, hne]
    refine ⟨_, rfl, ?_, ?_, ?_⟩
    · simp [h2]
    · simp only [update_bytes_total, h3b, echo_bytes, List.map_append, List.sum_append,
        List.map_cons, List.map_nil, List.sum_cons, List.sum_nil]
      push_cast
      ring
    · simp [List.getLast?_append, h4, elapsed_sum, hq]
  · intro hcl
    simp only [CltIn.server_closed, Bool.and_eq_true, bne_iff_ne, ne_eq, beq_iff_eq] at hcl
    obtain ⟨hs, hr0⟩ := hcl
    have hr1 : ¬ last.recv.ret P = -1 := by rw [hr0]; decide
    simp only [send_loop]
    rw [h1 [last]]
    have h01 : ¬ (0 : Int) = -1 := by decide
    simp only [send_while, send_body, CltState.emit, hs, hr0, h01, if_false, if_true,
      send_finish, hne]
    refine ⟨_, rfl, ?_, ?_, ?_⟩
    · simp [h2]
    · exact h3b
    · simp [List.getLast?_append, h4, hq]
  · intro script
    have := send_while_counts_sent P sd t1 script
      { stats := { tm := t, bytes := init_bytes_struct ⟨0, 0, 0, 0⟩, requests := 0,
                   avg_time := avg0 },
        avg_time := 0, recv_buff := buff0, trace := [] }
    simpa [packets_sent, send_loop] using this

/-- Claim C29 on two round trips followed by a third that ends after the
duration, and by a pass in which the server is found closed: the request
count is 3 in both runs. -/
theorem requests_count_packets_sent_witness :
    (∀ inp ∈ [clt_pass 100 (.data (List.replicate PKTSIZE 65)),
          clt_pass 110 (.data (List.replicate 400 65))],
        inp.round_trip PKTSIZE = true ∧ inp.elapsed 100 = false)
    ∧ (∃ s, clt_run ([clt_pass 100 (.data (List.replicate PKTSIZE 65)),
          clt_pass 110 (.data (List.replicate 400 65))]
            ++ [clt_pass 121 (.data (List.replicate PKTSIZE 65))]) = .ret 0 s
        ∧ s.stats.requests = 3
        ∧ s.stats.bytes.total = 2400
        ∧ s.trace.getLast? = some (.append_clt_data s.stats (9 / 2 / 3)))
    ∧ (∃ s, clt_run ([clt_pass 100 (.data (List.replicate PKTSIZE 65)),
          clt_pass 110 (.data (List.replicate 400 65))] ++ [clt_pass 111 .closed]) = .ret 0 s
        ∧ s.stats.requests = 3
        ∧ s.stats.bytes.total = 1400
        ∧ s.trace.getLast? = some (.append_clt_data s.stats (3 / 3))) := by
  have h := requests_count_packets_sent PKTSIZE 7 100 100 0 (fun _ => 0)
    [clt_pass 100 (.data (List.replicate PKTSIZE 65)),
      clt_pass 110 (.data (List.replicate 400 65))]
  refine ⟨by decide, ?_, ?_⟩
  · obtain ⟨s, h1, h2, h3, h4⟩ :=
      (h (clt_pass 121 (.data (List.replicate PKTSIZE 65))) (by decide)).1 (by decide)
        (by decide)
    have e : elapsed_sum ([clt_pass 100 (.data (List.replicate PKTSIZE 65)),
        clt_pass 110 (.data (List.replicate 400 65))]
          ++ [clt_pass 121 (.data (List.replicate PKTSIZE 65))])
        / ((([clt_pass 100 (.data (List.replicate PKTSIZE 65)),
          clt_pass 110 (.data (List.replicate 400 65))].length : Nat) : ℚ) + 1) = 9 / 2 / 3 := by
      decide!
    refine ⟨s, h1, by simpa using h2, ?_, ?_⟩
    · rw [h3]; decide!
    · rw [h4, e]
  · obtain ⟨s, h1, h2, h3, h4⟩ := (h (clt_pass 111 .closed) (by decide)).2.1 (by decide)
    have e : elapsed_sum [clt_pass 100 (.data (List.replicate PKTSIZE 65)),
        clt_pass 110 (.data (List.replicate 400 65))]
        / ((([clt_pass 100 (.data (List.replicate PKTSIZE 65)),
          clt_pass 110 (.data (List.replicate 400 65))].length : Nat) : ℚ) + 1) = 3 / 3 := by
      decide!
    refine ⟨s, h1, by simpa using h2, ?_, ?_⟩
    · rw [h3]; decide!
    · rw [h4, e]

/-- Claim C30: for byte counts that are not negative, after
`init_bytes_struct` and the first `n` calls of `update_bytes_struct`, in
exact arithmetic: the `bytes` field is at least 0 and below `KILO`, `bytes`
plus `KILO` times `kilobytes` is the sum of the counts added so far,
`megabytes` is not 0 only if `kilobytes` has reached `KILO`, and `gigabytes`
is not 0 only if `megabytes` has reached `KILO`. -/
theorem bytes_struct_keeps_the_sum (d0 : Bytes) (counts : List Int) (h : ∀ b ∈ counts, 0 ≤ b)
    (n : Nat) :
    0 ≤ (bytes_after d0 (counts.take n)).bytes
    ∧ (bytes_after d0 (counts.take n)).bytes < KILO
    ∧ (bytes_after d0 (counts.take n)).bytes + KILO * (bytes_after d0 (counts.take n)).kilobytes
        = (((counts.take n).sum : Int) : ℚ)
    ∧ ((bytes_after d0 (counts.take n)).megabytes ≠ 0
        → (bytes_after d0 (counts.take n)).kilobytes ≥ KILO)
    ∧ ((bytes_after d0 (counts.take n)).gigabytes ≠ 0
        → (bytes_after d0 (counts.take n)).megabytes ≥ KILO) := by
  have h0 : BytesInv (init_bytes_struct d0) := by
    simp [BytesInv, init_bytes_struct, KILO]
  obtain ⟨⟨h1, h2, _, _, h5, h6⟩, ht⟩ := foldl_update_bytes (counts.take n)
    (fun b hb => h b (List.mem_of_mem_take hb)) (init_bytes_struct d0) h0
  refine ⟨h1, h2, ?_, h5, h6⟩
  have : (init_bytes_struct d0).total = 0 := by simp [Bytes.total, init_bytes_struct]
  rw [this, zero_add] at ht
  exact ht

/-- Claim C30 on the counts 1000, 400 and 700, the first three of four: the
`bytes` field is 0 and `kilobytes` is 2.1. -/
theorem bytes_struct_keeps_the_sum_witness :
    (∀ b ∈ [1000, 400, 700, 999500], (0 : Int) ≤ b)
    ∧ 0 ≤ (bytes_after ⟨7, 7, 7, 7⟩ ([1000, 400, 700, 999500].take 3)).bytes
    ∧ (bytes_after ⟨7, 7, 7, 7⟩ ([1000, 400, 700, 999500].take 3)).bytes < KILO
    ∧ (bytes_after ⟨7, 7, 7, 7⟩ ([1000, 400, 700, 999500].take 3)).bytes
        + KILO * (bytes_after ⟨7, 7, 7, 7⟩ ([1000, 400, 700, 999500].take 3)).kilobytes
        = ((([1000, 400, 700, 999500] : List Int).take 3).sum : Int)
    ∧ ((bytes_after ⟨7, 7, 7, 7⟩ ([1000, 400, 700, 999500].take 3)).megabytes ≠ 0
        → (bytes_after ⟨7, 7, 7, 7⟩ ([1000, 400, 700, 999500].take 3)).kilobytes ≥ KILO)
    ∧ ((bytes_after ⟨7, 7, 7, 7⟩ ([1000, 400, 700, 999500].take 3)).gigabytes ≠ 0
        → (bytes_after ⟨7, 7, 7, 7⟩ ([1000, 400, 700, 999500].take 3)).megabytes ≥ KILO) :=
  ⟨by decide,
    bytes_struct_keeps_the_sum ⟨7, 7, 7, 7⟩ [1000, 400, 700, 999500] (by decide) 3⟩

end LinuxServers
